import Mathlib

/-! MPC.cpp: the nonlinear program of the model predictive controller

A shallow embedding of `src/MPC.cpp`.

* Scalars (`double`, `CppAD::AD<double>`) are idealised as elements of a field `α`
  (the theorems take a linear ordered field, so they hold in particular over the reals).
  The elementary functions `CppAD::cos`, `CppAD::sin`, `CppAD::atan` are parameters
  `cos sin atan : α → α`, so that every definition stays computable (for instance over `ℚ`);
  the theorems hold for every choice of the three functions.
* Vectors (`CPPAD_TESTVECTOR`, `Eigen::VectorXd`, `std::vector`) are lists; `v[i]` is `rd v i`
  and the assignment `v[i] = a` is `v.set i a`.
* The mutable globals `N` and `latency_ind` are passed as the parameters `n` and `lat`, so that
  statements about every horizon can be made; the values of the program are `N` and
  `latency_ind`.  Index arithmetic is `size_t` arithmetic; it is modelled in `Nat`, which agrees
  with the program as long as nothing wraps around (`1 ≤ n`, resp. `2 ≤ n` for `n - 2`).
* `for` loops are `forLoop lo hi body`: the body is run for `i = lo, lo + 1, ..., hi - 1`.
* To speak about the indices at which the code accesses its vectors, `FG_eval` and the bound
  assignments of `MPC::Solve` are embedded a second time with every `v[i]` recorded
  (`FG_eval_traced`, `Solve_vars_bounds_traced`, `Solve_constraints_bounds_traced`); the values
  of these are proved equal to those of the first embedding.
-/

namespace MPC

/-! ## Globals (MPC.cpp lines 9-36) -/

/-- Global `size_t N = 12`: the number of timesteps of the horizon. -/
def N : Nat := 12

/-- Global `double dt = 0.05`. -/
def dt (α : Type) [Field α] : α := 0.05

/-- Global `int latency_ind = 2`, a number of timesteps. -/
def latency_ind : Nat := 2

/-- Global `const double Lf = 2.67`. -/
def Lf (α : Type) [Field α] : α := 2.67

/-- Global `double ref_v = 75`. -/
def ref_v (α : Type) [Field α] : α := 75

/-- Global `double ref_cte = 0`. -/
def ref_cte (α : Type) [Field α] : α := 0

/-- Global `double ref_epsi = 0`. -/
def ref_epsi (α : Type) [Field α] : α := 0

/-- Global `size_t x_start_ind = 0`. -/
def x_start_ind : Nat := 0

/-- Global `size_t y_start_ind = x_start_ind + N`. -/
def y_start_ind (n : Nat) : Nat := x_start_ind + n

/-- Global `size_t psi_start_ind = y_start_ind + N`. -/
def psi_start_ind (n : Nat) : Nat := y_start_ind n + n

/-- Global `size_t v_start_ind = psi_start_ind + N`. -/
def v_start_ind (n : Nat) : Nat := psi_start_ind n + n

/-- Global `size_t cte_start_ind = v_start_ind + N`. -/
def cte_start_ind (n : Nat) : Nat := v_start_ind n + n

/-- Global `size_t epsi_start_ind = cte_start_ind + N`. -/
def epsi_start_ind (n : Nat) : Nat := cte_start_ind n + n

/-- Global `size_t delta_start_ind = epsi_start_ind + N`. -/
def delta_start_ind (n : Nat) : Nat := epsi_start_ind n + n

/-- Global `size_t a_start_ind = delta_start_ind + N - 1`. -/
def a_start_ind (n : Nat) : Nat := delta_start_ind n + n - 1

/-- Local `size_t n_vars = N * 6 + (N - 1) * 2` of `MPC::Solve` (line 150). -/
def n_vars (n : Nat) : Nat := n * 6 + (n - 1) * 2

/-- Local `size_t n_constraints = N * 6` of `MPC::Solve` (line 152). -/
def n_constraints (n : Nat) : Nat := n * 6

/-! ## Vectors and loops -/

/-- The read `v[i]` of a vector.  An index outside the vector reads as `0`, and an
assignment `v.set i a` outside the vector is dropped; the theorems below keep the indices they
speak about inside the vectors. -/
def rd {α : Type} [Field α] (v : List α) (i : Nat) : α := v.getD i 0

/-- The loop `for (i = lo; i < hi; i++) s = body i s`. -/
def forLoop {σ : Type} (lo hi : Nat) (body : Nat → σ → σ) (s : σ) : σ :=
  (List.range' lo (hi - lo)).foldl (fun s i => body i s) s

/-- A vector `Dvector v(n)` of `n` entries (all entries the program reads are assigned
first; the fresh entries are taken to be `0`). -/
def Dvector {α : Type} [Field α] (n : Nat) : List α := List.replicate n 0

/-! ## FG_eval::operator() (MPC.cpp lines 49-124) -/

section FG_eval

variable {α : Type} [Field α]

/-- Lines 56-60: the part of the cost based on the reference state. -/
def cost_reference (n : Nat) (vars fg : List α) : List α :=
  forLoop 0 n (fun t fg =>
    let fg := fg.set 0 (rd fg 0 + (rd vars (cte_start_ind n + t) - ref_cte α) ^ 2)
    let fg := fg.set 0 (rd fg 0 + (rd vars (epsi_start_ind n + t) - ref_epsi α) ^ 2)
    let fg := fg.set 0 (rd fg 0 + (rd vars (v_start_ind n + t) - ref_v α) ^ 2)
    fg) fg

/-- Lines 63-66: minimize the use of actuators. -/
def cost_actuators (n : Nat) (vars fg : List α) : List α :=
  forLoop 0 (n - 1) (fun t fg =>
    let fg := fg.set 0 (rd fg 0 + rd vars (delta_start_ind n + t) ^ 2)
    let fg := fg.set 0 (rd fg 0 + rd vars (a_start_ind n + t) ^ 2)
    fg) fg

/-- Lines 69-72: minimize the value gap between sequential actuations. -/
def cost_gaps (n : Nat) (vars fg : List α) : List α :=
  forLoop 0 (n - 2) (fun t fg =>
    let fg := fg.set 0 (rd fg 0 +
      700 * (rd vars (delta_start_ind n + t + 1) - rd vars (delta_start_ind n + t)) ^ 2)
    let fg := fg.set 0 (rd fg 0 +
      (rd vars (a_start_ind n + t + 1) - rd vars (a_start_ind n + t)) ^ 2)
    fg) fg

/-- Lines 75-80: the constraints that output the state of timestep 0. -/
def initial_constraints (n : Nat) (vars fg : List α) : List α :=
  let fg := fg.set (1 + x_start_ind) (rd vars x_start_ind)
  let fg := fg.set (1 + y_start_ind n) (rd vars (y_start_ind n))
  let fg := fg.set (1 + psi_start_ind n) (rd vars (psi_start_ind n))
  let fg := fg.set (1 + v_start_ind n) (rd vars (v_start_ind n))
  let fg := fg.set (1 + cte_start_ind n) (rd vars (cte_start_ind n))
  let fg := fg.set (1 + epsi_start_ind n) (rd vars (epsi_start_ind n))
  fg

/-- Lines 85-122: the body of the loop over the rest of the constraints. -/
def model_step (cos sin atan : α → α) (n : Nat) (coeffs vars : List α) (i : Nat)
    (fg : List α) : List α :=
  -- The state at time t+1.
  let x1 := rd vars (x_start_ind + i + 1)
  let y1 := rd vars (y_start_ind n + i + 1)
  let psi1 := rd vars (psi_start_ind n + i + 1)
  let v1 := rd vars (v_start_ind n + i + 1)
  let cte1 := rd vars (cte_start_ind n + i + 1)
  let epsi1 := rd vars (epsi_start_ind n + i + 1)
  -- The state at time t.
  let x0 := rd vars (x_start_ind + i)
  let y0 := rd vars (y_start_ind n + i)
  let psi0 := rd vars (psi_start_ind n + i)
  let v0 := rd vars (v_start_ind n + i)
  let _cte0 := rd vars (cte_start_ind n + i)
  let epsi0 := rd vars (epsi_start_ind n + i)
  -- Only consider the actuation at time t.
  let delta0 := rd vars (delta_start_ind n + i)
  let a0 := rd vars (a_start_ind n + i)
  let f0 := rd coeffs 0 + rd coeffs 1 * x0 + rd coeffs 2 * x0 * x0 + rd coeffs 3 * x0 * x0 * x0
  let psides0 := atan (rd coeffs 1 + 2 * rd coeffs 2 * x0 + 3 * rd coeffs 3 * x0 * x0)
  let fg := fg.set (2 + x_start_ind + i) (x1 - (x0 + v0 * cos psi0 * dt α))
  let fg := fg.set (2 + y_start_ind n + i) (y1 - (y0 + v0 * sin psi0 * dt α))
  let fg := fg.set (2 + psi_start_ind n + i) (psi1 - (psi0 + v0 * delta0 / Lf α * dt α))
  let fg := fg.set (2 + v_start_ind n + i) (v1 - (v0 + a0 * dt α))
  let fg := fg.set (2 + cte_start_ind n + i) (cte1 - ((f0 - y0) + (v0 * sin epsi0 * dt α)))
  let fg := fg.set (2 + epsi_start_ind n + i)
    (epsi1 - ((psi0 - psides0) + v0 * delta0 / Lf α * dt α))
  fg

/-- Lines 83-123: the rest of the constraints. -/
def model_constraints (cos sin atan : α → α) (n : Nat) (coeffs vars fg : List α) : List α :=
  forLoop 0 (n - 1) (model_step cos sin atan n coeffs vars) fg

/-- The call `fg_eval(fg, vars)` of `FG_eval::operator()`, lines 49-124: `fg` is the vector
the solver hands in (of `1 + n_constraints` entries), the result is `fg` after the call.
`fg[0]` is the cost, `fg[1 + r]` is constraint row `r`. -/
def FG_eval (cos sin atan : α → α) (n : Nat) (coeffs : List α) (fg vars : List α) : List α :=
  let fg := fg.set 0 0
  let fg := cost_reference n vars fg
  let fg := cost_actuators n vars fg
  let fg := cost_gaps n vars fg
  let fg := initial_constraints n vars fg
  let fg := model_constraints cos sin atan n coeffs vars fg
  fg

end FG_eval

/-! ## MPC::Solve (MPC.cpp lines 133-281) -/

/-- The enumeration `CppAD::ipopt::solve_result<Dvector>::status_type` of the solver library
(`cppad/ipopt/solve_result.hpp`); `MPC::Solve` only compares it with `success`. -/
inductive status_type where
  | not_defined
  | success
  | maxiter_exceeded
  | stop_at_tiny_step
  | stop_at_acceptable_point
  | local_infeasibility
  | user_requested_stop
  | feasible_point_found
  | diverging_iterates
  | restoration_failure
  | error_in_step_computation
  | invalid_number_detected
  | too_few_degrees_of_freedom
  | internal_error
  | unknown
  deriving DecidableEq, Repr

/-- The fields of `CppAD::ipopt::solve_result<Dvector>` that `MPC::Solve` reads. -/
structure solve_result (α : Type) where
  status : status_type
  x : List α
  obj_value : α

/-- Modelled from the spec: the struct `Solution` is declared in `MPC.h`, which is not among
the sources.  Of the specification's `Solution` these are the four sequences that `MPC::Solve`
fills (`sol.X`, `sol.Y`, `sol.Delta`, `sol.A`); `MPC::Solve` assigns nothing else to it, in
particular no cost and no status. -/
structure Solution (α : Type) where
  X : List α
  Y : List α
  Delta : List α
  A : List α

section Solve

variable {α : Type} [Field α]

/-- Lines 143-166: the initial value of the independent variables. -/
def Solve_vars (n : Nat) (state : List α) : List α :=
  let x := rd state 0
  let y := rd state 1
  let psi := rd state 2
  let v := rd state 3
  let cte := rd state 4
  let epsi := rd state 5
  let vars : List α := Dvector (n_vars n)
  let vars := forLoop 0 (n_vars n) (fun i vars => vars.set i 0) vars
  let vars := vars.set x_start_ind x
  let vars := vars.set (y_start_ind n) y
  let vars := vars.set (psi_start_ind n) psi
  let vars := vars.set (v_start_ind n) v
  let vars := vars.set (cte_start_ind n) cte
  let vars := vars.set (epsi_start_ind n) epsi
  vars

/-- Lines 168-201: the lower and upper limits for the variables, as the pair
`(vars_lowerbound, vars_upperbound)`.  The previous actuation `delta_prev`, `a_prev` is
declared outside `MPC.cpp` and is a parameter here. -/
def Solve_vars_bounds (n lat : Nat) (delta_prev a_prev : α) : List α × List α :=
  let vars_lowerbound : List α := Dvector (n_vars n)
  let vars_upperbound : List α := Dvector (n_vars n)
  -- Set all non-actuators upper and lowerlimits to the max negative and positive values.
  let (vars_lowerbound, vars_upperbound) :=
    forLoop 0 (delta_start_ind n) (fun i (b : List α × List α) =>
      (b.1.set i (-1.0e17), b.2.set i 1.0e17)) (vars_lowerbound, vars_upperbound)
  -- The upper and lower limits of delta are set to -25 and 25 degrees (values in radians).
  let (vars_lowerbound, vars_upperbound) :=
    forLoop (delta_start_ind n) (a_start_ind n) (fun i (b : List α × List α) =>
      (b.1.set i (-0.436332), b.2.set i 0.436332)) (vars_lowerbound, vars_upperbound)
  -- constrain delta to be the previous control for the latency time
  let (vars_lowerbound, vars_upperbound) :=
    forLoop (delta_start_ind n) (delta_start_ind n + lat) (fun i (b : List α × List α) =>
      (b.1.set i delta_prev, b.2.set i delta_prev)) (vars_lowerbound, vars_upperbound)
  -- Acceleration/decceleration upper and lower limits.
  let (vars_lowerbound, vars_upperbound) :=
    forLoop (a_start_ind n) (n_vars n) (fun i (b : List α × List α) =>
      (b.1.set i (-1.0), b.2.set i 1.0)) (vars_lowerbound, vars_upperbound)
  -- constrain a to be the previous control for the latency time
  let (vars_lowerbound, vars_upperbound) :=
    forLoop (a_start_ind n) (a_start_ind n + lat) (fun i (b : List α × List α) =>
      (b.1.set i a_prev, b.2.set i a_prev)) (vars_lowerbound, vars_upperbound)
  (vars_lowerbound, vars_upperbound)

/-- Lines 203-224: the lower and upper limits for the constraints, as the pair
`(constraints_lowerbound, constraints_upperbound)`. -/
def Solve_constraints_bounds (n : Nat) (state : List α) : List α × List α :=
  let x := rd state 0
  let y := rd state 1
  let psi := rd state 2
  let v := rd state 3
  let cte := rd state 4
  let epsi := rd state 5
  let constraints_lowerbound : List α := Dvector (n_constraints n)
  let constraints_upperbound : List α := Dvector (n_constraints n)
  let (constraints_lowerbound, constraints_upperbound) :=
    forLoop 0 (n_constraints n) (fun i (b : List α × List α) =>
      (b.1.set i 0, b.2.set i 0)) (constraints_lowerbound, constraints_upperbound)
  let constraints_lowerbound := constraints_lowerbound.set x_start_ind x
  let constraints_lowerbound := constraints_lowerbound.set (y_start_ind n) y
  let constraints_lowerbound := constraints_lowerbound.set (psi_start_ind n) psi
  let constraints_lowerbound := constraints_lowerbound.set (v_start_ind n) v
  let constraints_lowerbound := constraints_lowerbound.set (cte_start_ind n) cte
  let constraints_lowerbound := constraints_lowerbound.set (epsi_start_ind n) epsi
  let constraints_upperbound := constraints_upperbound.set x_start_ind x
  let constraints_upperbound := constraints_upperbound.set (y_start_ind n) y
  let constraints_upperbound := constraints_upperbound.set (psi_start_ind n) psi
  let constraints_upperbound := constraints_upperbound.set (v_start_ind n) v
  let constraints_upperbound := constraints_upperbound.set (cte_start_ind n) cte
  let constraints_upperbound := constraints_upperbound.set (epsi_start_ind n) epsi
  (constraints_lowerbound, constraints_upperbound)

/-- Lines 262-269: the loop that fills the returned `Solution` from the solver's vector
(`push_back` appends at the end). -/
def Solve_extract (n : Nat) (solution : solve_result α) : Solution α :=
  let sol : Solution α := ⟨[], [], [], []⟩
  forLoop 0 (n - 1) (fun i sol =>
    let sol := { sol with X := sol.X ++ [rd solution.x (x_start_ind + i)] }
    let sol := { sol with Y := sol.Y ++ [rd solution.x (y_start_ind n + i)] }
    let sol := { sol with Delta := sol.Delta ++ [rd solution.x (delta_start_ind n + i)] }
    let sol := { sol with A := sol.A ++ [rd solution.x (a_start_ind n + i)] }
    sol) sol

/-- The type of the library call `CppAD::ipopt::solve(options, xi, xl, xu, gl, gu, fg_eval,
solution)`: from the initial point, the variable bounds, the constraint bounds and the
evaluator it produces the `solve_result`. -/
abbrev ipopt_solver (α : Type) : Type :=
  List α → List α → List α → List α → List α → (List α → List α → List α) → solve_result α

/-- The function `MPC::Solve(state, coeffs)`, lines 133-281.  The solver of the library is the
parameter `solve`; the line printed to `std::cout` is not modelled.  The flag `ok` is
computed as in the source, which never reads it. -/
def Solve (cos sin atan : α → α) (solve : ipopt_solver α) (n lat : Nat)
    (delta_prev a_prev : α) (state coeffs : List α) : Solution α :=
  let ok : Bool := true
  let vars := Solve_vars n state
  let (vars_lowerbound, vars_upperbound) := Solve_vars_bounds n lat delta_prev a_prev
  let (constraints_lowerbound, constraints_upperbound) := Solve_constraints_bounds n state
  let fg_eval := FG_eval cos sin atan n coeffs
  let solution := solve vars vars_lowerbound vars_upperbound constraints_lowerbound
    constraints_upperbound fg_eval
  let _ok : Bool := ok && decide (solution.status = status_type.success)
  let sol := Solve_extract n solution
  let _cost := solution.obj_value
  sol

end Solve

/-! ## The kinematic model and the bounds, in the words of the specification

These definitions are not translations of code: they restate the model of the specification
(section 4.3) and what it means for a vector to lie within bounds, and the program is compared
with them. -/

/-- The state of the specification's data model: `x, y, psi, v, cte, epsi`. -/
@[ext]
structure State (α : Type) where
  x : α
  y : α
  psi : α
  v : α
  cte : α
  epsi : α

section Model

variable {α : Type} [Field α]

/-- The reference path `f(x) = c0 + c1·x + c2·x² + c3·x³`. -/
def f_path (coeffs : List α) (x : α) : α :=
  rd coeffs 0 + rd coeffs 1 * x + rd coeffs 2 * x ^ 2 + rd coeffs 3 * x ^ 3

/-- The reference heading `psi_des = atan(c1 + 2·c2·x + 3·c3·x²)`. -/
def psi_des (atan : α → α) (coeffs : List α) (x : α) : α :=
  atan (rd coeffs 1 + 2 * rd coeffs 2 * x + 3 * rd coeffs 3 * x ^ 2)

/-- The dynamics equations of the specification: the state predicted for the next timestep
from the state `s` and the actuation `delta`, `a`. -/
def predict (cos sin atan : α → α) (coeffs : List α) (s : State α) (delta a : α) : State α where
  x := s.x + s.v * cos s.psi * dt α
  y := s.y + s.v * sin s.psi * dt α
  psi := s.psi + (s.v / Lf α) * delta * dt α
  v := s.v + a * dt α
  cte := (f_path coeffs s.x - s.y) + s.v * sin s.epsi * dt α
  epsi := (s.psi - psi_des atan coeffs s.x) + (s.v * delta / Lf α) * dt α

/-- The state entries of timestep `t` in the decision vector `vars`. -/
def state_at (n : Nat) (vars : List α) (t : Nat) : State α where
  x := rd vars (x_start_ind + t)
  y := rd vars (y_start_ind n + t)
  psi := rd vars (psi_start_ind n + t)
  v := rd vars (v_start_ind n + t)
  cte := rd vars (cte_start_ind n + t)
  epsi := rd vars (epsi_start_ind n + t)

/-- The residual `nextValue − predictedValue` of the step from `t` to `t + 1`, for the six
fields, with the actuation entries of `vars` at step `t`. -/
def residual (cos sin atan : α → α) (n : Nat) (coeffs vars : List α) (t : Nat) : State α :=
  let next := state_at n vars (t + 1)
  let predicted := predict cos sin atan coeffs (state_at n vars t)
    (rd vars (delta_start_ind n + t)) (rd vars (a_start_ind n + t))
  { x := next.x - predicted.x
    y := next.y - predicted.y
    psi := next.psi - predicted.psi
    v := next.v - predicted.v
    cte := next.cte - predicted.cte
    epsi := next.epsi - predicted.epsi }

/-- The given state vector `state[0..5]` as a `State`. -/
def state_of (state : List α) : State α where
  x := rd state 0
  y := rd state 1
  psi := rd state 2
  v := rd state 3
  cte := rd state 4
  epsi := rd state 5

/-- Forward simulation: the trajectory obtained from the initial state `init` by applying the
dynamics equations with the actuation sequences `delta`, `a`. -/
def simulate (cos sin atan : α → α) (coeffs : List α) (init : State α) (delta a : Nat → α) :
    Nat → State α
  | 0 => init
  | t + 1 => predict cos sin atan coeffs (simulate cos sin atan coeffs init delta a t)
      (delta t) (a t)

/-- The eight blocks of the variable layout as pairs (start, length), in the order
x, y, psi, v, cte, epsi, delta, a. -/
def blocks (n : Nat) : List (Nat × Nat) :=
  [(x_start_ind, n), (y_start_ind n, n), (psi_start_ind n, n), (v_start_ind n, n),
   (cte_start_ind n, n), (epsi_start_ind n, n), (delta_start_ind n, n - 1),
   (a_start_ind n, n - 1)]

/-- Index `i` lies in the block `b = (start, length)`. -/
def in_block (b : Nat × Nat) (i : Nat) : Prop := b.1 ≤ i ∧ i < b.1 + b.2

instance (b : Nat × Nat) (i : Nat) : Decidable (in_block b i) :=
  inferInstanceAs (Decidable (b.1 ≤ i ∧ i < b.1 + b.2))

end Model

/-- The vector `v` lies within the bounds `lower`, `upper`: it has their length and every
entry is between its lower and its upper bound. -/
def within_bounds {α : Type} [LinearOrderedField α] (lower upper v : List α) : Prop :=
  v.length = lower.length ∧ ∀ i, i < lower.length → rd lower i ≤ rd v i ∧ rd v i ≤ rd upper i

instance {α : Type} [LinearOrderedField α] (lower upper v : List α) :
    Decidable (within_bounds lower upper v) :=
  inferInstanceAs (Decidable (v.length = lower.length ∧
    ∀ i, i < lower.length → rd lower i ≤ rd v i ∧ rd v i ≤ rd upper i))

/-- The constraint values `g` that the solver compares with the constraint bounds:
`g[r] = fg[1 + r]`. -/
def constraint_values {α : Type} (fg : List α) : List α := fg.tail

/-! ## The program with its vector accesses recorded

The definitions `FG_eval`, `Solve_vars_bounds` and `Solve_constraints_bounds` above give the
vectors that the code computes; an assignment `v[i] = a` with `i` outside `v` leaves no mark in
them.  To speak about the indices at which the code reads and assigns its vectors, the same
lines are embedded once more with every `v[i]` recorded: a `Traced` value is the value computed
together with the list of the accesses executed, in program order, each with the size that the
vector has at that moment.  The theorems `val_..._traced` state that the values of the traced
definitions are those of the definitions above. -/

/-- The vectors that `FG_eval::operator()` and `MPC::Solve` index. -/
inductive Vec where
  | fg
  | vars
  | coeffs
  | state
  | vars_lowerbound
  | vars_upperbound
  | constraints_lowerbound
  | constraints_upperbound
  deriving DecidableEq, Repr

/-- One execution of `v[i]`: the vector `v`, whether it is an assignment `v[i] = a` (or else a
read), the index `i`, and the size of `v` at that moment. -/
structure Access where
  vec : Vec
  write : Bool
  index : Nat
  size : Nat
  deriving DecidableEq, Repr

/-- A value computed by the program together with the accesses executed on the way, in
program order. -/
structure Traced (σ : Type) where
  val : σ
  log : List Access

instance : Monad Traced where
  pure a := ⟨a, []⟩
  bind x f := ⟨(f x.val).val, x.log ++ (f x.val).log⟩

/-- The read `v[i]`, recorded. -/
def read {α : Type} [Field α] (vec : Vec) (v : List α) (i : Nat) : Traced α :=
  ⟨rd v i, [⟨vec, false, i, v.length⟩]⟩

/-- The assignment `v[i] = a`, recorded. -/
def assign {α : Type} (vec : Vec) (v : List α) (i : Nat) (a : α) : Traced (List α) :=
  ⟨v.set i a, [⟨vec, true, i, v.length⟩]⟩

/-- The loop `for (i = lo; i < hi; i++) s = body i s` with the accesses of the passes
recorded one after the other. -/
def forLoop_traced {σ : Type} (lo hi : Nat) (body : Nat → σ → Traced σ) (s : σ) : Traced σ :=
  (List.range' lo (hi - lo)).foldlM (fun s i => body i s) s

/-- The indices at which the accesses of `log` assign the vector `vec`, in order. -/
def writes_of (vec : Vec) (log : List Access) : List Nat :=
  (log.filter (fun a => decide (a.vec = vec) && a.write)).map Access.index

/-- The indices at which the accesses of `log` read the vector `vec`, in order. -/
def reads_of (vec : Vec) (log : List Access) : List Nat :=
  (log.filter (fun a => decide (a.vec = vec) && !a.write)).map Access.index

/-- Every access of `log` is inside its vector. -/
def in_range (log : List Access) : Prop := ∀ a ∈ log, a.index < a.size

instance (log : List Access) : Decidable (in_range log) :=
  inferInstanceAs (Decidable (∀ a ∈ log, a.index < a.size))

section Traced

variable {α : Type} [Field α]

/-- Lines 56-60 with the accesses recorded (`fg[0] += e` evaluates `e`, reads `fg[0]` and
assigns `fg[0]`). -/
def cost_reference_traced (n : Nat) (vars fg : List α) : Traced (List α) :=
  forLoop_traced 0 n (fun t fg => do
    let cte ← read Vec.vars vars (cte_start_ind n + t)
    let c ← read Vec.fg fg 0
    let fg ← assign Vec.fg fg 0 (c + (cte - ref_cte α) ^ 2)
    let epsi ← read Vec.vars vars (epsi_start_ind n + t)
    let c ← read Vec.fg fg 0
    let fg ← assign Vec.fg fg 0 (c + (epsi - ref_epsi α) ^ 2)
    let v ← read Vec.vars vars (v_start_ind n + t)
    let c ← read Vec.fg fg 0
    let fg ← assign Vec.fg fg 0 (c + (v - ref_v α) ^ 2)
    pure fg) fg

/-- Lines 63-66 with the accesses recorded. -/
def cost_actuators_traced (n : Nat) (vars fg : List α) : Traced (List α) :=
  forLoop_traced 0 (n - 1) (fun t fg => do
    let delta ← read Vec.vars vars (delta_start_ind n + t)
    let c ← read Vec.fg fg 0
    let fg ← assign Vec.fg fg 0 (c + delta ^ 2)
    let a ← read Vec.vars vars (a_start_ind n + t)
    let c ← read Vec.fg fg 0
    let fg ← assign Vec.fg fg 0 (c + a ^ 2)
    pure fg) fg

/-- Lines 69-72 with the accesses recorded. -/
def cost_gaps_traced (n : Nat) (vars fg : List α) : Traced (List α) :=
  forLoop_traced 0 (n - 2) (fun t fg => do
    let delta1 ← read Vec.vars vars (delta_start_ind n + t + 1)
    let delta0 ← read Vec.vars vars (delta_start_ind n + t)
    let c ← read Vec.fg fg 0
    let fg ← assign Vec.fg fg 0 (c + 700 * (delta1 - delta0) ^ 2)
    let a1 ← read Vec.vars vars (a_start_ind n + t + 1)
    let a0 ← read Vec.vars vars (a_start_ind n + t)
    let c ← read Vec.fg fg 0
    let fg ← assign Vec.fg fg 0 (c + (a1 - a0) ^ 2)
    pure fg) fg

/-- Lines 75-80 with the accesses recorded. -/
def initial_constraints_traced (n : Nat) (vars fg : List α) : Traced (List α) := do
  let x ← read Vec.vars vars x_start_ind
  let fg ← assign Vec.fg fg (1 + x_start_ind) x
  let y ← read Vec.vars vars (y_start_ind n)
  let fg ← assign Vec.fg fg (1 + y_start_ind n) y
  let psi ← read Vec.vars vars (psi_start_ind n)
  let fg ← assign Vec.fg fg (1 + psi_start_ind n) psi
  let v ← read Vec.vars vars (v_start_ind n)
  let fg ← assign Vec.fg fg (1 + v_start_ind n) v
  let cte ← read Vec.vars vars (cte_start_ind n)
  let fg ← assign Vec.fg fg (1 + cte_start_ind n) cte
  let epsi ← read Vec.vars vars (epsi_start_ind n)
  let fg ← assign Vec.fg fg (1 + epsi_start_ind n) epsi
  pure fg

/-- Lines 85-122, the body of the loop over the rest of the constraints, with the accesses
recorded. -/
def model_step_traced (cos sin atan : α → α) (n : Nat) (coeffs vars : List α) (i : Nat)
    (fg : List α) : Traced (List α) := do
  -- The state at time t+1.
  let x1 ← read Vec.vars vars (x_start_ind + i + 1)
  let y1 ← read Vec.vars vars (y_start_ind n + i + 1)
  let psi1 ← read Vec.vars vars (psi_start_ind n + i + 1)
  let v1 ← read Vec.vars vars (v_start_ind n + i + 1)
  let cte1 ← read Vec.vars vars (cte_start_ind n + i + 1)
  let epsi1 ← read Vec.vars vars (epsi_start_ind n + i + 1)
  -- The state at time t.
  let x0 ← read Vec.vars vars (x_start_ind + i)
  let y0 ← read Vec.vars vars (y_start_ind n + i)
  let psi0 ← read Vec.vars vars (psi_start_ind n + i)
  let v0 ← read Vec.vars vars (v_start_ind n + i)
  let _cte0 ← read Vec.vars vars (cte_start_ind n + i)
  let epsi0 ← read Vec.vars vars (epsi_start_ind n + i)
  -- Only consider the actuation at time t.
  let delta0 ← read Vec.vars vars (delta_start_ind n + i)
  let a0 ← read Vec.vars vars (a_start_ind n + i)
  let c0 ← read Vec.coeffs coeffs 0
  let c1 ← read Vec.coeffs coeffs 1
  let c2 ← read Vec.coeffs coeffs 2
  let c3 ← read Vec.coeffs coeffs 3
  let f0 := c0 + c1 * x0 + c2 * x0 * x0 + c3 * x0 * x0 * x0
  let d1 ← read Vec.coeffs coeffs 1
  let d2 ← read Vec.coeffs coeffs 2
  let d3 ← read Vec.coeffs coeffs 3
  let psides0 := atan (d1 + 2 * d2 * x0 + 3 * d3 * x0 * x0)
  let fg ← assign Vec.fg fg (2 + x_start_ind + i) (x1 - (x0 + v0 * cos psi0 * dt α))
  let fg ← assign Vec.fg fg (2 + y_start_ind n + i) (y1 - (y0 + v0 * sin psi0 * dt α))
  let fg ← assign Vec.fg fg (2 + psi_start_ind n + i) (psi1 - (psi0 + v0 * delta0 / Lf α * dt α))
  let fg ← assign Vec.fg fg (2 + v_start_ind n + i) (v1 - (v0 + a0 * dt α))
  let fg ← assign Vec.fg fg (2 + cte_start_ind n + i)
    (cte1 - ((f0 - y0) + (v0 * sin epsi0 * dt α)))
  let fg ← assign Vec.fg fg (2 + epsi_start_ind n + i)
    (epsi1 - ((psi0 - psides0) + v0 * delta0 / Lf α * dt α))
  pure fg

/-- Lines 83-123 with the accesses recorded. -/
def model_constraints_traced (cos sin atan : α → α) (n : Nat) (coeffs vars fg : List α) :
    Traced (List α) :=
  forLoop_traced 0 (n - 1) (model_step_traced cos sin atan n coeffs vars) fg

/-- The call `fg_eval(fg, vars)`, lines 49-124, with the accesses recorded. -/
def FG_eval_traced (cos sin atan : α → α) (n : Nat) (coeffs : List α) (fg vars : List α) :
    Traced (List α) := do
  let fg ← assign Vec.fg fg 0 0
  let fg ← cost_reference_traced n vars fg
  let fg ← cost_actuators_traced n vars fg
  let fg ← cost_gaps_traced n vars fg
  let fg ← initial_constraints_traced n vars fg
  let fg ← model_constraints_traced cos sin atan n coeffs vars fg
  pure fg

/-- Lines 174-177 with the accesses recorded: the limits of the non-actuators. -/
def bounds_non_actuators_traced (n : Nat) (b : List α × List α) : Traced (List α × List α) :=
  forLoop_traced 0 (delta_start_ind n) (fun i (b : List α × List α) => do
    let vars_lowerbound ← assign Vec.vars_lowerbound b.1 i (-1.0e17)
    let vars_upperbound ← assign Vec.vars_upperbound b.2 i 1.0e17
    pure (vars_lowerbound, vars_upperbound)) b

/-- Lines 180-183 with the accesses recorded: the limits of `delta`. -/
def bounds_delta_traced (n : Nat) (b : List α × List α) : Traced (List α × List α) :=
  forLoop_traced (delta_start_ind n) (a_start_ind n) (fun i (b : List α × List α) => do
    let vars_lowerbound ← assign Vec.vars_lowerbound b.1 i (-0.436332)
    let vars_upperbound ← assign Vec.vars_upperbound b.2 i 0.436332
    pure (vars_lowerbound, vars_upperbound)) b

/-- Lines 186-189 with the accesses recorded: the latency lock of `delta`. -/
def lock_delta_traced (n lat : Nat) (delta_prev : α) (b : List α × List α) :
    Traced (List α × List α) :=
  forLoop_traced (delta_start_ind n) (delta_start_ind n + lat)
    (fun i (b : List α × List α) => do
      let vars_lowerbound ← assign Vec.vars_lowerbound b.1 i delta_prev
      let vars_upperbound ← assign Vec.vars_upperbound b.2 i delta_prev
      pure (vars_lowerbound, vars_upperbound)) b

/-- Lines 192-195 with the accesses recorded: the limits of `a`. -/
def bounds_a_traced (n : Nat) (b : List α × List α) : Traced (List α × List α) :=
  forLoop_traced (a_start_ind n) (n_vars n) (fun i (b : List α × List α) => do
    let vars_lowerbound ← assign Vec.vars_lowerbound b.1 i (-1.0)
    let vars_upperbound ← assign Vec.vars_upperbound b.2 i 1.0
    pure (vars_lowerbound, vars_upperbound)) b

/-- Lines 198-201 with the accesses recorded: the latency lock of `a`. -/
def lock_a_traced (n lat : Nat) (a_prev : α) (b : List α × List α) :
    Traced (List α × List α) :=
  forLoop_traced (a_start_ind n) (a_start_ind n + lat) (fun i (b : List α × List α) => do
    let vars_lowerbound ← assign Vec.vars_lowerbound b.1 i a_prev
    let vars_upperbound ← assign Vec.vars_upperbound b.2 i a_prev
    pure (vars_lowerbound, vars_upperbound)) b

/-- Lines 168-201 with the accesses recorded: the five loops that fill `vars_lowerbound` and
`vars_upperbound`, in the order of the source. -/
def Solve_vars_bounds_traced (n lat : Nat) (delta_prev a_prev : α) :
    Traced (List α × List α) := do
  let vars_lowerbound : List α := Dvector (n_vars n)
  let vars_upperbound : List α := Dvector (n_vars n)
  let b ← bounds_non_actuators_traced n (vars_lowerbound, vars_upperbound)
  let b ← bounds_delta_traced n b
  let b ← lock_delta_traced n lat delta_prev b
  let b ← bounds_a_traced n b
  let b ← lock_a_traced n lat a_prev b
  pure b

/-- Lines 143-148 and 203-224 with the accesses recorded: the reads of `state` and the
assignments to `constraints_lowerbound` and `constraints_upperbound`. -/
def Solve_constraints_bounds_traced (n : Nat) (state : List α) : Traced (List α × List α) := do
  let x ← read Vec.state state 0
  let y ← read Vec.state state 1
  let psi ← read Vec.state state 2
  let v ← read Vec.state state 3
  let cte ← read Vec.state state 4
  let epsi ← read Vec.state state 5
  let constraints_lowerbound : List α := Dvector (n_constraints n)
  let constraints_upperbound : List α := Dvector (n_constraints n)
  let b ← forLoop_traced 0 (n_constraints n) (fun i (b : List α × List α) => do
    let constraints_lowerbound ← assign Vec.constraints_lowerbound b.1 i 0
    let constraints_upperbound ← assign Vec.constraints_upperbound b.2 i 0
    pure (constraints_lowerbound, constraints_upperbound))
    (constraints_lowerbound, constraints_upperbound)
  let constraints_lowerbound := b.1
  let constraints_upperbound := b.2
  let constraints_lowerbound ← assign Vec.constraints_lowerbound constraints_lowerbound
    x_start_ind x
  let constraints_lowerbound ← assign Vec.constraints_lowerbound constraints_lowerbound
    (y_start_ind n) y
  let constraints_lowerbound ← assign Vec.constraints_lowerbound constraints_lowerbound
    (psi_start_ind n) psi
  let constraints_lowerbound ← assign Vec.constraints_lowerbound constraints_lowerbound
    (v_start_ind n) v
  let constraints_lowerbound ← assign Vec.constraints_lowerbound constraints_lowerbound
    (cte_start_ind n) cte
  let constraints_lowerbound ← assign Vec.constraints_lowerbound constraints_lowerbound
    (epsi_start_ind n) epsi
  let constraints_upperbound ← assign Vec.constraints_upperbound constraints_upperbound
    x_start_ind x
  let constraints_upperbound ← assign Vec.constraints_upperbound constraints_upperbound
    (y_start_ind n) y
  let constraints_upperbound ← assign Vec.constraints_upperbound constraints_upperbound
    (psi_start_ind n) psi
  let constraints_upperbound ← assign Vec.constraints_upperbound constraints_upperbound
    (v_start_ind n) v
  let constraints_upperbound ← assign Vec.constraints_upperbound constraints_upperbound
    (cte_start_ind n) cte
  let constraints_upperbound ← assign Vec.constraints_upperbound constraints_upperbound
    (epsi_start_ind n) epsi
  pure (constraints_lowerbound, constraints_upperbound)

end Traced

/-! ## Closed forms of the recorded indices

The lists below give, loop by loop and in program order, the indices that the recorded
definitions log.  The theorems `writes_of_FG_eval_traced`, `reads_of_FG_eval_traced`,
`writes_of_lower_Solve_vars_bounds_traced` and `writes_of_upper_Solve_vars_bounds_traced` prove
that they are the indices recorded; they serve in the proofs only. -/

/-- The values that the loop variable of `for (i = lo; i < hi; i++)` takes, in order. -/
def loop_indices (lo hi : Nat) : List Nat := List.range' lo (hi - lo)

/-- Lines 174-177: the indices of `vars_lowerbound` and `vars_upperbound` written by the loop
over the non-actuators. -/
def state_bounds_writes (n : Nat) : List Nat := loop_indices 0 (delta_start_ind n)

/-- Lines 180-183: the indices written by the loop that sets the limits of `delta`. -/
def delta_bounds_writes (n : Nat) : List Nat := loop_indices (delta_start_ind n) (a_start_ind n)

/-- Lines 186-189: the indices written by the latency lock of `delta`. -/
def delta_lock_writes (n lat : Nat) : List Nat :=
  loop_indices (delta_start_ind n) (delta_start_ind n + lat)

/-- Lines 192-195: the indices written by the loop that sets the limits of `a`. -/
def a_bounds_writes (n : Nat) : List Nat := loop_indices (a_start_ind n) (n_vars n)

/-- Lines 198-201: the indices written by the latency lock of `a`. -/
def a_lock_writes (n lat : Nat) : List Nat :=
  loop_indices (a_start_ind n) (a_start_ind n + lat)

/-- Lines 174-201: all indices of `vars_lowerbound` and `vars_upperbound` that the bound
assignment of `Solve` writes, in program order. -/
def Solve_vars_bounds_writes (n lat : Nat) : List Nat :=
  state_bounds_writes n ++ delta_bounds_writes n ++ delta_lock_writes n lat ++
    a_bounds_writes n ++ a_lock_writes n lat

/-- Lines 56-122: the indices of `vars` that `FG_eval` reads, in program order. -/
def FG_eval_vars_reads (n : Nat) : List Nat :=
  (loop_indices 0 n).flatMap (fun t =>
    [cte_start_ind n + t, epsi_start_ind n + t, v_start_ind n + t]) ++
  (loop_indices 0 (n - 1)).flatMap (fun t => [delta_start_ind n + t, a_start_ind n + t]) ++
  (loop_indices 0 (n - 2)).flatMap (fun t =>
    [delta_start_ind n + t + 1, delta_start_ind n + t, a_start_ind n + t + 1,
      a_start_ind n + t]) ++
  [x_start_ind, y_start_ind n, psi_start_ind n, v_start_ind n, cte_start_ind n,
    epsi_start_ind n] ++
  (loop_indices 0 (n - 1)).flatMap (fun i =>
    [x_start_ind + i + 1, y_start_ind n + i + 1, psi_start_ind n + i + 1,
      v_start_ind n + i + 1, cte_start_ind n + i + 1, epsi_start_ind n + i + 1,
      x_start_ind + i, y_start_ind n + i, psi_start_ind n + i, v_start_ind n + i,
      cte_start_ind n + i, epsi_start_ind n + i, delta_start_ind n + i, a_start_ind n + i])

/-- Lines 75-80 and 115-122: the indices of `fg` that the constraint part of `FG_eval`
assigns, in program order: the six timestep-0 rows, then six rows per pass of the loop. -/
def FG_eval_constraint_writes (n : Nat) : List Nat :=
  [1 + x_start_ind, 1 + y_start_ind n, 1 + psi_start_ind n, 1 + v_start_ind n,
    1 + cte_start_ind n, 1 + epsi_start_ind n] ++
  (loop_indices 0 (n - 1)).flatMap (fun i =>
    [2 + x_start_ind + i, 2 + y_start_ind n + i, 2 + psi_start_ind n + i,
      2 + v_start_ind n + i, 2 + cte_start_ind n + i, 2 + epsi_start_ind n + i])

/-- Lines 54-122: all indices of `fg` that `FG_eval` assigns, in program order: index `0` for
the cost (line 54 and the assignments of the three cost loops) and the indices of the
constraint part. -/
def FG_eval_fg_accesses (n : Nat) : List Nat :=
  0 :: ((loop_indices 0 n).flatMap (fun _ => [0, 0, 0]) ++
    (loop_indices 0 (n - 1)).flatMap (fun _ => [0, 0]) ++
    (loop_indices 0 (n - 2)).flatMap (fun _ => [0, 0]) ++ FG_eval_constraint_writes n)

/-! ## Trajectories as decision vectors -/

/-- The decision vector that holds the trajectory `s` (the states of the timesteps
`0 .. n-1`) and the actuations `delta`, `a` (of the steps `0 .. n-2`) in the layout of the
program: the blocks x, y, psi, v, cte, epsi, delta, a. -/
def trajectory_vector {α : Type} (n : Nat) (s : Nat → State α) (delta a : Nat → α) : List α :=
  (List.range n).map (fun t => (s t).x) ++ (List.range n).map (fun t => (s t).y) ++
  (List.range n).map (fun t => (s t).psi) ++ (List.range n).map (fun t => (s t).v) ++
  (List.range n).map (fun t => (s t).cte) ++ (List.range n).map (fun t => (s t).epsi) ++
  (List.range (n - 1)).map delta ++ (List.range (n - 1)).map a

/-- The steady-state decision vector of the specification: `delta_t = 0` and `a_t = 0` at
every step, the states propagated from the given state by the dynamics equations. -/
def steady_state_vector {α : Type} [Field α] (cos sin atan : α → α) (n : Nat)
    (coeffs state : List α) : List α :=
  trajectory_vector n
    (simulate cos sin atan coeffs (state_of state) (fun _ => 0) (fun _ => 0))
    (fun _ => 0) (fun _ => 0)

/-- The steering sequence that steers by `d` at step `k` and not at all otherwise. -/
def steer_once {α : Type} [Field α] (k : Nat) (d : α) : Nat → α :=
  fun t => if t = k then d else 0

/-! ## Loops and vector reads -/

section Loops

variable {σ : Type}

theorem forLoop_of_le (lo hi : Nat) (body : Nat → σ → σ) (s : σ) (h : hi ≤ lo) :
    forLoop lo hi body s = s := by
  unfold forLoop
  have h0 : hi - lo = 0 := by omega
  rw [h0]
  rfl

theorem forLoop_succ (lo hi : Nat) (body : Nat → σ → σ) (s : σ) (h : lo ≤ hi) :
    forLoop lo (hi + 1) body s = body hi (forLoop lo hi body s) := by
  unfold forLoop
  have h1 : hi + 1 - lo = (hi - lo) + 1 := by omega
  have h2 : lo + 1 * (hi - lo) = hi := by omega
  rw [h1, List.range'_concat, List.foldl_append, h2]
  rfl

/-- Loop invariants: what holds before the loop and is kept by every iteration holds after
the loop. -/
theorem forLoop_induction (P : Nat → σ → Prop) (lo hi : Nat) (body : Nat → σ → σ) (s : σ)
    (h : lo ≤ hi) (h0 : P lo s)
    (hstep : ∀ i s, lo ≤ i → i < hi → P i s → P (i + 1) (body i s)) :
    P hi (forLoop lo hi body s) := by
  induction hi with
  | zero =>
    have : lo = 0 := by omega
    subst this
    rw [forLoop_of_le _ _ _ _ (le_refl _)]
    exact h0
  | succ k ih =>
    rcases Nat.eq_or_lt_of_le h with heq | hlt
    · subst heq
      rw [forLoop_of_le _ _ _ _ (le_refl _)]
      exact h0
    · have hk : lo ≤ k := by omega
      rw [forLoop_succ _ _ _ _ hk]
      exact hstep k _ hk (by omega)
        (ih hk (fun i s h1 h2 hp => hstep i s h1 (by omega) hp))

/-- A loop over a pair of vectors whose body treats the two components separately is the
pair of the two loops. -/
theorem forLoop_pair {τ : Type} (lo hi : Nat) (f : Nat → σ → σ) (g : Nat → τ → τ)
    (a : σ) (b : τ) :
    forLoop lo hi (fun i (p : σ × τ) => (f i p.1, g i p.2)) (a, b) =
      (forLoop lo hi f a, forLoop lo hi g b) := by
  rcases Nat.lt_or_ge hi lo with h | h
  · rw [forLoop_of_le _ _ _ _ (by omega), forLoop_of_le _ _ _ _ (by omega),
      forLoop_of_le _ _ _ _ (by omega)]
  · induction hi with
    | zero =>
      rw [forLoop_of_le _ _ _ _ (by omega), forLoop_of_le _ _ _ _ (by omega),
        forLoop_of_le _ _ _ _ (by omega)]
    | succ k ih =>
      rcases Nat.eq_or_lt_of_le h with heq | hlt
      · rw [forLoop_of_le _ _ _ _ (by omega), forLoop_of_le _ _ _ _ (by omega),
          forLoop_of_le _ _ _ _ (by omega)]
      · have hk : lo ≤ k := by omega
        rw [forLoop_succ _ _ _ _ hk, forLoop_succ _ _ _ _ hk, forLoop_succ _ _ _ _ hk, ih hk]

end Loops

section Reads

variable {α : Type} [Field α]

theorem rd_set (v : List α) (i j : Nat) (a : α) :
    rd (v.set i a) j = if i = j ∧ j < v.length then a else rd v j := by
  unfold rd
  simp only [List.getD_eq_getElem?_getD, List.getElem?_set]
  by_cases hij : i = j
  · subst hij
    by_cases hl : i < v.length
    · simp [hl]
    · simp [hl, List.getElem?_eq_none (Nat.le_of_not_lt hl)]
  · simp [hij]

theorem rd_Dvector (n i : Nat) : rd (Dvector n : List α) i = 0 := by
  unfold rd Dvector
  simp only [List.getD_eq_getElem?_getD, List.getElem?_replicate]
  split <;> rfl

theorem length_Dvector (n : Nat) : (Dvector n : List α).length = n := by
  simp [Dvector]

/-- The loop `for (i = lo; i < hi; i++) v[i] = c` keeps the length of `v`. -/
theorem length_fill {β : Type} (lo hi : Nat) (c : β) (v : List β) :
    (forLoop lo hi (fun i v => v.set i c) v).length = v.length := by
  rcases Nat.lt_or_ge hi lo with h | h
  · rw [forLoop_of_le _ _ _ _ (by omega)]
  · exact forLoop_induction (fun _ w => w.length = v.length) lo hi (fun i v => v.set i c) v h
      rfl (fun i s _ _ hp => by simpa using hp)

/-- The loop `for (i = lo; i < hi; i++) v[i] = c` assigns `c` to the entries `lo .. hi - 1`
of `v` and leaves the other entries as they are. -/
theorem rd_fill (lo hi : Nat) (c : α) (v : List α) (j : Nat) :
    rd (forLoop lo hi (fun i v => v.set i c) v) j =
      if lo ≤ j ∧ j < hi ∧ j < v.length then c else rd v j := by
  rcases Nat.lt_or_ge hi lo with h | h
  · rw [forLoop_of_le _ _ _ _ (by omega), if_neg (by omega)]
  · have key := forLoop_induction
      (fun k w => w.length = v.length ∧
        rd w j = if lo ≤ j ∧ j < k ∧ j < v.length then c else rd v j)
      lo hi (fun i v => v.set i c) v h
      ⟨rfl, by rw [if_neg (by omega)]⟩
      (fun i s h1 h2 hp => by
        refine ⟨by simpa using hp.1, ?_⟩
        rw [rd_set, hp.2, hp.1]
        by_cases hij : i = j
        · subst hij
          by_cases hl : i < v.length
          · rw [if_pos ⟨rfl, hl⟩, if_pos ⟨h1, by omega, hl⟩]
          · rw [if_neg (by omega), if_neg (by omega), if_neg (by omega)]
        · rw [if_neg (by omega)]
          by_cases hc : lo ≤ j ∧ j < i ∧ j < v.length
          · rw [if_pos hc, if_pos (by omega)]
          · rw [if_neg hc, if_neg (by omega)])
    exact key.2

end Reads

/-! ## The start indices in closed form -/

section Indices

theorem x_start_ind_eq : x_start_ind = 0 := rfl

theorem y_start_ind_eq (n : Nat) : y_start_ind n = n := by
  simp [y_start_ind, x_start_ind]

theorem psi_start_ind_eq (n : Nat) : psi_start_ind n = 2 * n := by
  simp [psi_start_ind, y_start_ind_eq]; omega

theorem v_start_ind_eq (n : Nat) : v_start_ind n = 3 * n := by
  simp [v_start_ind, psi_start_ind_eq]; omega

theorem cte_start_ind_eq (n : Nat) : cte_start_ind n = 4 * n := by
  simp [cte_start_ind, v_start_ind_eq]; omega

theorem epsi_start_ind_eq (n : Nat) : epsi_start_ind n = 5 * n := by
  simp [epsi_start_ind, cte_start_ind_eq]; omega

theorem delta_start_ind_eq (n : Nat) : delta_start_ind n = 6 * n := by
  simp [delta_start_ind, epsi_start_ind_eq]; omega

theorem a_start_ind_eq (n : Nat) : a_start_ind n = 7 * n - 1 := by
  simp [a_start_ind, delta_start_ind_eq]; omega

theorem n_vars_eq (n : Nat) : n_vars n = 6 * n + 2 * (n - 1) := by
  simp [n_vars]; omega

theorem n_constraints_eq (n : Nat) : n_constraints n = 6 * n := by
  simp [n_constraints]; omega

end Indices

/-! ## FG_eval: the cost loops -/

section Cost

variable {α : Type} [Field α]

theorem rd_set_ne (v : List α) (i j : Nat) (a : α) (h : i ≠ j) :
    rd (v.set i a) j = rd v j := by
  rw [rd_set, if_neg (fun hc => h hc.1)]

theorem rd_set_eq (v : List α) (i : Nat) (a : α) (h : i < v.length) :
    rd (v.set i a) i = a := by
  rw [rd_set, if_pos ⟨rfl, h⟩]

theorem set_zero_rd_zero (fg : List α) : fg.set 0 (rd fg 0) = fg := by
  cases fg <;> simp [rd]

/-- The statement `fg[0] += a` followed by `fg[0] += b` is `fg[0] += a + b`. -/
theorem add_assign_twice (fg : List α) (a b : α) :
    (fg.set 0 (rd fg 0 + a)).set 0 (rd (fg.set 0 (rd fg 0 + a)) 0 + b) =
      fg.set 0 (rd fg 0 + (a + b)) := by
  cases fg with
  | nil => simp
  | cons c l => simp [rd, add_assoc]

/-- A loop whose body is `fg[0] += g i` adds the sum of the `g i` to `fg[0]`. -/
theorem forLoop_add_assign (m : Nat) (g : Nat → α) (body : Nat → List α → List α)
    (hbody : ∀ i fg, body i fg = fg.set 0 (rd fg 0 + g i)) (fg : List α) :
    forLoop 0 m body fg = fg.set 0 (rd fg 0 + ∑ t in Finset.range m, g t) := by
  induction m with
  | zero =>
    rw [forLoop_of_le _ _ _ _ (le_refl _)]
    simp [set_zero_rd_zero]
  | succ k ih =>
    rw [forLoop_succ _ _ _ _ (Nat.zero_le _), ih, hbody, add_assign_twice,
      Finset.sum_range_succ]

theorem cost_reference_eq (n : Nat) (vars fg : List α) :
    cost_reference n vars fg = fg.set 0 (rd fg 0 + ∑ t in Finset.range n,
      ((rd vars (cte_start_ind n + t) - ref_cte α) ^ 2 +
        ((rd vars (epsi_start_ind n + t) - ref_epsi α) ^ 2 +
          (rd vars (v_start_ind n + t) - ref_v α) ^ 2))) := by
  unfold cost_reference
  apply forLoop_add_assign
  intro i fg
  simp only []
  rw [add_assign_twice, add_assign_twice]

theorem cost_actuators_eq (n : Nat) (vars fg : List α) :
    cost_actuators n vars fg = fg.set 0 (rd fg 0 + ∑ t in Finset.range (n - 1),
      (rd vars (delta_start_ind n + t) ^ 2 + rd vars (a_start_ind n + t) ^ 2)) := by
  unfold cost_actuators
  apply forLoop_add_assign
  intro i fg
  simp only []
  rw [add_assign_twice]

theorem cost_gaps_eq (n : Nat) (vars fg : List α) :
    cost_gaps n vars fg = fg.set 0 (rd fg 0 + ∑ t in Finset.range (n - 2),
      (700 * (rd vars (delta_start_ind n + t + 1) - rd vars (delta_start_ind n + t)) ^ 2 +
        (rd vars (a_start_ind n + t + 1) - rd vars (a_start_ind n + t)) ^ 2)) := by
  unfold cost_gaps
  apply forLoop_add_assign
  intro i fg
  simp only []
  rw [add_assign_twice]

end Cost

/-! ## FG_eval: the constraints -/

section Constraints

variable {α : Type} [Field α]

/-- The six assignments of one pass of the constraint loop write the residual of the
specification's model. -/
theorem model_step_eq (cos sin atan : α → α) (n : Nat) (coeffs vars : List α) (i : Nat)
    (fg : List α) :
    model_step cos sin atan n coeffs vars i fg =
      (((((fg.set (2 + x_start_ind + i) (residual cos sin atan n coeffs vars i).x).set
        (2 + y_start_ind n + i) (residual cos sin atan n coeffs vars i).y).set
        (2 + psi_start_ind n + i) (residual cos sin atan n coeffs vars i).psi).set
        (2 + v_start_ind n + i) (residual cos sin atan n coeffs vars i).v).set
        (2 + cte_start_ind n + i) (residual cos sin atan n coeffs vars i).cte).set
        (2 + epsi_start_ind n + i) (residual cos sin atan n coeffs vars i).epsi := by
  have e3 : rd vars (psi_start_ind n + i + 1) - (rd vars (psi_start_ind n + i) +
      rd vars (v_start_ind n + i) * rd vars (delta_start_ind n + i) / Lf α * dt α) =
      (residual cos sin atan n coeffs vars i).psi := by
    simp only [residual, predict, state_at, Nat.add_assoc]
    ring
  have e5 : rd vars (cte_start_ind n + i + 1) -
      ((rd coeffs 0 + rd coeffs 1 * rd vars (x_start_ind + i) +
        rd coeffs 2 * rd vars (x_start_ind + i) * rd vars (x_start_ind + i) +
        rd coeffs 3 * rd vars (x_start_ind + i) * rd vars (x_start_ind + i) *
          rd vars (x_start_ind + i) - rd vars (y_start_ind n + i)) +
        (rd vars (v_start_ind n + i) * sin (rd vars (epsi_start_ind n + i)) * dt α)) =
      (residual cos sin atan n coeffs vars i).cte := by
    simp only [residual, predict, state_at, f_path, Nat.add_assoc]
    ring
  have e6 : rd vars (epsi_start_ind n + i + 1) - ((rd vars (psi_start_ind n + i) -
      atan (rd coeffs 1 + 2 * rd coeffs 2 * rd vars (x_start_ind + i) +
        3 * rd coeffs 3 * rd vars (x_start_ind + i) * rd vars (x_start_ind + i))) +
      rd vars (v_start_ind n + i) * rd vars (delta_start_ind n + i) / Lf α * dt α) =
      (residual cos sin atan n coeffs vars i).epsi := by
    simp only [residual, predict, state_at, psi_des, Nat.add_assoc]
    have harg : rd coeffs 1 + 2 * rd coeffs 2 * rd vars (x_start_ind + i) +
        3 * rd coeffs 3 * rd vars (x_start_ind + i) * rd vars (x_start_ind + i) =
        rd coeffs 1 + 2 * rd coeffs 2 * rd vars (x_start_ind + i) +
        3 * rd coeffs 3 * rd vars (x_start_ind + i) ^ 2 := by ring
    rw [harg]
  simp only [model_step]
  rw [e3, e5, e6]
  simp only [residual, predict, state_at, Nat.add_assoc]

/-- What the constraint loop has done to `fg` after its first `m` passes. -/
theorem model_loop_spec (cos sin atan : α → α) (n : Nat) (coeffs vars fg : List α) (m : Nat)
    (hm : m + 1 ≤ n) (hfg : fg.length = 1 + n_constraints n) :
    (forLoop 0 m (model_step cos sin atan n coeffs vars) fg).length = fg.length ∧
    (∀ j, (∀ t, t < m → j ≠ 2 + x_start_ind + t ∧ j ≠ 2 + y_start_ind n + t ∧
        j ≠ 2 + psi_start_ind n + t ∧ j ≠ 2 + v_start_ind n + t ∧
        j ≠ 2 + cte_start_ind n + t ∧ j ≠ 2 + epsi_start_ind n + t) →
      rd (forLoop 0 m (model_step cos sin atan n coeffs vars) fg) j = rd fg j) ∧
    (∀ t, t < m →
      rd (forLoop 0 m (model_step cos sin atan n coeffs vars) fg) (2 + x_start_ind + t) =
        (residual cos sin atan n coeffs vars t).x ∧
      rd (forLoop 0 m (model_step cos sin atan n coeffs vars) fg) (2 + y_start_ind n + t) =
        (residual cos sin atan n coeffs vars t).y ∧
      rd (forLoop 0 m (model_step cos sin atan n coeffs vars) fg) (2 + psi_start_ind n + t) =
        (residual cos sin atan n coeffs vars t).psi ∧
      rd (forLoop 0 m (model_step cos sin atan n coeffs vars) fg) (2 + v_start_ind n + t) =
        (residual cos sin atan n coeffs vars t).v ∧
      rd (forLoop 0 m (model_step cos sin atan n coeffs vars) fg) (2 + cte_start_ind n + t) =
        (residual cos sin atan n coeffs vars t).cte ∧
      rd (forLoop 0 m (model_step cos sin atan n coeffs vars) fg) (2 + epsi_start_ind n + t) =
        (residual cos sin atan n coeffs vars t).epsi) := by
  have hx := x_start_ind_eq
  have hy := y_start_ind_eq n
  have hpsi := psi_start_ind_eq n
  have hv := v_start_ind_eq n
  have hcte := cte_start_ind_eq n
  have hepsi := epsi_start_ind_eq n
  have hnc := n_constraints_eq n
  induction m with
  | zero =>
    rw [forLoop_of_le _ _ _ _ (le_refl _)]
    exact ⟨rfl, fun _ _ => rfl, fun t ht => absurd ht (Nat.not_lt_zero t)⟩
  | succ k ih =>
    obtain ⟨ihl, ihu, ihw⟩ := ih (by omega)
    rw [forLoop_succ _ _ _ _ (Nat.zero_le _), model_step_eq]
    generalize forLoop 0 k (model_step cos sin atan n coeffs vars) fg = w at ihl ihu ihw ⊢
    refine ⟨by simp only [List.length_set]; exact ihl, ?_, ?_⟩
    · intro j hj
      have hjk := hj k (Nat.lt_succ_self k)
      simp (disch := omega) only [rd_set_ne]
      exact ihu j (fun t ht => hj t (by omega))
    · intro t ht
      rcases Nat.lt_or_ge t k with htk | htk
      · simp (disch := omega) only [rd_set_ne]
        exact ihw t htk
      · have htk2 : t = k := by omega
        subst htk2
        simp (disch := first | omega | (simp only [List.length_set]; omega)) only [rd_set_ne,
          rd_set_eq, and_self]

/-- The whole of `FG_eval`: the length of `fg` is kept, `fg[0]` is the sum of the three cost
loops, the six rows `1 + start` output the timestep-0 entries, and the rows `2 + start + t`
hold the residuals of the step from `t` to `t + 1`. -/
theorem FG_eval_spec (cos sin atan : α → α) (n : Nat) (coeffs fg vars : List α)
    (hn : 1 ≤ n) (hfg : fg.length = 1 + n_constraints n) :
    (FG_eval cos sin atan n coeffs fg vars).length = fg.length ∧
    rd (FG_eval cos sin atan n coeffs fg vars) 0 =
      0 + (∑ t ∈ Finset.range n,
        ((rd vars (cte_start_ind n + t) - ref_cte α) ^ 2 +
          ((rd vars (epsi_start_ind n + t) - ref_epsi α) ^ 2 +
            (rd vars (v_start_ind n + t) - ref_v α) ^ 2))) +
      (∑ t ∈ Finset.range (n - 1),
        (rd vars (delta_start_ind n + t) ^ 2 + rd vars (a_start_ind n + t) ^ 2)) +
      (∑ t ∈ Finset.range (n - 2),
        (700 * (rd vars (delta_start_ind n + t + 1) - rd vars (delta_start_ind n + t)) ^ 2 +
          (rd vars (a_start_ind n + t + 1) - rd vars (a_start_ind n + t)) ^ 2)) ∧
    (rd (FG_eval cos sin atan n coeffs fg vars) (1 + x_start_ind) = rd vars x_start_ind ∧
      rd (FG_eval cos sin atan n coeffs fg vars) (1 + y_start_ind n) = rd vars (y_start_ind n) ∧
      rd (FG_eval cos sin atan n coeffs fg vars) (1 + psi_start_ind n) =
        rd vars (psi_start_ind n) ∧
      rd (FG_eval cos sin atan n coeffs fg vars) (1 + v_start_ind n) = rd vars (v_start_ind n) ∧
      rd (FG_eval cos sin atan n coeffs fg vars) (1 + cte_start_ind n) =
        rd vars (cte_start_ind n) ∧
      rd (FG_eval cos sin atan n coeffs fg vars) (1 + epsi_start_ind n) =
        rd vars (epsi_start_ind n)) ∧
    (∀ t, t + 1 < n →
      rd (FG_eval cos sin atan n coeffs fg vars) (2 + x_start_ind + t) =
        (residual cos sin atan n coeffs vars t).x ∧
      rd (FG_eval cos sin atan n coeffs fg vars) (2 + y_start_ind n + t) =
        (residual cos sin atan n coeffs vars t).y ∧
      rd (FG_eval cos sin atan n coeffs fg vars) (2 + psi_start_ind n + t) =
        (residual cos sin atan n coeffs vars t).psi ∧
      rd (FG_eval cos sin atan n coeffs fg vars) (2 + v_start_ind n + t) =
        (residual cos sin atan n coeffs vars t).v ∧
      rd (FG_eval cos sin atan n coeffs fg vars) (2 + cte_start_ind n + t) =
        (residual cos sin atan n coeffs vars t).cte ∧
      rd (FG_eval cos sin atan n coeffs fg vars) (2 + epsi_start_ind n + t) =
        (residual cos sin atan n coeffs vars t).epsi) := by
  have hx := x_start_ind_eq
  have hy := y_start_ind_eq n
  have hpsi := psi_start_ind_eq n
  have hv := v_start_ind_eq n
  have hcte := cte_start_ind_eq n
  have hepsi := epsi_start_ind_eq n
  have hnc := n_constraints_eq n
  simp only [FG_eval, model_constraints, cost_reference_eq, cost_actuators_eq, cost_gaps_eq]
  have h01 : ∀ (w : List α) (a b : α), (w.set 0 a).set 0 b = w.set 0 b := by
    intro w a b
    cases w <;> simp
  have h02 : ∀ (a : α), rd (fg.set 0 a) 0 = a := fun a => rd_set_eq fg 0 a (by omega)
  simp only [h01, h02]
  generalize hc : (0 + (∑ t ∈ Finset.range n,
        ((rd vars (cte_start_ind n + t) - ref_cte α) ^ 2 +
          ((rd vars (epsi_start_ind n + t) - ref_epsi α) ^ 2 +
            (rd vars (v_start_ind n + t) - ref_v α) ^ 2))) +
      (∑ t ∈ Finset.range (n - 1),
        (rd vars (delta_start_ind n + t) ^ 2 + rd vars (a_start_ind n + t) ^ 2)) +
      (∑ t ∈ Finset.range (n - 2),
        (700 * (rd vars (delta_start_ind n + t + 1) - rd vars (delta_start_ind n + t)) ^ 2 +
          (rd vars (a_start_ind n + t + 1) - rd vars (a_start_ind n + t)) ^ 2))) = c
  have hw : (initial_constraints n vars (fg.set 0 c)).length = 1 + n_constraints n := by
    simp only [initial_constraints, List.length_set]
    exact hfg
  obtain ⟨hl, hu, hr⟩ := model_loop_spec cos sin atan n coeffs vars
    (initial_constraints n vars (fg.set 0 c)) (n - 1) (by omega) hw
  refine ⟨?_, ?_, ⟨?_, ?_, ?_, ?_, ?_, ?_⟩, ?_⟩
  · rw [hl, hw, hfg]
  · rw [hu 0 (fun t _ => by omega)]
    simp (disch := first | omega | (simp only [List.length_set]; omega)) only
      [initial_constraints, rd_set_ne, rd_set_eq]
  · rw [hu _ (fun t _ => by omega)]
    simp (disch := first | omega | (simp only [List.length_set]; omega)) only
      [initial_constraints, rd_set_ne, rd_set_eq]
  · rw [hu _ (fun t _ => by omega)]
    simp (disch := first | omega | (simp only [List.length_set]; omega)) only
      [initial_constraints, rd_set_ne, rd_set_eq]
  · rw [hu _ (fun t _ => by omega)]
    simp (disch := first | omega | (simp only [List.length_set]; omega)) only
      [initial_constraints, rd_set_ne, rd_set_eq]
  · rw [hu _ (fun t _ => by omega)]
    simp (disch := first | omega | (simp only [List.length_set]; omega)) only
      [initial_constraints, rd_set_ne, rd_set_eq]
  · rw [hu _ (fun t _ => by omega)]
    simp (disch := first | omega | (simp only [List.length_set]; omega)) only
      [initial_constraints, rd_set_ne, rd_set_eq]
  · rw [hu _ (fun t _ => by omega)]
    simp (disch := first | omega | (simp only [List.length_set]; omega)) only
      [initial_constraints, rd_set_ne, rd_set_eq]
  · intro t ht
    exact hr t (by omega)

end Constraints

/-! ## MPC::Solve: the bounds and the extraction -/

section Bounds

variable {α : Type} [Field α]

/-- A loop `for (i = lo; i < hi; i++) { lower[i] = c1; upper[i] = c2; }` is one loop on each
of the two vectors. -/
theorem forLoop_set_pair {β : Type} (lo hi : Nat) (c1 c2 : β) (p : List β × List β) :
    forLoop lo hi (fun i (b : List β × List β) => (b.1.set i c1, b.2.set i c2)) p =
      (forLoop lo hi (fun i v => v.set i c1) p.1, forLoop lo hi (fun i v => v.set i c2) p.2) :=
  forLoop_pair lo hi (fun i v => v.set i c1) (fun i v => v.set i c2) p.1 p.2

/-- The lower bounds of the variables, loop by loop (the last loop outermost). -/
theorem vars_lowerbound_eq (n lat : Nat) (delta_prev a_prev : α) :
    (Solve_vars_bounds n lat delta_prev a_prev).1 =
      forLoop (a_start_ind n) (a_start_ind n + lat) (fun i v => v.set i a_prev)
        (forLoop (a_start_ind n) (n_vars n) (fun i v => v.set i (-1.0))
          (forLoop (delta_start_ind n) (delta_start_ind n + lat) (fun i v => v.set i delta_prev)
            (forLoop (delta_start_ind n) (a_start_ind n) (fun i v => v.set i (-0.436332))
              (forLoop 0 (delta_start_ind n) (fun i v => v.set i (-1.0e17))
                (Dvector (n_vars n)))))) := by
  simp only [Solve_vars_bounds, forLoop_set_pair]

/-- The upper bounds of the variables, loop by loop (the last loop outermost). -/
theorem vars_upperbound_eq (n lat : Nat) (delta_prev a_prev : α) :
    (Solve_vars_bounds n lat delta_prev a_prev).2 =
      forLoop (a_start_ind n) (a_start_ind n + lat) (fun i v => v.set i a_prev)
        (forLoop (a_start_ind n) (n_vars n) (fun i v => v.set i 1.0)
          (forLoop (delta_start_ind n) (delta_start_ind n + lat) (fun i v => v.set i delta_prev)
            (forLoop (delta_start_ind n) (a_start_ind n) (fun i v => v.set i 0.436332)
              (forLoop 0 (delta_start_ind n) (fun i v => v.set i 1.0e17)
                (Dvector (n_vars n)))))) := by
  simp only [Solve_vars_bounds, forLoop_set_pair]

theorem length_vars_lowerbound (n lat : Nat) (delta_prev a_prev : α) :
    (Solve_vars_bounds n lat delta_prev a_prev).1.length = n_vars n := by
  simp only [vars_lowerbound_eq, length_fill, length_Dvector]

theorem length_vars_upperbound (n lat : Nat) (delta_prev a_prev : α) :
    (Solve_vars_bounds n lat delta_prev a_prev).2.length = n_vars n := by
  simp only [vars_upperbound_eq, length_fill, length_Dvector]

/-- Every entry of the lower bounds of the variables. -/
theorem rd_vars_lowerbound (n lat : Nat) (delta_prev a_prev : α) (j : Nat) :
    rd (Solve_vars_bounds n lat delta_prev a_prev).1 j =
      if a_start_ind n ≤ j ∧ j < a_start_ind n + lat ∧ j < n_vars n then a_prev
      else if a_start_ind n ≤ j ∧ j < n_vars n ∧ j < n_vars n then -1.0
      else if delta_start_ind n ≤ j ∧ j < delta_start_ind n + lat ∧ j < n_vars n then delta_prev
      else if delta_start_ind n ≤ j ∧ j < a_start_ind n ∧ j < n_vars n then -0.436332
      else if 0 ≤ j ∧ j < delta_start_ind n ∧ j < n_vars n then -1.0e17
      else 0 := by
  simp only [vars_lowerbound_eq, rd_fill, length_fill, length_Dvector, rd_Dvector]

/-- Every entry of the upper bounds of the variables. -/
theorem rd_vars_upperbound (n lat : Nat) (delta_prev a_prev : α) (j : Nat) :
    rd (Solve_vars_bounds n lat delta_prev a_prev).2 j =
      if a_start_ind n ≤ j ∧ j < a_start_ind n + lat ∧ j < n_vars n then a_prev
      else if a_start_ind n ≤ j ∧ j < n_vars n ∧ j < n_vars n then 1.0
      else if delta_start_ind n ≤ j ∧ j < delta_start_ind n + lat ∧ j < n_vars n then delta_prev
      else if delta_start_ind n ≤ j ∧ j < a_start_ind n ∧ j < n_vars n then 0.436332
      else if 0 ≤ j ∧ j < delta_start_ind n ∧ j < n_vars n then 1.0e17
      else 0 := by
  simp only [vars_upperbound_eq, rd_fill, length_fill, length_Dvector, rd_Dvector]

/-- The lower bounds of the constraints: zeros, then the six assignments. -/
theorem constraints_lowerbound_eq (n : Nat) (state : List α) :
    (Solve_constraints_bounds n state).1 =
      ((((((forLoop 0 (n_constraints n) (fun i v => v.set i 0)
        (Dvector (n_constraints n))).set x_start_ind (rd state 0)).set
        (y_start_ind n) (rd state 1)).set (psi_start_ind n) (rd state 2)).set
        (v_start_ind n) (rd state 3)).set (cte_start_ind n) (rd state 4)).set
        (epsi_start_ind n) (rd state 5) := by
  simp only [Solve_constraints_bounds, forLoop_set_pair]

/-- The upper bounds of the constraints are built like the lower bounds. -/
theorem constraints_upperbound_eq (n : Nat) (state : List α) :
    (Solve_constraints_bounds n state).2 = (Solve_constraints_bounds n state).1 := by
  simp only [Solve_constraints_bounds, forLoop_set_pair]

theorem length_constraints_lowerbound (n : Nat) (state : List α) :
    (Solve_constraints_bounds n state).1.length = n_constraints n := by
  simp only [constraints_lowerbound_eq, List.length_set, length_fill, length_Dvector]

/-- Every entry of the lower bounds of the constraints, for `1 ≤ n`. -/
theorem rd_constraints_lowerbound (n : Nat) (state : List α) (hn : 1 ≤ n) (j : Nat) :
    rd (Solve_constraints_bounds n state).1 j =
      if j = epsi_start_ind n then rd state 5
      else if j = cte_start_ind n then rd state 4
      else if j = v_start_ind n then rd state 3
      else if j = psi_start_ind n then rd state 2
      else if j = y_start_ind n then rd state 1
      else if j = x_start_ind then rd state 0
      else 0 := by
  have hx := x_start_ind_eq
  have hy := y_start_ind_eq n
  have hpsi := psi_start_ind_eq n
  have hv := v_start_ind_eq n
  have hcte := cte_start_ind_eq n
  have hepsi := epsi_start_ind_eq n
  have hnc := n_constraints_eq n
  rw [constraints_lowerbound_eq]
  have hz : ∀ i, rd (forLoop 0 (n_constraints n) (fun i v => v.set i 0)
      (Dvector (n_constraints n) : List α)) i = 0 := by
    intro i
    rw [rd_fill, rd_Dvector, ite_self]
  have hlen : (forLoop 0 (n_constraints n) (fun i v => v.set i 0)
      (Dvector (n_constraints n) : List α)).length = n_constraints n := by
    rw [length_fill, length_Dvector]
  generalize forLoop 0 (n_constraints n) (fun i v => v.set i 0)
      (Dvector (n_constraints n) : List α) = z at hz hlen
  by_cases h5 : j = epsi_start_ind n
  · rw [if_pos h5, h5, rd_set_eq _ _ _ (by simp only [List.length_set]; omega)]
  rw [if_neg h5, rd_set_ne _ _ _ _ (Ne.symm h5)]
  by_cases h4 : j = cte_start_ind n
  · rw [if_pos h4, h4, rd_set_eq _ _ _ (by simp only [List.length_set]; omega)]
  rw [if_neg h4, rd_set_ne _ _ _ _ (Ne.symm h4)]
  by_cases h3 : j = v_start_ind n
  · rw [if_pos h3, h3, rd_set_eq _ _ _ (by simp only [List.length_set]; omega)]
  rw [if_neg h3, rd_set_ne _ _ _ _ (Ne.symm h3)]
  by_cases h2 : j = psi_start_ind n
  · rw [if_pos h2, h2, rd_set_eq _ _ _ (by simp only [List.length_set]; omega)]
  rw [if_neg h2, rd_set_ne _ _ _ _ (Ne.symm h2)]
  by_cases h1 : j = y_start_ind n
  · rw [if_pos h1, h1, rd_set_eq _ _ _ (by simp only [List.length_set]; omega)]
  rw [if_neg h1, rd_set_ne _ _ _ _ (Ne.symm h1)]
  by_cases h0 : j = x_start_ind
  · rw [if_pos h0, h0, rd_set_eq _ _ _ (by omega)]
  rw [if_neg h0, rd_set_ne _ _ _ _ (Ne.symm h0), hz]

/-- The four vectors that the extraction loop of `Solve` builds. -/
theorem Solve_extract_eq (n : Nat) (solution : solve_result α) :
    Solve_extract n solution =
      ⟨(List.range (n - 1)).map (fun i => rd solution.x (x_start_ind + i)),
       (List.range (n - 1)).map (fun i => rd solution.x (y_start_ind n + i)),
       (List.range (n - 1)).map (fun i => rd solution.x (delta_start_ind n + i)),
       (List.range (n - 1)).map (fun i => rd solution.x (a_start_ind n + i))⟩ := by
  unfold Solve_extract
  generalize n - 1 = m
  induction m with
  | zero =>
    rw [forLoop_of_le _ _ _ _ (le_refl _)]
    rfl
  | succ k ih =>
    rw [forLoop_succ _ _ _ _ (Nat.zero_le _), ih]
    simp only [List.range_succ, List.map_append, List.map_cons, List.map_nil]

/-- The body of `MPC::Solve`: the solver is called on the problem built from the inputs, and
the returned `Solution` is extracted from its result. -/
theorem Solve_eq (cos sin atan : α → α) (solve : ipopt_solver α) (n lat : Nat)
    (delta_prev a_prev : α) (state coeffs : List α) :
    Solve cos sin atan solve n lat delta_prev a_prev state coeffs =
      Solve_extract n (solve (Solve_vars n state)
        (Solve_vars_bounds n lat delta_prev a_prev).1
        (Solve_vars_bounds n lat delta_prev a_prev).2
        (Solve_constraints_bounds n state).1 (Solve_constraints_bounds n state).2
        (FG_eval cos sin atan n coeffs)) := rfl

/-- The bounds of a latency-locked `delta` variable. -/
theorem rd_bounds_delta_locked (n lat : Nat) (delta_prev a_prev : α) (i : Nat) (hn : 2 ≤ n)
    (hi : i < lat) (hin : i < n - 1) :
    rd (Solve_vars_bounds n lat delta_prev a_prev).1 (delta_start_ind n + i) = delta_prev ∧
    rd (Solve_vars_bounds n lat delta_prev a_prev).2 (delta_start_ind n + i) = delta_prev := by
  have hd := delta_start_ind_eq n
  have ha := a_start_ind_eq n
  have hnv := n_vars_eq n
  rw [rd_vars_lowerbound, rd_vars_upperbound]
  simp (disch := omega) only [if_neg, if_pos, and_self]

/-- The bounds of a latency-locked `a` variable. -/
theorem rd_bounds_a_locked (n lat : Nat) (delta_prev a_prev : α) (i : Nat) (hn : 2 ≤ n)
    (hi : i < lat) (hin : i < n - 1) :
    rd (Solve_vars_bounds n lat delta_prev a_prev).1 (a_start_ind n + i) = a_prev ∧
    rd (Solve_vars_bounds n lat delta_prev a_prev).2 (a_start_ind n + i) = a_prev := by
  have hd := delta_start_ind_eq n
  have ha := a_start_ind_eq n
  have hnv := n_vars_eq n
  rw [rd_vars_lowerbound, rd_vars_upperbound]
  simp (disch := omega) only [if_neg, if_pos, and_self]

/-- The bounds of a `delta` variable that is not latency-locked. -/
theorem rd_bounds_delta_free (n lat : Nat) (delta_prev a_prev : α) (t : Nat) (hn : 2 ≤ n)
    (ht : lat ≤ t) (htn : t < n - 1) :
    rd (Solve_vars_bounds n lat delta_prev a_prev).1 (delta_start_ind n + t) = -0.436332 ∧
    rd (Solve_vars_bounds n lat delta_prev a_prev).2 (delta_start_ind n + t) = 0.436332 := by
  have hd := delta_start_ind_eq n
  have ha := a_start_ind_eq n
  have hnv := n_vars_eq n
  rw [rd_vars_lowerbound, rd_vars_upperbound]
  simp (disch := omega) only [if_neg, if_pos, and_self]

/-- The bounds of an `a` variable that is not latency-locked. -/
theorem rd_bounds_a_free (n lat : Nat) (delta_prev a_prev : α) (t : Nat) (hn : 2 ≤ n)
    (ht : lat ≤ t) (htn : t < n - 1) :
    rd (Solve_vars_bounds n lat delta_prev a_prev).1 (a_start_ind n + t) = -1.0 ∧
    rd (Solve_vars_bounds n lat delta_prev a_prev).2 (a_start_ind n + t) = 1.0 := by
  have hd := delta_start_ind_eq n
  have ha := a_start_ind_eq n
  have hnv := n_vars_eq n
  rw [rd_vars_lowerbound, rd_vars_upperbound]
  simp (disch := omega) only [if_neg, if_pos, and_self]

/-- The bounds of a state variable. -/
theorem rd_bounds_state (n lat : Nat) (delta_prev a_prev : α) (i : Nat) (hn : 2 ≤ n)
    (hi : i < delta_start_ind n) :
    rd (Solve_vars_bounds n lat delta_prev a_prev).1 i = -1.0e17 ∧
    rd (Solve_vars_bounds n lat delta_prev a_prev).2 i = 1.0e17 := by
  have hd := delta_start_ind_eq n
  have ha := a_start_ind_eq n
  have hnv := n_vars_eq n
  rw [rd_vars_lowerbound, rd_vars_upperbound]
  simp (disch := omega) only [if_neg, if_pos, and_self]

/-- The entries of the returned `Delta` and `A` sequences. -/
theorem Solve_actuations (cos sin atan : α → α) (solve : ipopt_solver α) (n lat : Nat)
    (delta_prev a_prev : α) (state coeffs : List α) (i : Nat) (hi : i < n - 1) :
    (Solve cos sin atan solve n lat delta_prev a_prev state coeffs).Delta[i]? =
      some (rd (solve (Solve_vars n state)
        (Solve_vars_bounds n lat delta_prev a_prev).1
        (Solve_vars_bounds n lat delta_prev a_prev).2
        (Solve_constraints_bounds n state).1 (Solve_constraints_bounds n state).2
        (FG_eval cos sin atan n coeffs)).x (delta_start_ind n + i)) ∧
    (Solve cos sin atan solve n lat delta_prev a_prev state coeffs).A[i]? =
      some (rd (solve (Solve_vars n state)
        (Solve_vars_bounds n lat delta_prev a_prev).1
        (Solve_vars_bounds n lat delta_prev a_prev).2
        (Solve_constraints_bounds n state).1 (Solve_constraints_bounds n state).2
        (FG_eval cos sin atan n coeffs)).x (a_start_ind n + i)) := by
  rw [Solve_eq, Solve_extract_eq]
  simp only [List.getElem?_map, List.getElem?_range hi, Option.map_some', and_self]

end Bounds

section OrderedBounds

variable {α : Type} [LinearOrderedField α]

/-- Every lower bound of a variable is at most its upper bound. -/
theorem vars_lowerbound_le_upperbound (n lat : Nat) (delta_prev a_prev : α) (j : Nat) :
    rd (Solve_vars_bounds n lat delta_prev a_prev).1 j ≤
      rd (Solve_vars_bounds n lat delta_prev a_prev).2 j := by
  rw [rd_vars_lowerbound, rd_vars_upperbound]
  split_ifs <;> norm_num

/-- The vector of the upper bounds lies within the variable bounds. -/
theorem vars_upperbound_within_bounds (n lat : Nat) (delta_prev a_prev : α) :
    within_bounds (Solve_vars_bounds n lat delta_prev a_prev).1
      (Solve_vars_bounds n lat delta_prev a_prev).2
      (Solve_vars_bounds n lat delta_prev a_prev).2 :=
  ⟨by rw [length_vars_lowerbound, length_vars_upperbound],
    fun j _ => ⟨vars_lowerbound_le_upperbound n lat delta_prev a_prev j, le_refl _⟩⟩

end OrderedBounds

/-! ## Vectors that meet the constraint bounds -/

section ConstraintValues

variable {α : Type} [Field α]

theorem rd_constraint_values (fg : List α) (r : Nat) :
    rd (constraint_values fg) r = rd fg (1 + r) := by
  cases fg with
  | nil => simp [rd, constraint_values]
  | cons a l => simp [rd, constraint_values, Nat.add_comm 1 r]

theorem length_constraint_values (cos sin atan : α → α) (n : Nat) (coeffs fg vars : List α)
    (hn : 1 ≤ n) (hfg : fg.length = 1 + n_constraints n) :
    (constraint_values (FG_eval cos sin atan n coeffs fg vars)).length = n_constraints n := by
  unfold constraint_values
  rw [List.length_tail, (FG_eval_spec cos sin atan n coeffs fg vars hn hfg).1, hfg]
  omega

end ConstraintValues

section Feasible

variable {α : Type} [LinearOrderedField α]

/-- A vector whose constraint values lie within the constraint bounds of `Solve` has the
given state at timestep 0 and follows the dynamics equations from each step to the next. -/
theorem feasible_pins_and_dynamics (cos sin atan : α → α) (n : Nat)
    (state coeffs fg vars : List α) (hn : 2 ≤ n) (hfg : fg.length = 1 + n_constraints n)
    (hfeas : within_bounds (Solve_constraints_bounds n state).1
      (Solve_constraints_bounds n state).2
      (constraint_values (FG_eval cos sin atan n coeffs fg vars))) :
    state_at n vars 0 = state_of state ∧
    ∀ t, t < n - 1 → state_at n vars (t + 1) =
      predict cos sin atan coeffs (state_at n vars t)
        (rd vars (delta_start_ind n + t)) (rd vars (a_start_ind n + t)) := by
  have hx := x_start_ind_eq
  have hy := y_start_ind_eq n
  have hpsi := psi_start_ind_eq n
  have hv := v_start_ind_eq n
  have hcte := cte_start_ind_eq n
  have hepsi := epsi_start_ind_eq n
  have hnc := n_constraints_eq n
  have hlen := length_constraints_lowerbound n state
  obtain ⟨-, -, hpin, hres⟩ := FG_eval_spec cos sin atan n coeffs fg vars (by omega) hfg
  have hrow : ∀ r, r < n_constraints n →
      rd (FG_eval cos sin atan n coeffs fg vars) (1 + r) =
        rd (Solve_constraints_bounds n state).1 r := by
    intro r hr
    have h := hfeas.2 r (by omega)
    rw [constraints_upperbound_eq, rd_constraint_values] at h
    exact le_antisymm h.2 h.1
  have hgl := rd_constraints_lowerbound n state (by omega : 1 ≤ n)
  constructor
  · obtain ⟨p1, p2, p3, p4, p5, p6⟩ := hpin
    have q1 := hrow x_start_ind (by omega)
    have q2 := hrow (y_start_ind n) (by omega)
    have q3 := hrow (psi_start_ind n) (by omega)
    have q4 := hrow (v_start_ind n) (by omega)
    have q5 := hrow (cte_start_ind n) (by omega)
    have q6 := hrow (epsi_start_ind n) (by omega)
    rw [p1, hgl] at q1
    rw [p2, hgl] at q2
    rw [p3, hgl] at q3
    rw [p4, hgl] at q4
    rw [p5, hgl] at q5
    rw [p6, hgl] at q6
    simp (disch := omega) only [if_neg, if_pos] at q1 q2 q3 q4 q5 q6
    ext
    · simpa only [state_at, state_of, Nat.add_zero] using q1
    · simpa only [state_at, state_of, Nat.add_zero] using q2
    · simpa only [state_at, state_of, Nat.add_zero] using q3
    · simpa only [state_at, state_of, Nat.add_zero] using q4
    · simpa only [state_at, state_of, Nat.add_zero] using q5
    · simpa only [state_at, state_of, Nat.add_zero] using q6
  · intro t ht
    obtain ⟨r1, r2, r3, r4, r5, r6⟩ := hres t (by omega)
    have e1 : 2 + x_start_ind + t = 1 + (x_start_ind + (t + 1)) := by omega
    have e2 : 2 + y_start_ind n + t = 1 + (y_start_ind n + (t + 1)) := by omega
    have e3 : 2 + psi_start_ind n + t = 1 + (psi_start_ind n + (t + 1)) := by omega
    have e4 : 2 + v_start_ind n + t = 1 + (v_start_ind n + (t + 1)) := by omega
    have e5 : 2 + cte_start_ind n + t = 1 + (cte_start_ind n + (t + 1)) := by omega
    have e6 : 2 + epsi_start_ind n + t = 1 + (epsi_start_ind n + (t + 1)) := by omega
    rw [e1, hrow _ (by omega), hgl] at r1
    rw [e2, hrow _ (by omega), hgl] at r2
    rw [e3, hrow _ (by omega), hgl] at r3
    rw [e4, hrow _ (by omega), hgl] at r4
    rw [e5, hrow _ (by omega), hgl] at r5
    rw [e6, hrow _ (by omega), hgl] at r6
    simp (disch := omega) only [if_neg, residual] at r1 r2 r3 r4 r5 r6
    ext
    · exact sub_eq_zero.mp r1.symm
    · exact sub_eq_zero.mp r2.symm
    · exact sub_eq_zero.mp r3.symm
    · exact sub_eq_zero.mp r4.symm
    · exact sub_eq_zero.mp r5.symm
    · exact sub_eq_zero.mp r6.symm

/-- Conversely, a vector that has the given state at timestep 0 and follows the dynamics
equations from each step to the next has its constraint values within the constraint bounds
of `Solve`. -/
theorem feasible_of_pins_and_dynamics (cos sin atan : α → α) (n : Nat)
    (state coeffs fg vars : List α) (hn : 2 ≤ n) (hfg : fg.length = 1 + n_constraints n)
    (h0 : state_at n vars 0 = state_of state)
    (hstep : ∀ t, t < n - 1 → state_at n vars (t + 1) =
      predict cos sin atan coeffs (state_at n vars t)
        (rd vars (delta_start_ind n + t)) (rd vars (a_start_ind n + t))) :
    within_bounds (Solve_constraints_bounds n state).1 (Solve_constraints_bounds n state).2
      (constraint_values (FG_eval cos sin atan n coeffs fg vars)) := by
  have hx := x_start_ind_eq
  have hy := y_start_ind_eq n
  have hpsi := psi_start_ind_eq n
  have hv := v_start_ind_eq n
  have hcte := cte_start_ind_eq n
  have hepsi := epsi_start_ind_eq n
  have hnc := n_constraints_eq n
  have hlen := length_constraints_lowerbound n state
  obtain ⟨-, -, ⟨p1, p2, p3, p4, p5, p6⟩, hres⟩ :=
    FG_eval_spec cos sin atan n coeffs fg vars (by omega) hfg
  have hgl := rd_constraints_lowerbound n state (by omega : 1 ≤ n)
  have hzero : ∀ t, t < n - 1 → residual cos sin atan n coeffs vars t = ⟨0, 0, 0, 0, 0, 0⟩ := by
    intro t ht
    simp only [residual, hstep t ht, sub_self]
  have hrow : ∀ r, r < n_constraints n →
      rd (FG_eval cos sin atan n coeffs fg vars) (1 + r) =
        rd (Solve_constraints_bounds n state).1 r := by
    intro r hr
    have q1 : rd vars x_start_ind = rd state 0 := congrArg State.x h0
    have q2 : rd vars (y_start_ind n) = rd state 1 := congrArg State.y h0
    have q3 : rd vars (psi_start_ind n) = rd state 2 := congrArg State.psi h0
    have q4 : rd vars (v_start_ind n) = rd state 3 := congrArg State.v h0
    have q5 : rd vars (cte_start_ind n) = rd state 4 := congrArg State.cte h0
    have q6 : rd vars (epsi_start_ind n) = rd state 5 := congrArg State.epsi h0
    rw [hgl]
    by_cases c6 : r = epsi_start_ind n
    · rw [if_pos c6, c6, p6, q6]
    rw [if_neg c6]
    by_cases c5 : r = cte_start_ind n
    · rw [if_pos c5, c5, p5, q5]
    rw [if_neg c5]
    by_cases c4 : r = v_start_ind n
    · rw [if_pos c4, c4, p4, q4]
    rw [if_neg c4]
    by_cases c3 : r = psi_start_ind n
    · rw [if_pos c3, c3, p3, q3]
    rw [if_neg c3]
    by_cases c2 : r = y_start_ind n
    · rw [if_pos c2, c2, p2, q2]
    rw [if_neg c2]
    by_cases c1 : r = x_start_ind
    · rw [if_pos c1, c1, p1, q1]
    rw [if_neg c1]
    have hcases : (∃ t, t < n - 1 ∧ 1 + r = 2 + x_start_ind + t) ∨
        (∃ t, t < n - 1 ∧ 1 + r = 2 + y_start_ind n + t) ∨
        (∃ t, t < n - 1 ∧ 1 + r = 2 + psi_start_ind n + t) ∨
        (∃ t, t < n - 1 ∧ 1 + r = 2 + v_start_ind n + t) ∨
        (∃ t, t < n - 1 ∧ 1 + r = 2 + cte_start_ind n + t) ∨
        (∃ t, t < n - 1 ∧ 1 + r = 2 + epsi_start_ind n + t) := by
      rcases Nat.lt_or_ge r n with a1 | a1
      · exact Or.inl ⟨r - 1, by omega, by omega⟩
      rcases Nat.lt_or_ge r (2 * n) with a2 | a2
      · exact Or.inr (Or.inl ⟨r - n - 1, by omega, by omega⟩)
      rcases Nat.lt_or_ge r (3 * n) with a3 | a3
      · exact Or.inr (Or.inr (Or.inl ⟨r - 2 * n - 1, by omega, by omega⟩))
      rcases Nat.lt_or_ge r (4 * n) with a4 | a4
      · exact Or.inr (Or.inr (Or.inr (Or.inl ⟨r - 3 * n - 1, by omega, by omega⟩)))
      rcases Nat.lt_or_ge r (5 * n) with a5 | a5
      · exact Or.inr (Or.inr (Or.inr (Or.inr (Or.inl ⟨r - 4 * n - 1, by omega, by omega⟩))))
      · exact Or.inr (Or.inr (Or.inr (Or.inr (Or.inr ⟨r - 5 * n - 1, by omega, by omega⟩))))
    rcases hcases with ⟨t, ht, e⟩ | ⟨t, ht, e⟩ | ⟨t, ht, e⟩ | ⟨t, ht, e⟩ | ⟨t, ht, e⟩ | ⟨t, ht, e⟩
    · rw [e, (hres t (by omega)).1, hzero t ht]
    · rw [e, (hres t (by omega)).2.1, hzero t ht]
    · rw [e, (hres t (by omega)).2.2.1, hzero t ht]
    · rw [e, (hres t (by omega)).2.2.2.1, hzero t ht]
    · rw [e, (hres t (by omega)).2.2.2.2.1, hzero t ht]
    · rw [e, (hres t (by omega)).2.2.2.2.2, hzero t ht]
  refine ⟨?_, fun r hr => ?_⟩
  · rw [length_constraint_values cos sin atan n coeffs fg vars (by omega) hfg, hlen]
  · rw [constraints_upperbound_eq, rd_constraint_values, hrow r (by omega)]
    exact ⟨le_refl _, le_refl _⟩

/-- A vector whose constraint values lie within the constraint bounds of `Solve` is, step by
step, the forward simulation from the given state with its own actuations. -/
theorem feasible_eq_simulate (cos sin atan : α → α) (n : Nat)
    (state coeffs fg vars : List α) (hn : 2 ≤ n) (hfg : fg.length = 1 + n_constraints n)
    (hfeas : within_bounds (Solve_constraints_bounds n state).1
      (Solve_constraints_bounds n state).2
      (constraint_values (FG_eval cos sin atan n coeffs fg vars))) (t : Nat) (ht : t < n) :
    state_at n vars t = simulate cos sin atan coeffs (state_of state)
      (fun k => rd vars (delta_start_ind n + k)) (fun k => rd vars (a_start_ind n + k)) t := by
  obtain ⟨h0, hstep⟩ := feasible_pins_and_dynamics cos sin atan n state coeffs fg vars hn hfg hfeas
  induction t with
  | zero => exact h0
  | succ k ih =>
    rw [hstep k (by omega), ih (by omega)]
    rfl

end Feasible

/-! ## The claims -/

/-- C1: for every decision vector `vars` and every timestep `t` in `0 .. n - 2`, the six
constraint values that `FG_eval` writes for step `t + 1` (at `fg[2 + start + t]`) are
`nextValue - predictedValue` for the kinematic model, with `dt = 0.05`, `Lf = 2.67` and
`f(x0) = c0 + c1*x0 + c2*x0^2 + c3*x0^3`; the `0` values are the entries of `vars` at step `t`,
the `1` values its entries at step `t + 1`. -/
theorem FG_eval_writes_model_residuals {α : Type} [Field α] (cos sin atan : α → α) (n : Nat)
    (coeffs fg vars : List α) (t : Nat) (hn : 2 ≤ n) (hfg : fg.length = 1 + n_constraints n)
    (ht : t < n - 1) :
    rd (FG_eval cos sin atan n coeffs fg vars) (2 + x_start_ind + t) =
      rd vars (x_start_ind + (t + 1)) -
        (rd vars (x_start_ind + t) +
          rd vars (v_start_ind n + t) * cos (rd vars (psi_start_ind n + t)) * 0.05) ∧
    rd (FG_eval cos sin atan n coeffs fg vars) (2 + y_start_ind n + t) =
      rd vars (y_start_ind n + (t + 1)) -
        (rd vars (y_start_ind n + t) +
          rd vars (v_start_ind n + t) * sin (rd vars (psi_start_ind n + t)) * 0.05) ∧
    rd (FG_eval cos sin atan n coeffs fg vars) (2 + psi_start_ind n + t) =
      rd vars (psi_start_ind n + (t + 1)) -
        (rd vars (psi_start_ind n + t) +
          (rd vars (v_start_ind n + t) / 2.67) * rd vars (delta_start_ind n + t) * 0.05) ∧
    rd (FG_eval cos sin atan n coeffs fg vars) (2 + v_start_ind n + t) =
      rd vars (v_start_ind n + (t + 1)) -
        (rd vars (v_start_ind n + t) + rd vars (a_start_ind n + t) * 0.05) ∧
    rd (FG_eval cos sin atan n coeffs fg vars) (2 + cte_start_ind n + t) =
      rd vars (cte_start_ind n + (t + 1)) -
        (((rd coeffs 0 + rd coeffs 1 * rd vars (x_start_ind + t) +
            rd coeffs 2 * rd vars (x_start_ind + t) ^ 2 +
            rd coeffs 3 * rd vars (x_start_ind + t) ^ 3) - rd vars (y_start_ind n + t)) +
          rd vars (v_start_ind n + t) * sin (rd vars (epsi_start_ind n + t)) * 0.05) ∧
    rd (FG_eval cos sin atan n coeffs fg vars) (2 + epsi_start_ind n + t) =
      rd vars (epsi_start_ind n + (t + 1)) -
        ((rd vars (psi_start_ind n + t) -
            atan (rd coeffs 1 + 2 * rd coeffs 2 * rd vars (x_start_ind + t) +
              3 * rd coeffs 3 * rd vars (x_start_ind + t) ^ 2)) +
          (rd vars (v_start_ind n + t) * rd vars (delta_start_ind n + t) / 2.67) * 0.05) := by
  have h := (FG_eval_spec cos sin atan n coeffs fg vars (by omega) hfg).2.2.2 t (by omega)
  simp only [residual, predict, state_at, f_path, psi_des, dt, Lf] at h
  exact h

/-- C1, at a concrete input: the program's horizon `N = 12` over the reals, `x` entry of
step 1 equal to `3` and all other entries `0`; the `x` residual of the first step is `3`. -/
theorem FG_eval_writes_model_residuals_witness :
    2 ≤ N ∧ (Dvector (1 + n_constraints N) : List ℝ).length = 1 + n_constraints N ∧
    0 < N - 1 ∧
    rd (FG_eval Real.cos Real.sin Real.arctan N [0, 0, 0, 0] (Dvector (1 + n_constraints N))
      ((Dvector (n_vars N)).set 1 3)) (2 + x_start_ind + 0) = 3 :=
  ⟨by decide, length_Dvector _, by decide,
    (FG_eval_writes_model_residuals Real.cos Real.sin Real.arctan N [0, 0, 0, 0]
      (Dvector (1 + n_constraints N)) ((Dvector (n_vars N)).set 1 3) 0 (by decide)
      (length_Dvector _) (by decide)).1.trans (by
        simp [rd_set, rd_Dvector, length_Dvector, x_start_ind, v_start_ind, psi_start_ind,
          y_start_ind, N, n_vars])⟩

/-- C2: for every decision vector, the objective `fg[0]` computed by `FG_eval` is the sum over
`t = 0 .. n-1` of `(cte_t - 0)^2 + (epsi_t - 0)^2 + (v_t - 75)^2`, plus the sum over
`t = 0 .. n-2` of `delta_t^2 + a_t^2`, plus the sum over `t = 0 .. n-3` of
`700 * (delta_{t+1} - delta_t)^2 + (a_{t+1} - a_t)^2`. -/
theorem FG_eval_cost_is_weighted_sum {α : Type} [Field α] (cos sin atan : α → α) (n : Nat)
    (coeffs fg vars : List α) (hn : 2 ≤ n) (hfg : fg.length = 1 + n_constraints n) :
    rd (FG_eval cos sin atan n coeffs fg vars) 0 =
      (∑ t ∈ Finset.range n,
        ((rd vars (cte_start_ind n + t) - 0) ^ 2 + (rd vars (epsi_start_ind n + t) - 0) ^ 2 +
          (rd vars (v_start_ind n + t) - 75) ^ 2)) +
      (∑ t ∈ Finset.range (n - 1),
        (rd vars (delta_start_ind n + t) ^ 2 + rd vars (a_start_ind n + t) ^ 2)) +
      (∑ t ∈ Finset.range (n - 2),
        (700 * (rd vars (delta_start_ind n + (t + 1)) - rd vars (delta_start_ind n + t)) ^ 2 +
          (rd vars (a_start_ind n + (t + 1)) - rd vars (a_start_ind n + t)) ^ 2)) := by
  rw [(FG_eval_spec cos sin atan n coeffs fg vars (by omega) hfg).2.1, zero_add]
  simp only [ref_cte, ref_epsi, ref_v, Nat.add_assoc, add_assoc]

/-- C2, at a concrete input: the program's horizon `N = 12` over the reals and the zero
vector, whose cost is `12 * 75^2 = 67500`. -/
theorem FG_eval_cost_is_weighted_sum_witness :
    2 ≤ N ∧ (Dvector (1 + n_constraints N) : List ℝ).length = 1 + n_constraints N ∧
    rd (FG_eval Real.cos Real.sin Real.arctan N [0, 0, 0, 0] (Dvector (1 + n_constraints N))
      (Dvector (n_vars N))) 0 = 67500 :=
  ⟨by decide, length_Dvector _,
    (FG_eval_cost_is_weighted_sum Real.cos Real.sin Real.arctan N [0, 0, 0, 0]
      (Dvector (1 + n_constraints N)) (Dvector (n_vars N)) (by decide)
      (length_Dvector _)).trans (by
        simp only [rd_Dvector, N]
        norm_num)⟩

/-- C3: for every `n ≥ 2` the eight blocks x, y, psi, v, cte, epsi, delta, a start at
`0, n, 2n, 3n, 4n, 5n, 6n, 7n - 1`, the first six have length `n` and the last two length
`n - 1`; each block ends where the next one starts, the first starts at `0` and the last ends
at `n_vars = 6n + 2(n - 1)`; the blocks are pairwise disjoint and an index lies in one of
them exactly when it is below `n_vars`. -/
theorem layout_blocks_partition (n : Nat) (hn : 2 ≤ n) :
    blocks n = [(0, n), (n, n), (2 * n, n), (3 * n, n), (4 * n, n), (5 * n, n),
      (6 * n, n - 1), (7 * n - 1, n - 1)] ∧
    n_vars n = 6 * n + 2 * (n - 1) ∧
    List.Chain (fun b c => b.1 + b.2 = c.1) (0, 0) (blocks n ++ [(n_vars n, 0)]) ∧
    List.Pairwise (fun b c => ∀ i, ¬ (in_block b i ∧ in_block c i)) (blocks n) ∧
    (∀ i, i < n_vars n ↔ ∃ b ∈ blocks n, in_block b i) := by
  have hb : blocks n = [(0, n), (n, n), (2 * n, n), (3 * n, n), (4 * n, n), (5 * n, n),
      (6 * n, n - 1), (7 * n - 1, n - 1)] := by
    simp only [blocks, x_start_ind_eq, y_start_ind_eq, psi_start_ind_eq, v_start_ind_eq,
      cte_start_ind_eq, epsi_start_ind_eq, delta_start_ind_eq, a_start_ind_eq]
  refine ⟨hb, n_vars_eq n, ?_, ?_, ?_⟩
  · rw [hb, n_vars_eq]
    simp only [List.cons_append, List.nil_append, List.chain_cons, List.Chain.nil, and_true,
      true_and]
    omega
  · rw [hb]
    simp only [List.pairwise_cons, List.mem_cons, List.mem_singleton, in_block,
      List.not_mem_nil, List.Pairwise.nil, and_true, forall_eq_or_imp, forall_eq,
      false_imp_iff, implies_true]
    and_intros
    all_goals (intro i; omega)
  · intro i
    rw [hb, n_vars_eq]
    simp only [List.mem_cons, List.mem_singleton, in_block, List.not_mem_nil, or_false,
      exists_eq_or_imp, exists_eq_left]
    omega

/-- C3, at the program's horizon `N = 12`: the eight blocks start at
`0, 12, 24, 36, 48, 60, 72, 83` and `n_vars = 94`. -/
theorem layout_blocks_partition_witness :
    2 ≤ N ∧ blocks N = [(0, 12), (12, 12), (24, 12), (36, 12), (48, 12), (60, 12), (72, 11),
      (83, 11)] ∧ n_vars N = 94 :=
  ⟨by decide, (layout_blocks_partition N (by decide)).1, (layout_blocks_partition N (by decide)).2.1⟩

/-- C4: in the variable bounds that `Solve` builds, for every actuator index `i` below the
latency (`i < lat`, `i < n - 1`) the lower and the upper bound of `delta_i` are `delta_prev` and
those of `a_i` are `a_prev`; hence every vector within the variable bounds has
`delta_i = delta_prev` and `a_i = a_prev`, and so have the `Delta` and `A` sequences that
`Solve` returns whenever the solver's vector is within the variable bounds. -/
theorem latency_lock_fixes_first_actuations {α : Type} [LinearOrderedField α] (n lat : Nat)
    (delta_prev a_prev : α) (i : Nat) (hn : 2 ≤ n) (hi : i < lat) (hin : i < n - 1) :
    (rd (Solve_vars_bounds n lat delta_prev a_prev).1 (delta_start_ind n + i) = delta_prev ∧
      rd (Solve_vars_bounds n lat delta_prev a_prev).2 (delta_start_ind n + i) = delta_prev ∧
      rd (Solve_vars_bounds n lat delta_prev a_prev).1 (a_start_ind n + i) = a_prev ∧
      rd (Solve_vars_bounds n lat delta_prev a_prev).2 (a_start_ind n + i) = a_prev) ∧
    (∀ v, within_bounds (Solve_vars_bounds n lat delta_prev a_prev).1
        (Solve_vars_bounds n lat delta_prev a_prev).2 v →
      rd v (delta_start_ind n + i) = delta_prev ∧ rd v (a_start_ind n + i) = a_prev) ∧
    (∀ (cos sin atan : α → α) (solve : ipopt_solver α) (state coeffs : List α),
      within_bounds (Solve_vars_bounds n lat delta_prev a_prev).1
        (Solve_vars_bounds n lat delta_prev a_prev).2
        (solve (Solve_vars n state) (Solve_vars_bounds n lat delta_prev a_prev).1
          (Solve_vars_bounds n lat delta_prev a_prev).2
          (Solve_constraints_bounds n state).1 (Solve_constraints_bounds n state).2
          (FG_eval cos sin atan n coeffs)).x →
      (Solve cos sin atan solve n lat delta_prev a_prev state coeffs).Delta[i]? =
        some delta_prev ∧
      (Solve cos sin atan solve n lat delta_prev a_prev state coeffs).A[i]? = some a_prev) := by
  have hd := rd_bounds_delta_locked n lat delta_prev a_prev i hn hi hin
  have ha := rd_bounds_a_locked n lat delta_prev a_prev i hn hi hin
  have hlen := length_vars_lowerbound n lat delta_prev a_prev
  have hnv := n_vars_eq n
  have hds := delta_start_ind_eq n
  have has := a_start_ind_eq n
  have key : ∀ v, within_bounds (Solve_vars_bounds n lat delta_prev a_prev).1
      (Solve_vars_bounds n lat delta_prev a_prev).2 v →
      rd v (delta_start_ind n + i) = delta_prev ∧ rd v (a_start_ind n + i) = a_prev := by
    intro v hv
    have h1 := hv.2 (delta_start_ind n + i) (by omega)
    have h2 := hv.2 (a_start_ind n + i) (by omega)
    rw [hd.1, hd.2] at h1
    rw [ha.1, ha.2] at h2
    exact ⟨le_antisymm h1.2 h1.1, le_antisymm h2.2 h2.1⟩
  refine ⟨⟨hd.1, hd.2, ha.1, ha.2⟩, key, ?_⟩
  intro cos sin atan solve state coeffs hv
  have hs := Solve_actuations cos sin atan solve n lat delta_prev a_prev state coeffs i hin
  rw [hs.1, hs.2, (key _ hv).1, (key _ hv).2]
  exact ⟨rfl, rfl⟩

/-- C4, at the program's `N = 12`, `latency_ind = 2` with `delta_prev = 0.1`, `a_prev = 0.5`:
the bounds of `delta_1` are both `0.1`. -/
theorem latency_lock_fixes_first_actuations_witness :
    2 ≤ N ∧ 1 < latency_ind ∧ 1 < N - 1 ∧
    rd (Solve_vars_bounds N latency_ind (0.1 : ℝ) 0.5).1 (delta_start_ind N + 1) = 0.1 ∧
    rd (Solve_vars_bounds N latency_ind (0.1 : ℝ) 0.5).2 (delta_start_ind N + 1) = 0.1 :=
  ⟨by decide, by decide, by decide,
    (latency_lock_fixes_first_actuations N latency_ind (0.1 : ℝ) 0.5 1 (by decide) (by decide)
      (by decide)).1.1,
    (latency_lock_fixes_first_actuations N latency_ind (0.1 : ℝ) 0.5 1 (by decide) (by decide)
      (by decide)).1.2.1⟩

/-- C5 fails as stated: with `delta_prev = 1` (and the program's `N = 12`, `latency_ind = 2`)
the vector of the upper bounds lies within the variable bounds that `Solve` builds, and its
entry `delta_0` is `1`, outside `[-0.436332, 0.436332]`. -/
theorem steering_limit_broken_by_latency_lock :
    ∃ v : List ℝ,
      within_bounds (Solve_vars_bounds N latency_ind (1 : ℝ) 0).1
        (Solve_vars_bounds N latency_ind (1 : ℝ) 0).2 v ∧
      rd v (delta_start_ind N + 0) = 1 ∧
      ¬ (-0.436332 ≤ rd v (delta_start_ind N + 0) ∧ rd v (delta_start_ind N + 0) ≤ 0.436332) := by
  refine ⟨(Solve_vars_bounds N latency_ind (1 : ℝ) 0).2,
    vars_upperbound_within_bounds N latency_ind 1 0, ?_, ?_⟩
  · exact (rd_bounds_delta_locked N latency_ind (1 : ℝ) 0 0 (by decide) (by decide)
      (by decide)).2
  · rw [(rd_bounds_delta_locked N latency_ind (1 : ℝ) 0 0 (by decide) (by decide)
      (by decide)).2]
    norm_num

/-- C5, amended: every vector within the variable bounds that `Solve` builds has its entry
`delta_t` (`t < n - 1`) in `[-0.436332, 0.436332]` when `t` is not latency-locked or
`delta_prev` lies in that interval, and its entry `a_t` in `[-1, 1]` when `t` is not
latency-locked or `a_prev` lies in that interval. -/
theorem actuations_within_limits {α : Type} [LinearOrderedField α] (n lat : Nat)
    (delta_prev a_prev : α) (v : List α) (t : Nat) (hn : 2 ≤ n) (ht : t < n - 1)
    (hv : within_bounds (Solve_vars_bounds n lat delta_prev a_prev).1
      (Solve_vars_bounds n lat delta_prev a_prev).2 v) :
    ((lat ≤ t ∨ (-0.436332 ≤ delta_prev ∧ delta_prev ≤ 0.436332)) →
      -0.436332 ≤ rd v (delta_start_ind n + t) ∧ rd v (delta_start_ind n + t) ≤ 0.436332) ∧
    ((lat ≤ t ∨ (-1 ≤ a_prev ∧ a_prev ≤ 1)) →
      -1 ≤ rd v (a_start_ind n + t) ∧ rd v (a_start_ind n + t) ≤ 1) := by
  have hlen := length_vars_lowerbound n lat delta_prev a_prev
  have hnv := n_vars_eq n
  have hds := delta_start_ind_eq n
  have has := a_start_ind_eq n
  have h1 := hv.2 (delta_start_ind n + t) (by omega)
  have h2 := hv.2 (a_start_ind n + t) (by omega)
  have one : (1.0 : α) = 1 := by norm_num
  constructor
  · intro h
    rcases Nat.lt_or_ge t lat with hlt | hge
    · have hb := rd_bounds_delta_locked n lat delta_prev a_prev t hn hlt ht
      rw [hb.1, hb.2] at h1
      rcases h with h | h
      · omega
      · exact ⟨le_trans h.1 h1.1, le_trans h1.2 h.2⟩
    · have hb := rd_bounds_delta_free n lat delta_prev a_prev t hn hge ht
      rw [hb.1, hb.2] at h1
      exact h1
  · intro h
    rcases Nat.lt_or_ge t lat with hlt | hge
    · have hb := rd_bounds_a_locked n lat delta_prev a_prev t hn hlt ht
      rw [hb.1, hb.2] at h2
      rcases h with h | h
      · omega
      · exact ⟨le_trans h.1 h2.1, le_trans h2.2 h.2⟩
    · have hb := rd_bounds_a_free n lat delta_prev a_prev t hn hge ht
      rw [hb.1, hb.2, one] at h2
      exact h2

/-- C5 amended, at the program's `N = 12`, `latency_ind = 2` with `delta_prev = 0.1`,
`a_prev = 0.5` and the vector of the upper bounds: its locked entry `delta_0` is within the
steering limits. -/
theorem actuations_within_limits_witness :
    2 ≤ N ∧ 0 < N - 1 ∧
    within_bounds (Solve_vars_bounds N latency_ind (0.1 : ℝ) 0.5).1
      (Solve_vars_bounds N latency_ind (0.1 : ℝ) 0.5).2
      (Solve_vars_bounds N latency_ind (0.1 : ℝ) 0.5).2 ∧
    (-0.436332 ≤ rd (Solve_vars_bounds N latency_ind (0.1 : ℝ) 0.5).2 (delta_start_ind N + 0) ∧
      rd (Solve_vars_bounds N latency_ind (0.1 : ℝ) 0.5).2 (delta_start_ind N + 0) ≤ 0.436332) :=
  ⟨by decide, by decide, vars_upperbound_within_bounds N latency_ind 0.1 0.5,
    (actuations_within_limits N latency_ind (0.1 : ℝ) 0.5 _ 0 (by decide) (by decide)
      (vars_upperbound_within_bounds N latency_ind 0.1 0.5)).1
      (Or.inr ⟨by norm_num, by norm_num⟩)⟩

/-- C6: in the variable bounds that `Solve` builds, every state variable (index below `6n`) has
the bounds `[-1.0e17, 1.0e17]`, every `delta` variable that is not latency-locked has the
bounds `[-0.436332, 0.436332]`, and every `a` variable that is not latency-locked has the bounds
`[-1, 1]`. -/
theorem variable_bounds_values {α : Type} [LinearOrderedField α] (n lat : Nat)
    (delta_prev a_prev : α) (hn : 2 ≤ n) :
    (∀ i, i < 6 * n →
      rd (Solve_vars_bounds n lat delta_prev a_prev).1 i = -1.0e17 ∧
        rd (Solve_vars_bounds n lat delta_prev a_prev).2 i = 1.0e17) ∧
    (∀ t, lat ≤ t → t < n - 1 →
      rd (Solve_vars_bounds n lat delta_prev a_prev).1 (delta_start_ind n + t) = -0.436332 ∧
        rd (Solve_vars_bounds n lat delta_prev a_prev).2 (delta_start_ind n + t) = 0.436332) ∧
    (∀ t, lat ≤ t → t < n - 1 →
      rd (Solve_vars_bounds n lat delta_prev a_prev).1 (a_start_ind n + t) = -1 ∧
        rd (Solve_vars_bounds n lat delta_prev a_prev).2 (a_start_ind n + t) = 1) := by
  have one : (1.0 : α) = 1 := by norm_num
  refine ⟨fun i hi => rd_bounds_state n lat delta_prev a_prev i hn
      (by rw [delta_start_ind_eq]; exact hi),
    fun t h1 h2 => rd_bounds_delta_free n lat delta_prev a_prev t hn h1 h2, fun t h1 h2 => ?_⟩
  have hb := rd_bounds_a_free n lat delta_prev a_prev t hn h1 h2
  rw [one] at hb
  exact hb

/-- C6, at the program's `N = 12`, `latency_ind = 2`: the bounds of the first state variable
and of the first free `delta` variable. -/
theorem variable_bounds_values_witness :
    2 ≤ N ∧
    (rd (Solve_vars_bounds N latency_ind (0.1 : ℝ) 0.5).1 0 = -1.0e17 ∧
      rd (Solve_vars_bounds N latency_ind (0.1 : ℝ) 0.5).2 0 = 1.0e17) ∧
    (rd (Solve_vars_bounds N latency_ind (0.1 : ℝ) 0.5).1 (delta_start_ind N + 2) = -0.436332 ∧
      rd (Solve_vars_bounds N latency_ind (0.1 : ℝ) 0.5).2 (delta_start_ind N + 2) = 0.436332) :=
  ⟨by decide,
    (variable_bounds_values N latency_ind (0.1 : ℝ) 0.5 (by decide)).1 0 (by decide),
    (variable_bounds_values N latency_ind (0.1 : ℝ) 0.5 (by decide)).2.1 2 (by decide)
      (by decide)⟩

/-- C7 fails as stated: at the program's `N = 12`, for the decision vector whose `y` entry
of timestep 0 is `1` and whose other entries are `0`, constraint row 1 is `0` (it is the `x`
residual of the first step), not the timestep-0 pin of `y`, which is `1`. -/
theorem constraint_row_one_not_y_pin :
    rd (constraint_values (FG_eval Real.cos Real.sin Real.arctan N [0, 0, 0, 0]
      (Dvector (1 + n_constraints N)) ((Dvector (n_vars N)).set (y_start_ind N) 1))) 1 = 0 ∧
    rd ((Dvector (n_vars N) : List ℝ).set (y_start_ind N) 1) (y_start_ind N) = 1 ∧
    rd (constraint_values (FG_eval Real.cos Real.sin Real.arctan N [0, 0, 0, 0]
      (Dvector (1 + n_constraints N)) ((Dvector (n_vars N)).set (y_start_ind N) 1))) 1 ≠
      rd ((Dvector (n_vars N) : List ℝ).set (y_start_ind N) 1) (y_start_ind N) := by
  have h1 : rd (constraint_values (FG_eval Real.cos Real.sin Real.arctan N [0, 0, 0, 0]
      (Dvector (1 + n_constraints N)) ((Dvector (n_vars N)).set (y_start_ind N) 1))) 1 = 0 := by
    rw [rd_constraint_values]
    have h := ((FG_eval_spec Real.cos Real.sin Real.arctan N [0, 0, 0, 0]
      (Dvector (1 + n_constraints N)) ((Dvector (n_vars N)).set (y_start_ind N) 1)
      (by decide) (length_Dvector _)).2.2.2 0 (by decide)).1
    have e : 1 + 1 = 2 + x_start_ind + 0 := rfl
    rw [e, h]
    simp [residual, predict, state_at, rd_set, rd_Dvector, length_Dvector, x_start_ind,
      v_start_ind, psi_start_ind, y_start_ind, N, n_vars]
  have h2 : rd ((Dvector (n_vars N) : List ℝ).set (y_start_ind N) 1) (y_start_ind N) = 1 :=
    rd_set_eq _ _ _ (by rw [length_Dvector]; decide)
  refine ⟨h1, h2, ?_⟩
  rw [h1, h2]
  norm_num

/-- C7, amended: the constraint vector `fg[1 .. 6n]` produced by `FG_eval` has length `6n` and
is laid out field by field: for each of the six fields x, y, psi, v, cte, epsi (in this order,
`k = 0 .. 5`) row `k*n` holds the timestep-0 entry of the field, and for every `t` in
`0 .. n-2` row `k*n + t + 1` holds the residual of that field of the step from `t` to
`t + 1`. -/
theorem constraint_rows_field_major {α : Type} [Field α] (cos sin atan : α → α) (n : Nat)
    (coeffs fg vars : List α) (hn : 2 ≤ n) (hfg : fg.length = 1 + n_constraints n) :
    (constraint_values (FG_eval cos sin atan n coeffs fg vars)).length = 6 * n ∧
    (rd (constraint_values (FG_eval cos sin atan n coeffs fg vars)) 0 = (state_at n vars 0).x ∧
      rd (constraint_values (FG_eval cos sin atan n coeffs fg vars)) n =
        (state_at n vars 0).y ∧
      rd (constraint_values (FG_eval cos sin atan n coeffs fg vars)) (2 * n) =
        (state_at n vars 0).psi ∧
      rd (constraint_values (FG_eval cos sin atan n coeffs fg vars)) (3 * n) =
        (state_at n vars 0).v ∧
      rd (constraint_values (FG_eval cos sin atan n coeffs fg vars)) (4 * n) =
        (state_at n vars 0).cte ∧
      rd (constraint_values (FG_eval cos sin atan n coeffs fg vars)) (5 * n) =
        (state_at n vars 0).epsi) ∧
    (∀ t, t < n - 1 →
      rd (constraint_values (FG_eval cos sin atan n coeffs fg vars)) (t + 1) =
        (residual cos sin atan n coeffs vars t).x ∧
      rd (constraint_values (FG_eval cos sin atan n coeffs fg vars)) (n + (t + 1)) =
        (residual cos sin atan n coeffs vars t).y ∧
      rd (constraint_values (FG_eval cos sin atan n coeffs fg vars)) (2 * n + (t + 1)) =
        (residual cos sin atan n coeffs vars t).psi ∧
      rd (constraint_values (FG_eval cos sin atan n coeffs fg vars)) (3 * n + (t + 1)) =
        (residual cos sin atan n coeffs vars t).v ∧
      rd (constraint_values (FG_eval cos sin atan n coeffs fg vars)) (4 * n + (t + 1)) =
        (residual cos sin atan n coeffs vars t).cte ∧
      rd (constraint_values (FG_eval cos sin atan n coeffs fg vars)) (5 * n + (t + 1)) =
        (residual cos sin atan n coeffs vars t).epsi) := by
  have hx := x_start_ind_eq
  have hy := y_start_ind_eq n
  have hpsi := psi_start_ind_eq n
  have hv := v_start_ind_eq n
  have hcte := cte_start_ind_eq n
  have hepsi := epsi_start_ind_eq n
  have hnc := n_constraints_eq n
  obtain ⟨hl, -, ⟨p1, p2, p3, p4, p5, p6⟩, hres⟩ :=
    FG_eval_spec cos sin atan n coeffs fg vars (by omega) hfg
  refine ⟨?_, ⟨?_, ?_, ?_, ?_, ?_, ?_⟩, ?_⟩
  · unfold constraint_values
    rw [List.length_tail, hl, hfg]
    omega
  · rw [rd_constraint_values, show 1 + 0 = 1 + x_start_ind by omega, p1]
    simp only [state_at, Nat.add_zero]
  · rw [rd_constraint_values, show 1 + n = 1 + y_start_ind n by omega, p2]
    simp only [state_at, Nat.add_zero]
  · rw [rd_constraint_values, show 1 + 2 * n = 1 + psi_start_ind n by omega, p3]
    simp only [state_at, Nat.add_zero]
  · rw [rd_constraint_values, show 1 + 3 * n = 1 + v_start_ind n by omega, p4]
    simp only [state_at, Nat.add_zero]
  · rw [rd_constraint_values, show 1 + 4 * n = 1 + cte_start_ind n by omega, p5]
    simp only [state_at, Nat.add_zero]
  · rw [rd_constraint_values, show 1 + 5 * n = 1 + epsi_start_ind n by omega, p6]
    simp only [state_at, Nat.add_zero]
  · intro t ht
    obtain ⟨r1, r2, r3, r4, r5, r6⟩ := hres t (by omega)
    refine ⟨?_, ?_, ?_, ?_, ?_, ?_⟩
    · rw [rd_constraint_values, show 1 + (t + 1) = 2 + x_start_ind + t by omega, r1]
    · rw [rd_constraint_values, show 1 + (n + (t + 1)) = 2 + y_start_ind n + t by omega, r2]
    · rw [rd_constraint_values,
        show 1 + (2 * n + (t + 1)) = 2 + psi_start_ind n + t by omega, r3]
    · rw [rd_constraint_values, show 1 + (3 * n + (t + 1)) = 2 + v_start_ind n + t by omega, r4]
    · rw [rd_constraint_values,
        show 1 + (4 * n + (t + 1)) = 2 + cte_start_ind n + t by omega, r5]
    · rw [rd_constraint_values,
        show 1 + (5 * n + (t + 1)) = 2 + epsi_start_ind n + t by omega, r6]

/-- C7 amended, at the program's `N = 12` over the reals: the constraint vector has 72 rows,
and row 12 is the timestep-0 pin of `y`. -/
theorem constraint_rows_field_major_witness :
    2 ≤ N ∧ (Dvector (1 + n_constraints N) : List ℝ).length = 1 + n_constraints N ∧
    (constraint_values (FG_eval Real.cos Real.sin Real.arctan N [0, 0, 0, 0]
      (Dvector (1 + n_constraints N)) ((Dvector (n_vars N)).set (y_start_ind N) 1))).length
      = 6 * N ∧
    rd (constraint_values (FG_eval Real.cos Real.sin Real.arctan N [0, 0, 0, 0]
      (Dvector (1 + n_constraints N)) ((Dvector (n_vars N)).set (y_start_ind N) 1))) N = 1 :=
  ⟨by decide, length_Dvector _,
    (constraint_rows_field_major Real.cos Real.sin Real.arctan N [0, 0, 0, 0]
      (Dvector (1 + n_constraints N)) ((Dvector (n_vars N)).set (y_start_ind N) 1)
      (by decide) (length_Dvector _)).1,
    (constraint_rows_field_major Real.cos Real.sin Real.arctan N [0, 0, 0, 0]
      (Dvector (1 + n_constraints N)) ((Dvector (n_vars N)).set (y_start_ind N) 1)
      (by decide) (length_Dvector _)).2.1.2.1.trans (by
        simp [state_at, rd_set, length_Dvector, N, n_vars, y_start_ind, x_start_ind])⟩

/-- C8: in the constraint bounds that `Solve` builds, each of the `6n` rows has its lower
bound equal to its upper bound; the six rows on which `FG_eval` outputs the timestep-0
variables `vars[x_start]`, ..., `vars[epsi_start]` are bounded by the corresponding field of
the given state, and every other row is bounded by `0`.  Hence a vector whose constraint
values meet the constraint bounds has its six timestep-0 state entries equal to the given
state and all its dynamics residuals equal to zero. -/
theorem constraint_bounds_pin_state_and_zero_residuals {α : Type} [LinearOrderedField α]
    (cos sin atan : α → α) (n : Nat) (state coeffs fg vars : List α) (hn : 2 ≤ n)
    (hfg : fg.length = 1 + n_constraints n) :
    ((Solve_constraints_bounds n state).1.length = 6 * n ∧
      (Solve_constraints_bounds n state).2.length = 6 * n) ∧
    (∀ r, r < 6 * n →
      rd (Solve_constraints_bounds n state).1 r = rd (Solve_constraints_bounds n state).2 r) ∧
    (rd (constraint_values (FG_eval cos sin atan n coeffs fg vars)) x_start_ind =
        rd vars x_start_ind ∧
      rd (Solve_constraints_bounds n state).1 x_start_ind = rd state 0) ∧
    (rd (constraint_values (FG_eval cos sin atan n coeffs fg vars)) (y_start_ind n) =
        rd vars (y_start_ind n) ∧
      rd (Solve_constraints_bounds n state).1 (y_start_ind n) = rd state 1) ∧
    (rd (constraint_values (FG_eval cos sin atan n coeffs fg vars)) (psi_start_ind n) =
        rd vars (psi_start_ind n) ∧
      rd (Solve_constraints_bounds n state).1 (psi_start_ind n) = rd state 2) ∧
    (rd (constraint_values (FG_eval cos sin atan n coeffs fg vars)) (v_start_ind n) =
        rd vars (v_start_ind n) ∧
      rd (Solve_constraints_bounds n state).1 (v_start_ind n) = rd state 3) ∧
    (rd (constraint_values (FG_eval cos sin atan n coeffs fg vars)) (cte_start_ind n) =
        rd vars (cte_start_ind n) ∧
      rd (Solve_constraints_bounds n state).1 (cte_start_ind n) = rd state 4) ∧
    (rd (constraint_values (FG_eval cos sin atan n coeffs fg vars)) (epsi_start_ind n) =
        rd vars (epsi_start_ind n) ∧
      rd (Solve_constraints_bounds n state).1 (epsi_start_ind n) = rd state 5) ∧
    (∀ r, r < 6 * n → r ≠ x_start_ind → r ≠ y_start_ind n → r ≠ psi_start_ind n →
      r ≠ v_start_ind n → r ≠ cte_start_ind n → r ≠ epsi_start_ind n →
      rd (Solve_constraints_bounds n state).1 r = 0) ∧
    (within_bounds (Solve_constraints_bounds n state).1 (Solve_constraints_bounds n state).2
        (constraint_values (FG_eval cos sin atan n coeffs fg vars)) →
      (rd vars x_start_ind = rd state 0 ∧ rd vars (y_start_ind n) = rd state 1 ∧
        rd vars (psi_start_ind n) = rd state 2 ∧ rd vars (v_start_ind n) = rd state 3 ∧
        rd vars (cte_start_ind n) = rd state 4 ∧ rd vars (epsi_start_ind n) = rd state 5) ∧
      ∀ t, t < n - 1 → residual cos sin atan n coeffs vars t = ⟨0, 0, 0, 0, 0, 0⟩) := by
  have hx := x_start_ind_eq
  have hy := y_start_ind_eq n
  have hpsi := psi_start_ind_eq n
  have hv := v_start_ind_eq n
  have hcte := cte_start_ind_eq n
  have hepsi := epsi_start_ind_eq n
  have hnc := n_constraints_eq n
  have hgl := rd_constraints_lowerbound n state (by omega : 1 ≤ n)
  obtain ⟨-, -, ⟨p1, p2, p3, p4, p5, p6⟩, -⟩ :=
    FG_eval_spec cos sin atan n coeffs fg vars (by omega) hfg
  refine ⟨⟨?_, ?_⟩, ?_, ⟨?_, ?_⟩, ⟨?_, ?_⟩, ⟨?_, ?_⟩, ⟨?_, ?_⟩, ⟨?_, ?_⟩, ⟨?_, ?_⟩, ?_, ?_⟩
  · rw [length_constraints_lowerbound, hnc]
  · rw [constraints_upperbound_eq, length_constraints_lowerbound, hnc]
  · intro r _
    rw [constraints_upperbound_eq]
  · rw [rd_constraint_values, p1]
  · rw [hgl]
    simp (disch := omega) only [if_neg, if_pos, if_true]
  · rw [rd_constraint_values, p2]
  · rw [hgl]
    simp (disch := omega) only [if_neg, if_pos, if_true]
  · rw [rd_constraint_values, p3]
  · rw [hgl]
    simp (disch := omega) only [if_neg, if_pos, if_true]
  · rw [rd_constraint_values, p4]
  · rw [hgl]
    simp (disch := omega) only [if_neg, if_pos, if_true]
  · rw [rd_constraint_values, p5]
  · rw [hgl]
    simp (disch := omega) only [if_neg, if_pos, if_true]
  · rw [rd_constraint_values, p6]
  · rw [hgl]
    simp (disch := omega) only [if_neg, if_pos, if_true]
  · intro r _ h1 h2 h3 h4 h5 h6
    rw [hgl, if_neg h6, if_neg h5, if_neg h4, if_neg h3, if_neg h2, if_neg h1]
  · intro hfeas
    obtain ⟨h0, hstep⟩ :=
      feasible_pins_and_dynamics cos sin atan n state coeffs fg vars hn hfg hfeas
    refine ⟨⟨congrArg State.x h0, congrArg State.y h0, congrArg State.psi h0,
      congrArg State.v h0, congrArg State.cte h0, congrArg State.epsi h0⟩, ?_⟩
    intro t ht
    have h := hstep t ht
    simp only [residual, h, sub_self]

/-- C8, at the program's `N = 12` over the reals with the state `(1, 2, 3, 4, 5, 6)`: the
constraint bounds have 72 rows and row `v_start_ind = 36` is bounded below by `4`. -/
theorem constraint_bounds_pin_state_and_zero_residuals_witness :
    2 ≤ N ∧ (Dvector (1 + n_constraints N) : List ℝ).length = 1 + n_constraints N ∧
    (Solve_constraints_bounds N [(1 : ℝ), 2, 3, 4, 5, 6]).1.length = 6 * N ∧
    rd (Solve_constraints_bounds N [(1 : ℝ), 2, 3, 4, 5, 6]).1 (v_start_ind N) = 4 :=
  ⟨by decide, length_Dvector _,
    (constraint_bounds_pin_state_and_zero_residuals Real.cos Real.sin Real.arctan N
      [1, 2, 3, 4, 5, 6] [0, 0, 0, 0] (Dvector (1 + n_constraints N)) (Dvector (n_vars N))
      (by decide) (length_Dvector _)).1.1,
    (constraint_bounds_pin_state_and_zero_residuals Real.cos Real.sin Real.arctan N
      [1, 2, 3, 4, 5, 6] [0, 0, 0, 0] (Dvector (1 + n_constraints N)) (Dvector (n_vars N))
      (by decide) (length_Dvector _)).2.2.2.2.2.1.2.trans (by simp [rd])⟩

/-- C9: for every state, coefficient vector and decision vector `vars` whose constraint values
(as computed by `FG_eval`) lie within the constraint bounds that `Solve` builds for that state,
the state entries of `vars` at every step `t = 0 .. n-1` (in particular its `x` and `y`
entries) equal, exactly, the trajectory obtained by forward-simulating the dynamics equations
from the given state with the `delta` and `a` entries of `vars`; and when the solver returns
`vars`, the `X` and `Y` sequences that `Solve` returns are the first `n - 1` points of that
simulated trajectory. -/
theorem feasible_vector_is_forward_simulation {α : Type} [LinearOrderedField α]
    (cos sin atan : α → α) (n : Nat) (state coeffs fg vars : List α) (hn : 2 ≤ n)
    (hfg : fg.length = 1 + n_constraints n)
    (hfeas : within_bounds (Solve_constraints_bounds n state).1
      (Solve_constraints_bounds n state).2
      (constraint_values (FG_eval cos sin atan n coeffs fg vars))) :
    (∀ t, t < n →
      state_at n vars t = simulate cos sin atan coeffs (state_of state)
        (fun k => rd vars (delta_start_ind n + k)) (fun k => rd vars (a_start_ind n + k)) t ∧
      rd vars (x_start_ind + t) = (simulate cos sin atan coeffs (state_of state)
        (fun k => rd vars (delta_start_ind n + k)) (fun k => rd vars (a_start_ind n + k)) t).x ∧
      rd vars (y_start_ind n + t) = (simulate cos sin atan coeffs (state_of state)
        (fun k => rd vars (delta_start_ind n + k))
        (fun k => rd vars (a_start_ind n + k)) t).y) ∧
    (∀ (solve : ipopt_solver α) (lat : Nat) (delta_prev a_prev : α),
      (solve (Solve_vars n state) (Solve_vars_bounds n lat delta_prev a_prev).1
        (Solve_vars_bounds n lat delta_prev a_prev).2 (Solve_constraints_bounds n state).1
        (Solve_constraints_bounds n state).2 (FG_eval cos sin atan n coeffs)).x = vars →
      (Solve cos sin atan solve n lat delta_prev a_prev state coeffs).X =
        (List.range (n - 1)).map (fun t => (simulate cos sin atan coeffs (state_of state)
          (fun k => rd vars (delta_start_ind n + k))
          (fun k => rd vars (a_start_ind n + k)) t).x) ∧
      (Solve cos sin atan solve n lat delta_prev a_prev state coeffs).Y =
        (List.range (n - 1)).map (fun t => (simulate cos sin atan coeffs (state_of state)
          (fun k => rd vars (delta_start_ind n + k))
          (fun k => rd vars (a_start_ind n + k)) t).y)) := by
  have key := feasible_eq_simulate cos sin atan n state coeffs fg vars hn hfg hfeas
  refine ⟨fun t ht => ⟨key t ht, congrArg State.x (key t ht), congrArg State.y (key t ht)⟩, ?_⟩
  intro solve lat delta_prev a_prev hsol
  rw [Solve_eq, Solve_extract_eq, hsol]
  refine ⟨List.map_congr_left (fun t ht => ?_), List.map_congr_left (fun t ht => ?_)⟩
  · exact congrArg State.x (key t (by have := List.mem_range.mp ht; omega))
  · exact congrArg State.y (key t (by have := List.mem_range.mp ht; omega))

/-- C9, at the program's `N = 12` over the reals: the zero vector meets the constraint bounds
built for the zero state (with the zero polynomial), and its `x` entry of step 5 is the `x` of
the fifth state of the forward simulation. -/
theorem feasible_vector_is_forward_simulation_witness :
    2 ≤ N ∧ (Dvector (1 + n_constraints N) : List ℝ).length = 1 + n_constraints N ∧
    within_bounds (Solve_constraints_bounds N [(0 : ℝ), 0, 0, 0, 0, 0]).1
      (Solve_constraints_bounds N [(0 : ℝ), 0, 0, 0, 0, 0]).2
      (constraint_values (FG_eval Real.cos Real.sin Real.arctan N [0, 0, 0, 0]
        (Dvector (1 + n_constraints N)) (Dvector (n_vars N)))) ∧
    rd (Dvector (n_vars N) : List ℝ) (x_start_ind + 5) =
      (simulate Real.cos Real.sin Real.arctan [0, 0, 0, 0] (state_of [(0 : ℝ), 0, 0, 0, 0, 0])
        (fun k => rd (Dvector (n_vars N) : List ℝ) (delta_start_ind N + k))
        (fun k => rd (Dvector (n_vars N) : List ℝ) (a_start_ind N + k)) 5).x :=
  have hfeas : within_bounds (Solve_constraints_bounds N [(0 : ℝ), 0, 0, 0, 0, 0]).1
      (Solve_constraints_bounds N [(0 : ℝ), 0, 0, 0, 0, 0]).2
      (constraint_values (FG_eval Real.cos Real.sin Real.arctan N [0, 0, 0, 0]
        (Dvector (1 + n_constraints N)) (Dvector (n_vars N)))) :=
    feasible_of_pins_and_dynamics Real.cos Real.sin Real.arctan N [0, 0, 0, 0, 0, 0]
      [0, 0, 0, 0] (Dvector (1 + n_constraints N)) (Dvector (n_vars N)) (by decide)
      (length_Dvector _)
      (by
        simp only [state_at, state_of, rd_Dvector]
        simp [rd])
      (fun t _ => by
        simp only [state_at, predict, f_path, psi_des, rd_Dvector]
        simp [rd])
  ⟨by decide, length_Dvector _, hfeas,
    ((feasible_vector_is_forward_simulation Real.cos Real.sin Real.arctan N
      [0, 0, 0, 0, 0, 0] [0, 0, 0, 0] (Dvector (1 + n_constraints N)) (Dvector (n_vars N))
      (by decide) (length_Dvector _) hfeas).1 5 (by decide)).2.1⟩

/-- C10 fails on the code: `Solve` computes `ok` from the solver status and never uses it.
Whatever status `st` the solver reports (for instance `maxiter_exceeded`), the `Solution`
that `Solve` returns is the one it returns when the solver reports `success` with the same
vector and objective value. -/
theorem Solve_returns_failed_solve_as_successful {α : Type} [Field α] (cos sin atan : α → α)
    (st : status_type) (x : List α) (obj_value : α) (n lat : Nat) (delta_prev a_prev : α)
    (state coeffs : List α) :
    Solve cos sin atan (fun _ _ _ _ _ _ => ⟨st, x, obj_value⟩) n lat delta_prev a_prev
        state coeffs =
      Solve cos sin atan (fun _ _ _ _ _ _ => ⟨status_type.success, x, obj_value⟩) n lat
        delta_prev a_prev state coeffs := by
  rw [Solve_eq, Solve_eq, Solve_extract_eq, Solve_extract_eq]

section InitialGuess

variable {α : Type} [Field α]

theorem length_Solve_vars (n : Nat) (state : List α) :
    (Solve_vars n state).length = n_vars n := by
  simp only [Solve_vars, List.length_set, length_fill, length_Dvector]

/-- Every entry of the initial guess, for `1 ≤ n`. -/
theorem rd_Solve_vars (n : Nat) (state : List α) (hn : 1 ≤ n) (j : Nat) :
    rd (Solve_vars n state) j =
      if j = epsi_start_ind n then rd state 5
      else if j = cte_start_ind n then rd state 4
      else if j = v_start_ind n then rd state 3
      else if j = psi_start_ind n then rd state 2
      else if j = y_start_ind n then rd state 1
      else if j = x_start_ind then rd state 0
      else 0 := by
  have hx := x_start_ind_eq
  have hy := y_start_ind_eq n
  have hpsi := psi_start_ind_eq n
  have hv := v_start_ind_eq n
  have hcte := cte_start_ind_eq n
  have hepsi := epsi_start_ind_eq n
  have hnv := n_vars_eq n
  simp only [Solve_vars]
  have hz : ∀ i, rd (forLoop 0 (n_vars n) (fun i v => v.set i 0)
      (Dvector (n_vars n) : List α)) i = 0 := by
    intro i
    rw [rd_fill, rd_Dvector, ite_self]
  have hlen : (forLoop 0 (n_vars n) (fun i v => v.set i 0)
      (Dvector (n_vars n) : List α)).length = n_vars n := by
    rw [length_fill, length_Dvector]
  generalize forLoop 0 (n_vars n) (fun i v => v.set i 0)
      (Dvector (n_vars n) : List α) = z at hz hlen
  by_cases h5 : j = epsi_start_ind n
  · rw [if_pos h5, h5, rd_set_eq _ _ _ (by simp only [List.length_set]; omega)]
  rw [if_neg h5, rd_set_ne _ _ _ _ (Ne.symm h5)]
  by_cases h4 : j = cte_start_ind n
  · rw [if_pos h4, h4, rd_set_eq _ _ _ (by simp only [List.length_set]; omega)]
  rw [if_neg h4, rd_set_ne _ _ _ _ (Ne.symm h4)]
  by_cases h3 : j = v_start_ind n
  · rw [if_pos h3, h3, rd_set_eq _ _ _ (by simp only [List.length_set]; omega)]
  rw [if_neg h3, rd_set_ne _ _ _ _ (Ne.symm h3)]
  by_cases h2 : j = psi_start_ind n
  · rw [if_pos h2, h2, rd_set_eq _ _ _ (by simp only [List.length_set]; omega)]
  rw [if_neg h2, rd_set_ne _ _ _ _ (Ne.symm h2)]
  by_cases h1 : j = y_start_ind n
  · rw [if_pos h1, h1, rd_set_eq _ _ _ (by simp only [List.length_set]; omega)]
  rw [if_neg h1, rd_set_ne _ _ _ _ (Ne.symm h1)]
  by_cases h0 : j = x_start_ind
  · rw [if_pos h0, h0, rd_set_eq _ _ _ (by omega)]
  rw [if_neg h0, rd_set_ne _ _ _ _ (Ne.symm h0), hz]

theorem rd_eq_getElem? (v : List α) (i : Nat) (h : i < v.length) : v[i]? = some (rd v i) := by
  unfold rd
  simp [List.getD_eq_getElem?_getD, List.getElem?_eq_getElem h]

end InitialGuess

/-! ## The indices that the loops visit -/

section Indices2

theorem mem_loop_indices (lo hi i : Nat) : i ∈ loop_indices lo hi ↔ lo ≤ i ∧ i < hi := by
  unfold loop_indices
  rw [List.mem_range'_1]
  omega

theorem mem_Solve_vars_bounds_writes (n lat i : Nat) :
    i ∈ Solve_vars_bounds_writes n lat ↔
      i < delta_start_ind n ∨ (delta_start_ind n ≤ i ∧ i < a_start_ind n) ∨
      (delta_start_ind n ≤ i ∧ i < delta_start_ind n + lat) ∨
      (a_start_ind n ≤ i ∧ i < n_vars n) ∨ (a_start_ind n ≤ i ∧ i < a_start_ind n + lat) := by
  simp only [Solve_vars_bounds_writes, state_bounds_writes, delta_bounds_writes,
    delta_lock_writes, a_bounds_writes, a_lock_writes, List.mem_append, mem_loop_indices,
    Nat.zero_le, true_and, or_assoc]

theorem mem_FG_eval_constraint_writes (n : Nat) (hn : 2 ≤ n) (i : Nat) :
    i ∈ FG_eval_constraint_writes n ↔ 1 ≤ i ∧ i ≤ 6 * n := by
  have hx := x_start_ind_eq
  have hy := y_start_ind_eq n
  have hpsi := psi_start_ind_eq n
  have hv := v_start_ind_eq n
  have hcte := cte_start_ind_eq n
  have hepsi := epsi_start_ind_eq n
  simp only [FG_eval_constraint_writes, List.mem_append, List.mem_flatMap, List.mem_cons,
    List.mem_singleton, List.not_mem_nil, or_false, mem_loop_indices]
  constructor
  · rintro (h | ⟨t, ht, h⟩) <;> omega
  · intro h
    by_cases hp : i = 1 + x_start_ind ∨ i = 1 + y_start_ind n ∨ i = 1 + psi_start_ind n ∨
        i = 1 + v_start_ind n ∨ i = 1 + cte_start_ind n ∨ i = 1 + epsi_start_ind n
    · exact Or.inl hp
    · refine Or.inr ?_
      rcases Nat.lt_or_ge i (1 + n) with a1 | a1
      · exact ⟨i - 2, by omega, by omega⟩
      rcases Nat.lt_or_ge i (1 + 2 * n) with a2 | a2
      · exact ⟨i - 2 - n, by omega, by omega⟩
      rcases Nat.lt_or_ge i (1 + 3 * n) with a3 | a3
      · exact ⟨i - 2 - 2 * n, by omega, by omega⟩
      rcases Nat.lt_or_ge i (1 + 4 * n) with a4 | a4
      · exact ⟨i - 2 - 3 * n, by omega, by omega⟩
      rcases Nat.lt_or_ge i (1 + 5 * n) with a5 | a5
      · exact ⟨i - 2 - 4 * n, by omega, by omega⟩
      · exact ⟨i - 2 - 5 * n, by omega, by omega⟩

theorem nodup_FG_eval_constraint_writes (n : Nat) (hn : 2 ≤ n) :
    (FG_eval_constraint_writes n).Nodup := by
  have hx := x_start_ind_eq
  have hy := y_start_ind_eq n
  have hpsi := psi_start_ind_eq n
  have hv := v_start_ind_eq n
  have hcte := cte_start_ind_eq n
  have hepsi := epsi_start_ind_eq n
  unfold FG_eval_constraint_writes
  rw [List.nodup_append]
  refine ⟨?_, ?_, ?_⟩
  · simp only [List.nodup_cons, List.mem_cons, List.mem_singleton, List.not_mem_nil,
      List.nodup_nil, and_true, not_or, not_false_eq_true]
    omega
  · rw [List.nodup_flatMap]
    constructor
    · intro t ht
      rw [mem_loop_indices] at ht
      simp only [List.nodup_cons, List.mem_cons, List.mem_singleton, List.not_mem_nil,
        List.nodup_nil, and_true, not_or, not_false_eq_true]
      omega
    · unfold loop_indices
      refine List.Pairwise.imp_of_mem ?_ (List.pairwise_lt_range' 0 (n - 1 - 0))
      intro a b ha hb hab
      rw [List.mem_range'_1] at ha hb
      simp only [Function.onFun, List.disjoint_left, List.mem_cons, List.mem_singleton,
        List.not_mem_nil, or_false]
      intro c hc
      omega
  · simp only [List.disjoint_left, List.mem_cons, List.mem_singleton, List.not_mem_nil,
      or_false, List.mem_flatMap, mem_loop_indices, not_exists, not_and]
    intro c hc t ht
    omega

theorem FG_eval_vars_reads_lt (n : Nat) (hn : 2 ≤ n) :
    ∀ i ∈ FG_eval_vars_reads n, i < n_vars n := by
  have hx := x_start_ind_eq
  have hy := y_start_ind_eq n
  have hpsi := psi_start_ind_eq n
  have hv := v_start_ind_eq n
  have hcte := cte_start_ind_eq n
  have hepsi := epsi_start_ind_eq n
  have hd := delta_start_ind_eq n
  have ha := a_start_ind_eq n
  have hnv := n_vars_eq n
  intro i hi
  simp only [FG_eval_vars_reads, List.mem_append, List.mem_flatMap, List.mem_cons,
    List.mem_singleton, List.not_mem_nil, or_false, mem_loop_indices] at hi
  rcases hi with (((⟨t, ht, h⟩ | ⟨t, ht, h⟩) | ⟨t, ht, h⟩) | h) | ⟨t, ht, h⟩ <;> omega

theorem forLoop_congr {σ : Type} (lo hi : Nat) (f g : Nat → σ → σ) (s : σ)
    (h : ∀ i, lo ≤ i → i < hi → ∀ s, f i s = g i s) :
    forLoop lo hi f s = forLoop lo hi g s := by
  rcases Nat.lt_or_ge hi lo with hlt | hge
  · rw [forLoop_of_le _ _ _ _ (by omega), forLoop_of_le _ _ _ _ (by omega)]
  · induction hi with
    | zero => rw [forLoop_of_le _ _ _ _ (by omega), forLoop_of_le _ _ _ _ (by omega)]
    | succ k ih =>
      rcases Nat.eq_or_lt_of_le hge with heq | hlt
      · rw [forLoop_of_le _ _ _ _ (by omega), forLoop_of_le _ _ _ _ (by omega)]
      · have hk : lo ≤ k := by omega
        rw [forLoop_succ _ _ _ _ hk, forLoop_succ _ _ _ _ hk,
          ih (fun i h1 h2 => h i h1 (by omega)) hk, h k hk (by omega)]

/-- The result of `FG_eval` depends on `vars` only through the entries at the indices of
`FG_eval_vars_reads`. -/
theorem FG_eval_depends_on_reads {α : Type} [Field α] (cos sin atan : α → α) (n : Nat)
    (coeffs fg vars vars2 : List α)
    (h : ∀ i ∈ FG_eval_vars_reads n, rd vars i = rd vars2 i) :
    FG_eval cos sin atan n coeffs fg vars = FG_eval cos sin atan n coeffs fg vars2 := by
  simp only [FG_eval_vars_reads, List.mem_append, List.mem_flatMap, List.mem_cons,
    List.mem_singleton, List.not_mem_nil, or_false, mem_loop_indices] at h
  have h1 : ∀ w, cost_reference n vars w = cost_reference n vars2 w := by
    intro w
    unfold cost_reference
    refine forLoop_congr _ _ _ _ _ (fun t ht1 ht2 s => ?_)
    simp only []
    rw [h _ (Or.inl (Or.inl (Or.inl (Or.inl ⟨t, ⟨ht1, ht2⟩, Or.inl rfl⟩)))),
      h _ (Or.inl (Or.inl (Or.inl (Or.inl ⟨t, ⟨ht1, ht2⟩, Or.inr (Or.inl rfl)⟩)))),
      h _ (Or.inl (Or.inl (Or.inl (Or.inl ⟨t, ⟨ht1, ht2⟩, Or.inr (Or.inr rfl)⟩))))]
  have h2 : ∀ w, cost_actuators n vars w = cost_actuators n vars2 w := by
    intro w
    unfold cost_actuators
    refine forLoop_congr _ _ _ _ _ (fun t ht1 ht2 s => ?_)
    simp only []
    rw [h _ (Or.inl (Or.inl (Or.inl (Or.inr ⟨t, ⟨ht1, ht2⟩, Or.inl rfl⟩)))),
      h _ (Or.inl (Or.inl (Or.inl (Or.inr ⟨t, ⟨ht1, ht2⟩, Or.inr rfl⟩))))]
  have h3 : ∀ w, cost_gaps n vars w = cost_gaps n vars2 w := by
    intro w
    unfold cost_gaps
    refine forLoop_congr _ _ _ _ _ (fun t ht1 ht2 s => ?_)
    simp only []
    rw [h _ (Or.inl (Or.inl (Or.inr ⟨t, ⟨ht1, ht2⟩, Or.inl rfl⟩))),
      h _ (Or.inl (Or.inl (Or.inr ⟨t, ⟨ht1, ht2⟩, Or.inr (Or.inl rfl)⟩))),
      h _ (Or.inl (Or.inl (Or.inr ⟨t, ⟨ht1, ht2⟩, Or.inr (Or.inr (Or.inl rfl))⟩))),
      h _ (Or.inl (Or.inl (Or.inr ⟨t, ⟨ht1, ht2⟩, Or.inr (Or.inr (Or.inr rfl))⟩)))]
  have h4 : ∀ w, initial_constraints n vars w = initial_constraints n vars2 w := by
    intro w
    unfold initial_constraints
    simp only []
    rw [h _ (Or.inl (Or.inr (Or.inl rfl))),
      h _ (Or.inl (Or.inr (Or.inr (Or.inl rfl)))),
      h _ (Or.inl (Or.inr (Or.inr (Or.inr (Or.inl rfl))))),
      h _ (Or.inl (Or.inr (Or.inr (Or.inr (Or.inr (Or.inl rfl)))))),
      h _ (Or.inl (Or.inr (Or.inr (Or.inr (Or.inr (Or.inr (Or.inl rfl))))))),
      h _ (Or.inl (Or.inr (Or.inr (Or.inr (Or.inr (Or.inr (Or.inr rfl)))))))]
  have h5 : ∀ w, model_constraints cos sin atan n coeffs vars w =
      model_constraints cos sin atan n coeffs vars2 w := by
    intro w
    unfold model_constraints
    refine forLoop_congr _ _ _ _ _ (fun t ht1 ht2 s => ?_)
    have hm : ∀ j, j ∈ [x_start_ind + t + 1, y_start_ind n + t + 1, psi_start_ind n + t + 1,
        v_start_ind n + t + 1, cte_start_ind n + t + 1, epsi_start_ind n + t + 1,
        x_start_ind + t, y_start_ind n + t, psi_start_ind n + t, v_start_ind n + t,
        cte_start_ind n + t, epsi_start_ind n + t, delta_start_ind n + t, a_start_ind n + t] →
        rd vars j = rd vars2 j := by
      intro j hj
      simp only [List.mem_cons, List.mem_singleton, List.not_mem_nil, or_false] at hj
      exact h j (Or.inr ⟨t, ⟨ht1, ht2⟩, hj⟩)
    simp only [model_step]
    rw [hm (x_start_ind + t + 1) (by simp), hm (y_start_ind n + t + 1) (by simp),
      hm (psi_start_ind n + t + 1) (by simp), hm (v_start_ind n + t + 1) (by simp),
      hm (cte_start_ind n + t + 1) (by simp), hm (epsi_start_ind n + t + 1) (by simp),
      hm (x_start_ind + t) (by simp), hm (y_start_ind n + t) (by simp),
      hm (psi_start_ind n + t) (by simp), hm (v_start_ind n + t) (by simp),
      hm (epsi_start_ind n + t) (by simp), hm (delta_start_ind n + t) (by simp),
      hm (a_start_ind n + t) (by simp)]
  simp only [FG_eval, h1, h2, h3, h4, h5]

end Indices2

/-! ## The recorded accesses -/

section TracedBasics

theorem val_pure {σ : Type} (a : σ) : (pure a : Traced σ).val = a := rfl

theorem log_pure {σ : Type} (a : σ) : (pure a : Traced σ).log = [] := rfl

theorem val_bind {σ τ : Type} (x : Traced σ) (f : σ → Traced τ) :
    (x >>= f).val = (f x.val).val := rfl

theorem log_bind {σ τ : Type} (x : Traced σ) (f : σ → Traced τ) :
    (x >>= f).log = x.log ++ (f x.val).log := rfl

theorem val_read {α : Type} [Field α] (vec : Vec) (v : List α) (i : Nat) :
    (read vec v i).val = rd v i := rfl

theorem log_read {α : Type} [Field α] (vec : Vec) (v : List α) (i : Nat) :
    (read vec v i).log = [⟨vec, false, i, v.length⟩] := rfl

theorem val_assign {α : Type} (vec : Vec) (v : List α) (i : Nat) (a : α) :
    (assign vec v i a).val = v.set i a := rfl

theorem log_assign {α : Type} (vec : Vec) (v : List α) (i : Nat) (a : α) :
    (assign vec v i a).log = [⟨vec, true, i, v.length⟩] := rfl

theorem writes_of_nil (vec : Vec) : writes_of vec [] = [] := rfl

theorem writes_of_append (vec : Vec) (a b : List Access) :
    writes_of vec (a ++ b) = writes_of vec a ++ writes_of vec b := by
  simp only [writes_of, List.filter_append, List.map_append]

theorem reads_of_nil (vec : Vec) : reads_of vec [] = [] := rfl

theorem reads_of_append (vec : Vec) (a b : List Access) :
    reads_of vec (a ++ b) = reads_of vec a ++ reads_of vec b := by
  simp only [reads_of, List.filter_append, List.map_append]

theorem mem_writes_of (vec : Vec) (log : List Access) (i : Nat) :
    i ∈ writes_of vec log ↔ ∃ a ∈ log, a.vec = vec ∧ a.write = true ∧ a.index = i := by
  simp only [writes_of, List.mem_map, List.mem_filter, Bool.and_eq_true, decide_eq_true_eq]
  constructor
  · rintro ⟨a, ⟨h1, h2, h3⟩, h4⟩
    exact ⟨a, h1, h2, h3, h4⟩
  · rintro ⟨a, h1, h2, h3, h4⟩
    exact ⟨a, ⟨h1, h2, h3⟩, h4⟩

theorem mem_reads_of (vec : Vec) (log : List Access) (i : Nat) :
    i ∈ reads_of vec log ↔ ∃ a ∈ log, a.vec = vec ∧ a.write = false ∧ a.index = i := by
  simp only [reads_of, List.mem_map, List.mem_filter, Bool.and_eq_true, decide_eq_true_eq,
    Bool.not_eq_true']
  constructor
  · rintro ⟨a, ⟨h1, h2, h3⟩, h4⟩
    exact ⟨a, h1, h2, h3, h4⟩
  · rintro ⟨a, h1, h2, h3, h4⟩
    exact ⟨a, ⟨h1, h2, h3⟩, h4⟩

/-- The value of a recorded loop is the value of the loop. -/
theorem val_forLoop_traced {σ : Type} (lo hi : Nat) (body : Nat → σ → Traced σ)
    (f : Nat → σ → σ) (h : ∀ i s, (body i s).val = f i s) (s : σ) :
    (forLoop_traced lo hi body s).val = forLoop lo hi f s := by
  unfold forLoop_traced forLoop
  generalize List.range' lo (hi - lo) = l
  induction l generalizing s with
  | nil => rfl
  | cons i l ih =>
    rw [List.foldlM_cons, val_bind, ih, h, List.foldl_cons]

/-- The accesses of a recorded loop are those of its passes, one after the other; here for a
part `p` of the accesses that does not depend on the values. -/
theorem log_forLoop_traced {σ β : Type} (p : List Access → List β) (hp0 : p [] = [])
    (hp : ∀ a b, p (a ++ b) = p a ++ p b) (lo hi : Nat) (body : Nat → σ → Traced σ)
    (g : Nat → List β) (h : ∀ i s, p (body i s).log = g i) (s : σ) :
    p (forLoop_traced lo hi body s).log = (loop_indices lo hi).flatMap g := by
  unfold forLoop_traced loop_indices
  generalize List.range' lo (hi - lo) = l
  induction l generalizing s with
  | nil => exact hp0
  | cons i l ih =>
    rw [List.foldlM_cons, log_bind, hp, ih, h, List.flatMap_cons]

/-- A property `P` of the accesses of every pass, under an invariant `Q` of the loop, holds
for all accesses of the loop. -/
theorem forall_log_forLoop_traced {σ : Type} (P : Access → Prop) (Q : σ → Prop) (lo hi : Nat)
    (body : Nat → σ → Traced σ)
    (h : ∀ i s, lo ≤ i → i < hi → Q s → (∀ a ∈ (body i s).log, P a) ∧ Q (body i s).val)
    (s : σ) (hs : Q s) :
    (∀ a ∈ (forLoop_traced lo hi body s).log, P a) ∧ Q (forLoop_traced lo hi body s).val := by
  unfold forLoop_traced
  have hl : ∀ i ∈ List.range' lo (hi - lo), lo ≤ i ∧ i < hi := by
    intro i hi2
    rw [List.mem_range'_1] at hi2
    omega
  revert hl
  generalize List.range' lo (hi - lo) = l
  intro hl
  induction l generalizing s with
  | nil => exact ⟨fun a ha => absurd ha (List.not_mem_nil a), hs⟩
  | cons i l ih =>
    have hi2 := hl i (List.mem_cons_self i l)
    obtain ⟨h1, h2⟩ := h i s hi2.1 hi2.2 hs
    obtain ⟨h3, h4⟩ := ih (body i s).val h2 (fun j hj => hl j (List.mem_cons_of_mem i hj))
    rw [List.foldlM_cons]
    refine ⟨fun a ha => ?_, h4⟩
    rw [log_bind, List.mem_append] at ha
    rcases ha with ha | ha
    · exact h1 a ha
    · exact h3 a ha

end TracedBasics

section TracedFG

variable {α : Type} [Field α]

theorem val_cost_reference_traced (n : Nat) (vars fg : List α) :
    (cost_reference_traced n vars fg).val = cost_reference n vars fg :=
  val_forLoop_traced _ _ _ _ (fun _ _ => rfl) fg

theorem val_cost_actuators_traced (n : Nat) (vars fg : List α) :
    (cost_actuators_traced n vars fg).val = cost_actuators n vars fg :=
  val_forLoop_traced _ _ _ _ (fun _ _ => rfl) fg

theorem val_cost_gaps_traced (n : Nat) (vars fg : List α) :
    (cost_gaps_traced n vars fg).val = cost_gaps n vars fg :=
  val_forLoop_traced _ _ _ _ (fun _ _ => rfl) fg

theorem val_initial_constraints_traced (n : Nat) (vars fg : List α) :
    (initial_constraints_traced n vars fg).val = initial_constraints n vars fg := rfl

theorem val_model_constraints_traced (cos sin atan : α → α) (n : Nat)
    (coeffs vars fg : List α) :
    (model_constraints_traced cos sin atan n coeffs vars fg).val =
      model_constraints cos sin atan n coeffs vars fg :=
  val_forLoop_traced _ _ _ _ (fun _ _ => rfl) fg

/-- The recorded `FG_eval` computes the vector that `FG_eval` computes. -/
theorem val_FG_eval_traced (cos sin atan : α → α) (n : Nat) (coeffs fg vars : List α) :
    (FG_eval_traced cos sin atan n coeffs fg vars).val = FG_eval cos sin atan n coeffs fg vars := by
  simp only [FG_eval_traced, FG_eval, val_bind, val_pure, val_assign, val_cost_reference_traced,
    val_cost_actuators_traced, val_cost_gaps_traced, val_initial_constraints_traced,
    val_model_constraints_traced]

theorem writes_of_cost_reference_traced (n : Nat) (vars fg : List α) :
    writes_of Vec.fg (cost_reference_traced n vars fg).log =
      (loop_indices 0 n).flatMap (fun _ => [0, 0, 0]) := by
  unfold cost_reference_traced
  refine log_forLoop_traced (writes_of Vec.fg) (writes_of_nil _) (writes_of_append _) 0 n _
    (fun _ => [0, 0, 0]) ?_ fg
  intro i s
  rfl

theorem writes_of_cost_actuators_traced (n : Nat) (vars fg : List α) :
    writes_of Vec.fg (cost_actuators_traced n vars fg).log =
      (loop_indices 0 (n - 1)).flatMap (fun _ => [0, 0]) := by
  unfold cost_actuators_traced
  refine log_forLoop_traced (writes_of Vec.fg) (writes_of_nil _) (writes_of_append _) 0 (n - 1)
    _ (fun _ => [0, 0]) ?_ fg
  intro i s
  rfl

theorem writes_of_cost_gaps_traced (n : Nat) (vars fg : List α) :
    writes_of Vec.fg (cost_gaps_traced n vars fg).log =
      (loop_indices 0 (n - 2)).flatMap (fun _ => [0, 0]) := by
  unfold cost_gaps_traced
  refine log_forLoop_traced (writes_of Vec.fg) (writes_of_nil _) (writes_of_append _) 0 (n - 2)
    _ (fun _ => [0, 0]) ?_ fg
  intro i s
  rfl

theorem writes_of_model_constraints_traced (cos sin atan : α → α) (n : Nat)
    (coeffs vars fg : List α) :
    writes_of Vec.fg (model_constraints_traced cos sin atan n coeffs vars fg).log =
      (loop_indices 0 (n - 1)).flatMap (fun i =>
        [2 + x_start_ind + i, 2 + y_start_ind n + i, 2 + psi_start_ind n + i,
          2 + v_start_ind n + i, 2 + cte_start_ind n + i, 2 + epsi_start_ind n + i]) := by
  unfold model_constraints_traced
  refine log_forLoop_traced (writes_of Vec.fg) (writes_of_nil _) (writes_of_append _) 0 (n - 1)
    _ _ ?_ fg
  intro i s
  rfl

theorem writes_of_initial_constraints_traced (n : Nat) (vars fg : List α) :
    writes_of Vec.fg (initial_constraints_traced n vars fg).log =
      [1 + x_start_ind, 1 + y_start_ind n, 1 + psi_start_ind n, 1 + v_start_ind n,
        1 + cte_start_ind n, 1 + epsi_start_ind n] := rfl

theorem reads_of_initial_constraints_traced (n : Nat) (vars fg : List α) :
    reads_of Vec.vars (initial_constraints_traced n vars fg).log =
      [x_start_ind, y_start_ind n, psi_start_ind n, v_start_ind n, cte_start_ind n,
        epsi_start_ind n] := rfl

/-- The indices of `fg` that the constraint part of the recorded `FG_eval` assigns. -/
theorem writes_of_constraints_traced (cos sin atan : α → α) (n : Nat)
    (coeffs fg fg2 vars : List α) :
    writes_of Vec.fg (initial_constraints_traced n vars fg).log ++
      writes_of Vec.fg (model_constraints_traced cos sin atan n coeffs vars fg2).log =
      FG_eval_constraint_writes n := by
  rw [writes_of_model_constraints_traced]
  rfl

/-- The indices of `fg` that the recorded `FG_eval` assigns, in program order. -/
theorem writes_of_FG_eval_traced (cos sin atan : α → α) (n : Nat) (coeffs fg vars : List α) :
    writes_of Vec.fg (FG_eval_traced cos sin atan n coeffs fg vars).log =
      FG_eval_fg_accesses n := by
  simp only [FG_eval_traced, log_bind, log_pure, writes_of_append, writes_of_nil,
    List.append_nil, writes_of_cost_reference_traced, writes_of_cost_actuators_traced,
    writes_of_cost_gaps_traced, writes_of_model_constraints_traced,
    writes_of_initial_constraints_traced, FG_eval_fg_accesses, FG_eval_constraint_writes,
    List.append_assoc]
  rfl

theorem reads_of_cost_reference_traced (n : Nat) (vars fg : List α) :
    reads_of Vec.vars (cost_reference_traced n vars fg).log =
      (loop_indices 0 n).flatMap (fun t =>
        [cte_start_ind n + t, epsi_start_ind n + t, v_start_ind n + t]) := by
  unfold cost_reference_traced
  refine log_forLoop_traced (reads_of Vec.vars) (reads_of_nil _) (reads_of_append _) 0 n _
    _ ?_ fg
  intro i s
  rfl

theorem reads_of_cost_actuators_traced (n : Nat) (vars fg : List α) :
    reads_of Vec.vars (cost_actuators_traced n vars fg).log =
      (loop_indices 0 (n - 1)).flatMap (fun t =>
        [delta_start_ind n + t, a_start_ind n + t]) := by
  unfold cost_actuators_traced
  refine log_forLoop_traced (reads_of Vec.vars) (reads_of_nil _) (reads_of_append _) 0 (n - 1)
    _ _ ?_ fg
  intro i s
  rfl

theorem reads_of_cost_gaps_traced (n : Nat) (vars fg : List α) :
    reads_of Vec.vars (cost_gaps_traced n vars fg).log =
      (loop_indices 0 (n - 2)).flatMap (fun t =>
        [delta_start_ind n + t + 1, delta_start_ind n + t, a_start_ind n + t + 1,
          a_start_ind n + t]) := by
  unfold cost_gaps_traced
  refine log_forLoop_traced (reads_of Vec.vars) (reads_of_nil _) (reads_of_append _) 0 (n - 2)
    _ _ ?_ fg
  intro i s
  rfl

theorem reads_of_model_constraints_traced (cos sin atan : α → α) (n : Nat)
    (coeffs vars fg : List α) :
    reads_of Vec.vars (model_constraints_traced cos sin atan n coeffs vars fg).log =
      (loop_indices 0 (n - 1)).flatMap (fun i =>
        [x_start_ind + i + 1, y_start_ind n + i + 1, psi_start_ind n + i + 1,
          v_start_ind n + i + 1, cte_start_ind n + i + 1, epsi_start_ind n + i + 1,
          x_start_ind + i, y_start_ind n + i, psi_start_ind n + i, v_start_ind n + i,
          cte_start_ind n + i, epsi_start_ind n + i, delta_start_ind n + i,
          a_start_ind n + i]) := by
  unfold model_constraints_traced
  refine log_forLoop_traced (reads_of Vec.vars) (reads_of_nil _) (reads_of_append _) 0 (n - 1)
    _ _ ?_ fg
  intro i s
  rfl

/-- The indices of `vars` that the recorded `FG_eval` reads, in program order. -/
theorem reads_of_FG_eval_traced (cos sin atan : α → α) (n : Nat) (coeffs fg vars : List α) :
    reads_of Vec.vars (FG_eval_traced cos sin atan n coeffs fg vars).log =
      FG_eval_vars_reads n := by
  simp only [FG_eval_traced, log_bind, log_pure, reads_of_append, reads_of_nil,
    List.append_nil, reads_of_cost_reference_traced, reads_of_cost_actuators_traced,
    reads_of_cost_gaps_traced, reads_of_model_constraints_traced,
    reads_of_initial_constraints_traced, FG_eval_vars_reads, List.append_assoc]
  rfl

end TracedFG

section TracedFGRange

variable {α : Type} [Field α]

theorem in_range_cost_reference_traced (n : Nat) (vars fg : List α)
    (hfg : fg.length = 1 + n_constraints n) (hvars : vars.length = n_vars n) :
    in_range (cost_reference_traced n vars fg).log ∧
      (cost_reference_traced n vars fg).val.length = 1 + n_constraints n := by
  have hv := v_start_ind_eq n
  have hcte := cte_start_ind_eq n
  have hepsi := epsi_start_ind_eq n
  have hnv := n_vars_eq n
  unfold cost_reference_traced in_range
  refine forall_log_forLoop_traced (fun a => a.index < a.size)
    (fun fg => fg.length = 1 + n_constraints n) 0 n _ ?_ fg hfg
  intro t fg _ ht hq
  simp only [log_bind, log_read, log_assign, log_pure, val_bind, val_assign, val_read, val_pure,
    List.length_set, List.append_nil, List.cons_append, List.nil_append, List.mem_cons,
    List.not_mem_nil, forall_eq_or_imp, or_false, forall_eq, hq, hvars, and_true]
  omega

theorem in_range_cost_actuators_traced (n : Nat) (vars fg : List α)
    (hfg : fg.length = 1 + n_constraints n) (hvars : vars.length = n_vars n) :
    in_range (cost_actuators_traced n vars fg).log ∧
      (cost_actuators_traced n vars fg).val.length = 1 + n_constraints n := by
  have hd := delta_start_ind_eq n
  have ha := a_start_ind_eq n
  have hnv := n_vars_eq n
  unfold cost_actuators_traced in_range
  refine forall_log_forLoop_traced (fun a => a.index < a.size)
    (fun fg => fg.length = 1 + n_constraints n) 0 (n - 1) _ ?_ fg hfg
  intro t fg _ ht hq
  simp only [log_bind, log_read, log_assign, log_pure, val_bind, val_assign, val_read, val_pure,
    List.length_set, List.append_nil, List.cons_append, List.nil_append, List.mem_cons,
    List.not_mem_nil, forall_eq_or_imp, or_false, forall_eq, hq, hvars, and_true]
  omega

theorem in_range_cost_gaps_traced (n : Nat) (vars fg : List α)
    (hfg : fg.length = 1 + n_constraints n) (hvars : vars.length = n_vars n) :
    in_range (cost_gaps_traced n vars fg).log ∧
      (cost_gaps_traced n vars fg).val.length = 1 + n_constraints n := by
  have hd := delta_start_ind_eq n
  have ha := a_start_ind_eq n
  have hnv := n_vars_eq n
  unfold cost_gaps_traced in_range
  refine forall_log_forLoop_traced (fun a => a.index < a.size)
    (fun fg => fg.length = 1 + n_constraints n) 0 (n - 2) _ ?_ fg hfg
  intro t fg _ ht hq
  simp only [log_bind, log_read, log_assign, log_pure, val_bind, val_assign, val_read, val_pure,
    List.length_set, List.append_nil, List.cons_append, List.nil_append, List.mem_cons,
    List.not_mem_nil, forall_eq_or_imp, or_false, forall_eq, hq, hvars, and_true]
  omega

theorem in_range_initial_constraints_traced (n : Nat) (vars fg : List α) (hn : 1 ≤ n)
    (hfg : fg.length = 1 + n_constraints n) (hvars : vars.length = n_vars n) :
    in_range (initial_constraints_traced n vars fg).log ∧
      (initial_constraints_traced n vars fg).val.length = 1 + n_constraints n := by
  have hx := x_start_ind_eq
  have hy := y_start_ind_eq n
  have hpsi := psi_start_ind_eq n
  have hv := v_start_ind_eq n
  have hcte := cte_start_ind_eq n
  have hepsi := epsi_start_ind_eq n
  have hnv := n_vars_eq n
  have hnc := n_constraints_eq n
  unfold initial_constraints_traced in_range
  simp only [log_bind, log_read, log_assign, log_pure, val_bind, val_assign, val_read, val_pure,
    List.length_set, List.append_nil, List.cons_append, List.nil_append, List.mem_cons,
    List.not_mem_nil, forall_eq_or_imp, or_false, forall_eq, hfg, hvars, and_true]
  omega

theorem in_range_model_constraints_traced (cos sin atan : α → α) (n : Nat)
    (coeffs vars fg : List α) (hfg : fg.length = 1 + n_constraints n)
    (hvars : vars.length = n_vars n) (hcoeffs : 4 ≤ coeffs.length) :
    in_range (model_constraints_traced cos sin atan n coeffs vars fg).log ∧
      (model_constraints_traced cos sin atan n coeffs vars fg).val.length =
        1 + n_constraints n := by
  have hx := x_start_ind_eq
  have hy := y_start_ind_eq n
  have hpsi := psi_start_ind_eq n
  have hv := v_start_ind_eq n
  have hcte := cte_start_ind_eq n
  have hepsi := epsi_start_ind_eq n
  have hd := delta_start_ind_eq n
  have ha := a_start_ind_eq n
  have hnv := n_vars_eq n
  have hnc := n_constraints_eq n
  unfold model_constraints_traced in_range
  refine forall_log_forLoop_traced (fun a => a.index < a.size)
    (fun fg => fg.length = 1 + n_constraints n) 0 (n - 1) _ ?_ fg hfg
  intro t fg _ ht hq
  simp only [model_step_traced, log_bind, log_read, log_assign, log_pure, val_bind, val_assign,
    val_read, val_pure, List.length_set, List.append_nil, List.cons_append, List.nil_append,
    List.mem_cons, List.not_mem_nil, forall_eq_or_imp, or_false, forall_eq, hq, hvars, and_true]
  omega

/-- With `fg` of `1 + n_constraints` entries, `vars` of `n_vars` entries and at least four
coefficients, every access of `FG_eval` is inside its vector. -/
theorem in_range_FG_eval_traced (cos sin atan : α → α) (n : Nat) (coeffs fg vars : List α)
    (hn : 1 ≤ n) (hfg : fg.length = 1 + n_constraints n) (hvars : vars.length = n_vars n)
    (hcoeffs : 4 ≤ coeffs.length) :
    in_range (FG_eval_traced cos sin atan n coeffs fg vars).log := by
  have h0 : ((assign Vec.fg fg 0 (0 : α)).val).length = 1 + n_constraints n := by
    rw [val_assign, List.length_set, hfg]
  obtain ⟨a1, b1⟩ := in_range_cost_reference_traced n vars _ h0 hvars
  obtain ⟨a2, b2⟩ := in_range_cost_actuators_traced n vars _ b1 hvars
  obtain ⟨a3, b3⟩ := in_range_cost_gaps_traced n vars _ b2 hvars
  obtain ⟨a4, b4⟩ := in_range_initial_constraints_traced n vars _ hn b3 hvars
  obtain ⟨a5, -⟩ := in_range_model_constraints_traced cos sin atan n coeffs vars _ b4 hvars
    hcoeffs
  intro a ha
  simp only [FG_eval_traced, log_bind, log_pure, List.append_nil, List.mem_append] at ha
  rcases ha with ha | ha | ha | ha | ha | ha
  · rw [log_assign, List.mem_singleton] at ha
    subst ha
    show 0 < fg.length
    omega
  · exact a1 a ha
  · exact a2 a ha
  · exact a3 a ha
  · exact a4 a ha
  · exact a5 a ha

end TracedFGRange

section TracedFill

variable {α : Type}

/-- The recorded loop `for (i = lo; i < hi; i++) { lower[i] = c1; upper[i] = c2; }` on the
vectors named `v1`, `v2`: its value. -/
theorem val_fill_pair_traced (v1 v2 : Vec) (lo hi : Nat) (c1 c2 : α) (b : List α × List α) :
    (forLoop_traced lo hi (fun i (b : List α × List α) => do
      let lower ← assign v1 b.1 i c1
      let upper ← assign v2 b.2 i c2
      pure (lower, upper)) b).val =
      forLoop lo hi (fun i (b : List α × List α) => (b.1.set i c1, b.2.set i c2)) b :=
  val_forLoop_traced _ _ _ _ (fun _ _ => rfl) b

/-- The recorded loop `for (i = lo; i < hi; i++) { lower[i] = c1; upper[i] = c2; }`: it assigns
`lower` at `lo, ..., hi - 1`. -/
theorem writes_of_fill_pair_traced_left (v1 v2 : Vec) (h12 : v1 ≠ v2) (lo hi : Nat) (c1 c2 : α)
    (b : List α × List α) :
    writes_of v1 (forLoop_traced lo hi (fun i (b : List α × List α) => do
      let lower ← assign v1 b.1 i c1
      let upper ← assign v2 b.2 i c2
      pure (lower, upper)) b).log = loop_indices lo hi := by
  rw [log_forLoop_traced (writes_of v1) (writes_of_nil _) (writes_of_append _) lo hi _
    (fun i => [i]) ?_ b, List.flatMap_singleton']
  intro i s
  simp [log_bind, log_assign, log_pure, writes_of, List.filter_cons, h12.symm]

/-- The recorded loop `for (i = lo; i < hi; i++) { lower[i] = c1; upper[i] = c2; }`: it assigns
`upper` at `lo, ..., hi - 1`. -/
theorem writes_of_fill_pair_traced_right (v1 v2 : Vec) (h12 : v1 ≠ v2) (lo hi : Nat)
    (c1 c2 : α) (b : List α × List α) :
    writes_of v2 (forLoop_traced lo hi (fun i (b : List α × List α) => do
      let lower ← assign v1 b.1 i c1
      let upper ← assign v2 b.2 i c2
      pure (lower, upper)) b).log = loop_indices lo hi := by
  rw [log_forLoop_traced (writes_of v2) (writes_of_nil _) (writes_of_append _) lo hi _
    (fun i => [i]) ?_ b, List.flatMap_singleton']
  intro i s
  simp [log_bind, log_assign, log_pure, writes_of, List.filter_cons, h12]

/-- The recorded loop `for (i = lo; i < hi; i++) { lower[i] = c1; upper[i] = c2; }` on two
vectors of `L` entries: every access is an assignment at an index `lo ≤ i < hi` of a vector of
`L` entries, and the vectors keep their size. -/
theorem forall_fill_pair_traced (v1 v2 : Vec) (lo hi L : Nat) (c1 c2 : α) (b : List α × List α)
    (hb : b.1.length = L ∧ b.2.length = L) :
    (∀ a ∈ (forLoop_traced lo hi (fun i (b : List α × List α) => do
      let lower ← assign v1 b.1 i c1
      let upper ← assign v2 b.2 i c2
      pure (lower, upper)) b).log,
      (a.vec = v1 ∨ a.vec = v2) ∧ a.write = true ∧ lo ≤ a.index ∧ a.index < hi ∧ a.size = L) ∧
    ((forLoop_traced lo hi (fun i (b : List α × List α) => do
      let lower ← assign v1 b.1 i c1
      let upper ← assign v2 b.2 i c2
      pure (lower, upper)) b).val.1.length = L ∧
    (forLoop_traced lo hi (fun i (b : List α × List α) => do
      let lower ← assign v1 b.1 i c1
      let upper ← assign v2 b.2 i c2
      pure (lower, upper)) b).val.2.length = L) := by
  refine forall_log_forLoop_traced
    (fun a => (a.vec = v1 ∨ a.vec = v2) ∧ a.write = true ∧ lo ≤ a.index ∧ a.index < hi ∧
      a.size = L)
    (fun b => b.1.length = L ∧ b.2.length = L) lo hi _ ?_ b hb
  intro i s h1 h2 hq
  simp [log_bind, log_assign, log_pure, val_bind, val_assign, val_pure, hq.1, hq.2, h1, h2]

end TracedFill

section TracedBounds

variable {α : Type} [Field α]

/-- The recorded bound assignment computes the bound vectors of `Solve_vars_bounds`. -/
theorem val_Solve_vars_bounds_traced (n lat : Nat) (delta_prev a_prev : α) :
    (Solve_vars_bounds_traced n lat delta_prev a_prev).val =
      Solve_vars_bounds n lat delta_prev a_prev := by
  simp only [Solve_vars_bounds_traced, bounds_non_actuators_traced, bounds_delta_traced,
    lock_delta_traced, bounds_a_traced, lock_a_traced, val_bind, val_pure,
    val_fill_pair_traced]
  rfl

/-- The indices of `vars_lowerbound` that the recorded bound assignment assigns, in program
order. -/
theorem writes_of_lower_Solve_vars_bounds_traced (n lat : Nat) (delta_prev a_prev : α) :
    writes_of Vec.vars_lowerbound (Solve_vars_bounds_traced n lat delta_prev a_prev).log =
      Solve_vars_bounds_writes n lat := by
  simp only [Solve_vars_bounds_traced, bounds_non_actuators_traced, bounds_delta_traced,
    lock_delta_traced, bounds_a_traced, lock_a_traced, log_bind, log_pure, writes_of_append,
    writes_of_nil, List.append_nil,
    writes_of_fill_pair_traced_left Vec.vars_lowerbound Vec.vars_upperbound (by decide),
    Solve_vars_bounds_writes, state_bounds_writes, delta_bounds_writes, delta_lock_writes,
    a_bounds_writes, a_lock_writes, List.append_assoc]

/-- The indices of `vars_upperbound` that the recorded bound assignment assigns, in program
order. -/
theorem writes_of_upper_Solve_vars_bounds_traced (n lat : Nat) (delta_prev a_prev : α) :
    writes_of Vec.vars_upperbound (Solve_vars_bounds_traced n lat delta_prev a_prev).log =
      Solve_vars_bounds_writes n lat := by
  simp only [Solve_vars_bounds_traced, bounds_non_actuators_traced, bounds_delta_traced,
    lock_delta_traced, bounds_a_traced, lock_a_traced, log_bind, log_pure, writes_of_append,
    writes_of_nil, List.append_nil,
    writes_of_fill_pair_traced_right Vec.vars_lowerbound Vec.vars_upperbound (by decide),
    Solve_vars_bounds_writes, state_bounds_writes, delta_bounds_writes, delta_lock_writes,
    a_bounds_writes, a_lock_writes, List.append_assoc]

/-- Every access of the recorded bound assignment is an assignment to one of the two bound
vectors, which have `n_vars` entries at that moment, at an index that one of the five loops
visits. -/
theorem forall_log_Solve_vars_bounds_traced (n lat : Nat) (delta_prev a_prev : α) :
    ∀ a ∈ (Solve_vars_bounds_traced n lat delta_prev a_prev).log,
      (a.vec = Vec.vars_lowerbound ∨ a.vec = Vec.vars_upperbound) ∧ a.write = true ∧
      a.size = n_vars n ∧ a.index ∈ Solve_vars_bounds_writes n lat := by
  have h0 : ((Dvector (n_vars n) : List α), (Dvector (n_vars n) : List α)).1.length =
      n_vars n ∧ ((Dvector (n_vars n) : List α), (Dvector (n_vars n) : List α)).2.length =
      n_vars n := ⟨length_Dvector _, length_Dvector _⟩
  obtain ⟨a1, b1⟩ := forall_fill_pair_traced Vec.vars_lowerbound Vec.vars_upperbound 0
    (delta_start_ind n) (n_vars n) (-1.0e17 : α) 1.0e17 _ h0
  obtain ⟨a2, b2⟩ := forall_fill_pair_traced Vec.vars_lowerbound Vec.vars_upperbound
    (delta_start_ind n) (a_start_ind n) (n_vars n) (-0.436332 : α) 0.436332 _ b1
  obtain ⟨a3, b3⟩ := forall_fill_pair_traced Vec.vars_lowerbound Vec.vars_upperbound
    (delta_start_ind n) (delta_start_ind n + lat) (n_vars n) delta_prev delta_prev _ b2
  obtain ⟨a4, b4⟩ := forall_fill_pair_traced Vec.vars_lowerbound Vec.vars_upperbound
    (a_start_ind n) (n_vars n) (n_vars n) (-1.0 : α) 1.0 _ b3
  obtain ⟨a5, -⟩ := forall_fill_pair_traced Vec.vars_lowerbound Vec.vars_upperbound
    (a_start_ind n) (a_start_ind n + lat) (n_vars n) a_prev a_prev _ b4
  intro a ha
  simp only [Solve_vars_bounds_traced, bounds_non_actuators_traced, bounds_delta_traced,
    lock_delta_traced, bounds_a_traced, lock_a_traced, log_bind, log_pure, List.append_nil,
    List.mem_append] at ha
  rw [mem_Solve_vars_bounds_writes]
  rcases ha with ha | ha | ha | ha | ha
  · obtain ⟨c1, c2, c3, c4, c5⟩ := a1 a ha
    exact ⟨c1, c2, c5, Or.inl c4⟩
  · obtain ⟨c1, c2, c3, c4, c5⟩ := a2 a ha
    exact ⟨c1, c2, c5, Or.inr (Or.inl ⟨c3, c4⟩)⟩
  · obtain ⟨c1, c2, c3, c4, c5⟩ := a3 a ha
    exact ⟨c1, c2, c5, Or.inr (Or.inr (Or.inl ⟨c3, c4⟩))⟩
  · obtain ⟨c1, c2, c3, c4, c5⟩ := a4 a ha
    exact ⟨c1, c2, c5, Or.inr (Or.inr (Or.inr (Or.inl ⟨c3, c4⟩)))⟩
  · obtain ⟨c1, c2, c3, c4, c5⟩ := a5 a ha
    exact ⟨c1, c2, c5, Or.inr (Or.inr (Or.inr (Or.inr ⟨c3, c4⟩)))⟩

omit [Field α] in
/-- The accesses of the latency lock of `delta` are assignments at the indices
`delta_start_ind, ..., delta_start_ind + lat - 1`. -/
theorem forall_log_lock_delta_traced (n lat : Nat) (delta_prev : α) (b : List α × List α) :
    ∀ a ∈ (lock_delta_traced n lat delta_prev b).log,
      delta_start_ind n ≤ a.index ∧ a.index < delta_start_ind n + lat := by
  unfold lock_delta_traced
  refine (forall_log_forLoop_traced
    (fun a => delta_start_ind n ≤ a.index ∧ a.index < delta_start_ind n + lat)
    (fun _ => True) _ _ _ ?_ b trivial).1
  intro i s h1 h2 _
  simp [log_bind, log_assign, log_pure, h1, h2]

omit [Field α] in
/-- The latency lock of `a` assigns `vars_lowerbound` at each of the indices
`a_start_ind, ..., a_start_ind + lat - 1`, whatever the size of the vector. -/
theorem writes_of_lock_a_traced (n lat : Nat) (a_prev : α) (b : List α × List α) :
    writes_of Vec.vars_lowerbound (lock_a_traced n lat a_prev b).log =
      loop_indices (a_start_ind n) (a_start_ind n + lat) :=
  writes_of_fill_pair_traced_left Vec.vars_lowerbound Vec.vars_upperbound (by decide) _ _ _ _ b

/-- With a latency of more than `n - 1` steps, the recorded bound assignment executes an
assignment at an index `≥ n_vars` of a vector of `n_vars` entries. -/
theorem exists_out_of_range_Solve_vars_bounds_traced (n lat : Nat) (delta_prev a_prev : α)
    (hn : 2 ≤ n) (hlat : n - 1 < lat) :
    ∃ a ∈ (Solve_vars_bounds_traced n lat delta_prev a_prev).log,
      a.write = true ∧ a.size = n_vars n ∧ n_vars n ≤ a.index := by
  have hd := delta_start_ind_eq n
  have ha := a_start_ind_eq n
  have hnv := n_vars_eq n
  have hm : a_start_ind n + (n - 1) ∈ writes_of Vec.vars_lowerbound
      (Solve_vars_bounds_traced n lat delta_prev a_prev).log := by
    rw [writes_of_lower_Solve_vars_bounds_traced, mem_Solve_vars_bounds_writes]
    omega
  rw [mem_writes_of] at hm
  obtain ⟨a, h1, _, h3, h4⟩ := hm
  exact ⟨a, h1, h3, (forall_log_Solve_vars_bounds_traced n lat delta_prev a_prev a h1).2.2.1,
    by omega⟩

/-- The recorded assignment of the constraint bounds computes the bound vectors of
`Solve_constraints_bounds`. -/
theorem val_Solve_constraints_bounds_traced (n : Nat) (state : List α) :
    (Solve_constraints_bounds_traced n state).val = Solve_constraints_bounds n state := by
  simp only [Solve_constraints_bounds_traced, val_bind, val_pure, val_read, val_assign,
    val_fill_pair_traced]
  rfl

/-- With a state of at least six entries, every access made while the constraint bounds are
built is inside its vector. -/
theorem in_range_Solve_constraints_bounds_traced (n : Nat) (state : List α) (hn : 1 ≤ n)
    (hstate : 6 ≤ state.length) :
    in_range (Solve_constraints_bounds_traced n state).log := by
  have hx := x_start_ind_eq
  have hy := y_start_ind_eq n
  have hpsi := psi_start_ind_eq n
  have hv := v_start_ind_eq n
  have hcte := cte_start_ind_eq n
  have hepsi := epsi_start_ind_eq n
  have hnc := n_constraints_eq n
  have h0 : ((Dvector (n_constraints n) : List α), (Dvector (n_constraints n) : List α)).1.length
      = n_constraints n ∧
      ((Dvector (n_constraints n) : List α), (Dvector (n_constraints n) : List α)).2.length =
      n_constraints n := ⟨length_Dvector _, length_Dvector _⟩
  obtain ⟨a1, b1, b2⟩ := forall_fill_pair_traced Vec.constraints_lowerbound
    Vec.constraints_upperbound 0 (n_constraints n) (n_constraints n) (0 : α) 0 _ h0
  intro a ha
  simp only [Solve_constraints_bounds_traced, log_bind, log_pure, log_read, log_assign,
    val_bind, val_pure, val_read, val_assign, List.length_set, List.append_nil,
    List.cons_append, List.nil_append, List.mem_cons, List.mem_append, List.not_mem_nil,
    or_false, b1, b2] at ha
  rcases ha with rfl | rfl | rfl | rfl | rfl | rfl | ha | ha
  · show 0 < state.length
    omega
  · show 1 < state.length
    omega
  · show 2 < state.length
    omega
  · show 3 < state.length
    omega
  · show 4 < state.length
    omega
  · show 5 < state.length
    omega
  · obtain ⟨-, -, -, c4, c5⟩ := a1 a ha
    omega
  · rcases ha with rfl | rfl | rfl | rfl | rfl | rfl | rfl | rfl | rfl | rfl | rfl | rfl
    all_goals first
      | (show x_start_ind < n_constraints n; omega)
      | (show y_start_ind n < n_constraints n; omega)
      | (show psi_start_ind n < n_constraints n; omega)
      | (show v_start_ind n < n_constraints n; omega)
      | (show cte_start_ind n < n_constraints n; omega)
      | (show epsi_start_ind n < n_constraints n; omega)

end TracedBounds

section TracedRows

variable {α : Type} [Field α]

/-- Every entry of the result of `FG_eval` is assigned: the result does not depend on the
contents of the vector `fg` that is handed in. -/
theorem FG_eval_independent_of_fg (cos sin atan : α → α) (n : Nat) (coeffs fg fg2 vars : List α)
    (hn : 1 ≤ n) (hfg : fg.length = 1 + n_constraints n)
    (hfg2 : fg2.length = 1 + n_constraints n) :
    FG_eval cos sin atan n coeffs fg vars = FG_eval cos sin atan n coeffs fg2 vars := by
  have hx := x_start_ind_eq
  have hy := y_start_ind_eq n
  have hpsi := psi_start_ind_eq n
  have hv := v_start_ind_eq n
  have hcte := cte_start_ind_eq n
  have hepsi := epsi_start_ind_eq n
  have hnc := n_constraints_eq n
  obtain ⟨l1, c1, ⟨p1, p2, p3, p4, p5, p6⟩, r1⟩ :=
    FG_eval_spec cos sin atan n coeffs fg vars hn hfg
  obtain ⟨l2, c2, ⟨q1, q2, q3, q4, q5, q6⟩, r2⟩ :=
    FG_eval_spec cos sin atan n coeffs fg2 vars hn hfg2
  have key : ∀ i, i < 1 + n_constraints n →
      rd (FG_eval cos sin atan n coeffs fg vars) i =
        rd (FG_eval cos sin atan n coeffs fg2 vars) i := by
    intro i hi
    rcases Nat.eq_zero_or_pos i with h0 | h0
    · rw [h0, c1, c2]
    have cases : i = 1 + x_start_ind ∨ i = 1 + y_start_ind n ∨ i = 1 + psi_start_ind n ∨
        i = 1 + v_start_ind n ∨ i = 1 + cte_start_ind n ∨ i = 1 + epsi_start_ind n ∨
        ∃ t, t + 1 < n ∧ (i = 2 + x_start_ind + t ∨ i = 2 + y_start_ind n + t ∨
          i = 2 + psi_start_ind n + t ∨ i = 2 + v_start_ind n + t ∨
          i = 2 + cte_start_ind n + t ∨ i = 2 + epsi_start_ind n + t) := by
      by_cases e1 : i = 1 + x_start_ind
      · exact Or.inl e1
      by_cases e2 : i = 1 + y_start_ind n
      · exact Or.inr (Or.inl e2)
      by_cases e3 : i = 1 + psi_start_ind n
      · exact Or.inr (Or.inr (Or.inl e3))
      by_cases e4 : i = 1 + v_start_ind n
      · exact Or.inr (Or.inr (Or.inr (Or.inl e4)))
      by_cases e5 : i = 1 + cte_start_ind n
      · exact Or.inr (Or.inr (Or.inr (Or.inr (Or.inl e5))))
      by_cases e6 : i = 1 + epsi_start_ind n
      · exact Or.inr (Or.inr (Or.inr (Or.inr (Or.inr (Or.inl e6)))))
      refine Or.inr (Or.inr (Or.inr (Or.inr (Or.inr (Or.inr ?_)))))
      rcases Nat.lt_or_ge i (1 + n) with a1 | a1
      · exact ⟨i - 2, by omega, Or.inl (by omega)⟩
      rcases Nat.lt_or_ge i (1 + 2 * n) with a2 | a2
      · exact ⟨i - 2 - n, by omega, Or.inr (Or.inl (by omega))⟩
      rcases Nat.lt_or_ge i (1 + 3 * n) with a3 | a3
      · exact ⟨i - 2 - 2 * n, by omega, Or.inr (Or.inr (Or.inl (by omega)))⟩
      rcases Nat.lt_or_ge i (1 + 4 * n) with a4 | a4
      · exact ⟨i - 2 - 3 * n, by omega, Or.inr (Or.inr (Or.inr (Or.inl (by omega))))⟩
      rcases Nat.lt_or_ge i (1 + 5 * n) with a5 | a5
      · exact ⟨i - 2 - 4 * n, by omega, Or.inr (Or.inr (Or.inr (Or.inr (Or.inl (by omega)))))⟩
      · exact ⟨i - 2 - 5 * n, by omega, Or.inr (Or.inr (Or.inr (Or.inr (Or.inr (by omega)))))⟩
    rcases cases with e | e | e | e | e | e | ⟨t, ht, e | e | e | e | e | e⟩
    · rw [e, p1, q1]
    · rw [e, p2, q2]
    · rw [e, p3, q3]
    · rw [e, p4, q4]
    · rw [e, p5, q5]
    · rw [e, p6, q6]
    · rw [e, (r1 t ht).1, (r2 t ht).1]
    · rw [e, (r1 t ht).2.1, (r2 t ht).2.1]
    · rw [e, (r1 t ht).2.2.1, (r2 t ht).2.2.1]
    · rw [e, (r1 t ht).2.2.2.1, (r2 t ht).2.2.2.1]
    · rw [e, (r1 t ht).2.2.2.2.1, (r2 t ht).2.2.2.2.1]
    · rw [e, (r1 t ht).2.2.2.2.2, (r2 t ht).2.2.2.2.2]
  apply List.ext_getElem?
  intro i
  rcases Nat.lt_or_ge i (1 + n_constraints n) with hi | hi
  · rw [rd_eq_getElem? _ i (by rw [l1, hfg]; exact hi),
      rd_eq_getElem? _ i (by rw [l2, hfg2]; exact hi), key i hi]
  · rw [List.getElem?_eq_none (by rw [l1, hfg]; exact hi),
      List.getElem?_eq_none (by rw [l2, hfg2]; exact hi)]

/-- The recorded `FG_eval` assigns each of the rows `1 .. 6n` of `fg` exactly once. -/
theorem count_writes_of_FG_eval_traced (cos sin atan : α → α) (n : Nat)
    (coeffs fg vars : List α) (hn : 2 ≤ n) (i : Nat) (h1 : 1 ≤ i) (h2 : i ≤ 6 * n) :
    (writes_of Vec.fg (FG_eval_traced cos sin atan n coeffs fg vars).log).count i = 1 := by
  rw [writes_of_FG_eval_traced]
  unfold FG_eval_fg_accesses
  have hz : ∀ (l : List Nat) (z : List Nat), (∀ x ∈ z, x = 0) →
      (l.flatMap (fun _ => z)).count i = 0 := by
    intro l z hzz
    rw [List.count_eq_zero]
    intro hmem
    rw [List.mem_flatMap] at hmem
    obtain ⟨_, _, hx⟩ := hmem
    have := hzz i hx
    omega
  rw [List.count_cons_of_ne (by omega), List.count_append, List.count_append, List.count_append,
    hz _ [0, 0, 0] (by simp), hz (loop_indices 0 (n - 1)) [0, 0] (by simp),
    hz (loop_indices 0 (n - 2)) [0, 0] (by simp),
    List.count_eq_one_of_mem (nodup_FG_eval_constraint_writes n hn)
      ((mem_FG_eval_constraint_writes n hn i).mpr ⟨h1, h2⟩)]

end TracedRows

/-! ## Trajectories as decision vectors -/

section Trajectory

variable {α : Type} [Field α]

theorem rd_append_left (l1 l2 : List α) (i : Nat) (h : i < l1.length) :
    rd (l1 ++ l2) i = rd l1 i := by
  unfold rd
  simp only [List.getD_eq_getElem?_getD, List.getElem?_append_left h]

theorem rd_append_right (l1 l2 : List α) (i : Nat) (h : l1.length ≤ i) :
    rd (l1 ++ l2) i = rd l2 (i - l1.length) := by
  unfold rd
  simp only [List.getD_eq_getElem?_getD, List.getElem?_append_right h]

theorem rd_map_range (n : Nat) (f : Nat → α) (i : Nat) (h : i < n) :
    rd ((List.range n).map f) i = f i := by
  unfold rd
  simp only [List.getD_eq_getElem?_getD, List.getElem?_map, List.getElem?_range h,
    Option.map_some', Option.getD_some]

theorem length_map_range {β : Type} (n : Nat) (f : Nat → β) :
    ((List.range n).map f).length = n := by
  rw [List.length_map, List.length_range]

theorem length_trajectory_vector {β : Type} (n : Nat) (s : Nat → State β) (delta a : Nat → β) :
    (trajectory_vector n s delta a).length = n_vars n := by
  simp only [trajectory_vector, List.length_append, List.length_map, List.length_range, n_vars]
  omega

/-- The entries of `trajectory_vector`: the state entries of timestep `t`. -/
theorem state_at_trajectory_vector (n : Nat) (s : Nat → State α) (delta a : Nat → α) (t : Nat)
    (ht : t < n) : state_at n (trajectory_vector n s delta a) t = s t := by
  have hx := x_start_ind_eq
  have hy := y_start_ind_eq n
  have hpsi := psi_start_ind_eq n
  have hv := v_start_ind_eq n
  have hcte := cte_start_ind_eq n
  have hepsi := epsi_start_ind_eq n
  have e1 : x_start_ind + t = t := by omega
  have e2 : y_start_ind n + t - n = t := by omega
  have e3 : psi_start_ind n + t - (n + n) = t := by omega
  have e4 : v_start_ind n + t - (n + n + n) = t := by omega
  have e5 : cte_start_ind n + t - (n + n + n + n) = t := by omega
  have e6 : epsi_start_ind n + t - (n + n + n + n + n) = t := by omega
  ext
  · simp only [state_at, trajectory_vector]
    rw [rd_append_left _ _ _ (by simp only [List.length_append, length_map_range]; omega),
      rd_append_left _ _ _ (by simp only [List.length_append, length_map_range]; omega),
      rd_append_left _ _ _ (by simp only [List.length_append, length_map_range]; omega),
      rd_append_left _ _ _ (by simp only [List.length_append, length_map_range]; omega),
      rd_append_left _ _ _ (by simp only [List.length_append, length_map_range]; omega),
      rd_append_left _ _ _ (by simp only [List.length_append, length_map_range]; omega),
      rd_append_left _ _ _ (by simp only [List.length_append, length_map_range]; omega), e1, rd_map_range _ _ _ ht]
  · simp only [state_at, trajectory_vector]
    rw [rd_append_left _ _ _ (by simp only [List.length_append, length_map_range]; omega),
      rd_append_left _ _ _ (by simp only [List.length_append, length_map_range]; omega),
      rd_append_left _ _ _ (by simp only [List.length_append, length_map_range]; omega),
      rd_append_left _ _ _ (by simp only [List.length_append, length_map_range]; omega),
      rd_append_left _ _ _ (by simp only [List.length_append, length_map_range]; omega),
      rd_append_left _ _ _ (by simp only [List.length_append, length_map_range]; omega),
      rd_append_right _ _ _ (by simp only [length_map_range]; omega)]
    simp only [List.length_map, List.length_range]
    rw [e2, rd_map_range _ _ _ ht]
  · simp only [state_at, trajectory_vector]
    rw [rd_append_left _ _ _ (by simp only [List.length_append, length_map_range]; omega),
      rd_append_left _ _ _ (by simp only [List.length_append, length_map_range]; omega),
      rd_append_left _ _ _ (by simp only [List.length_append, length_map_range]; omega),
      rd_append_left _ _ _ (by simp only [List.length_append, length_map_range]; omega),
      rd_append_left _ _ _ (by simp only [List.length_append, length_map_range]; omega),
      rd_append_right _ _ _ (by simp only [List.length_append, length_map_range]; omega)]
    simp only [List.length_append, List.length_map, List.length_range]
    rw [e3, rd_map_range _ _ _ ht]
  · simp only [state_at, trajectory_vector]
    rw [rd_append_left _ _ _ (by simp only [List.length_append, length_map_range]; omega),
      rd_append_left _ _ _ (by simp only [List.length_append, length_map_range]; omega),
      rd_append_left _ _ _ (by simp only [List.length_append, length_map_range]; omega),
      rd_append_left _ _ _ (by simp only [List.length_append, length_map_range]; omega),
      rd_append_right _ _ _ (by simp only [List.length_append, length_map_range]; omega)]
    simp only [List.length_append, List.length_map, List.length_range]
    rw [e4, rd_map_range _ _ _ ht]
  · simp only [state_at, trajectory_vector]
    rw [rd_append_left _ _ _ (by simp only [List.length_append, length_map_range]; omega),
      rd_append_left _ _ _ (by simp only [List.length_append, length_map_range]; omega),
      rd_append_left _ _ _ (by simp only [List.length_append, length_map_range]; omega),
      rd_append_right _ _ _ (by simp only [List.length_append, length_map_range]; omega)]
    simp only [List.length_append, List.length_map, List.length_range]
    rw [e5, rd_map_range _ _ _ ht]
  · simp only [state_at, trajectory_vector]
    rw [rd_append_left _ _ _ (by simp only [List.length_append, length_map_range]; omega),
      rd_append_left _ _ _ (by simp only [List.length_append, length_map_range]; omega),
      rd_append_right _ _ _ (by simp only [List.length_append, length_map_range]; omega)]
    simp only [List.length_append, List.length_map, List.length_range]
    rw [e6, rd_map_range _ _ _ ht]

/-- The entries of `trajectory_vector`: the actuations of step `t`. -/
theorem actuation_trajectory_vector (n : Nat) (s : Nat → State α) (delta a : Nat → α) (t : Nat)
    (ht : t < n - 1) :
    rd (trajectory_vector n s delta a) (delta_start_ind n + t) = delta t ∧
    rd (trajectory_vector n s delta a) (a_start_ind n + t) = a t := by
  have hd := delta_start_ind_eq n
  have ha := a_start_ind_eq n
  have e7 : delta_start_ind n + t - (n + n + n + n + n + n) = t := by omega
  have e8 : a_start_ind n + t - (n + n + n + n + n + n + (n - 1)) = t := by omega
  constructor
  · simp only [trajectory_vector]
    rw [rd_append_left _ _ _ (by simp only [List.length_append, length_map_range]; omega),
      rd_append_right _ _ _ (by simp only [List.length_append, length_map_range]; omega)]
    simp only [List.length_append, List.length_map, List.length_range]
    rw [e7, rd_map_range _ _ _ ht]
  · simp only [trajectory_vector]
    rw [rd_append_right _ _ _ (by simp only [List.length_append, length_map_range]; omega)]
    simp only [List.length_append, List.length_map, List.length_range]
    rw [e8, rd_map_range _ _ _ ht]

end Trajectory

section TrajectoryCost

variable {α : Type} [Field α]

/-- The cost of a trajectory written as a decision vector. -/
theorem cost_trajectory_vector (cos sin atan : α → α) (n : Nat) (coeffs fg : List α)
    (s : Nat → State α) (delta a : Nat → α) (hn : 2 ≤ n)
    (hfg : fg.length = 1 + n_constraints n) :
    rd (FG_eval cos sin atan n coeffs fg (trajectory_vector n s delta a)) 0 =
      (∑ t ∈ Finset.range n, ((s t).cte ^ 2 + ((s t).epsi ^ 2 + ((s t).v - 75) ^ 2))) +
      (∑ t ∈ Finset.range (n - 1), (delta t ^ 2 + a t ^ 2)) +
      (∑ t ∈ Finset.range (n - 2),
        (700 * (delta (t + 1) - delta t) ^ 2 + (a (t + 1) - a t) ^ 2)) := by
  rw [(FG_eval_spec cos sin atan n coeffs fg _ (by omega) hfg).2.1, zero_add]
  simp only [ref_cte, ref_epsi, ref_v, sub_zero]
  congr 1
  · congr 1
    · refine Finset.sum_congr rfl (fun t ht => ?_)
      have h := state_at_trajectory_vector n s delta a t (Finset.mem_range.mp ht)
      have h5 : rd (trajectory_vector n s delta a) (cte_start_ind n + t) = (s t).cte :=
        congrArg State.cte h
      have h6 : rd (trajectory_vector n s delta a) (epsi_start_ind n + t) = (s t).epsi :=
        congrArg State.epsi h
      have h4 : rd (trajectory_vector n s delta a) (v_start_ind n + t) = (s t).v :=
        congrArg State.v h
      rw [h5, h6, h4]
    · refine Finset.sum_congr rfl (fun t ht => ?_)
      have h := actuation_trajectory_vector n s delta a t (Finset.mem_range.mp ht)
      rw [h.1, h.2]
  · refine Finset.sum_congr rfl (fun t ht => ?_)
    have ht2 := Finset.mem_range.mp ht
    have h := actuation_trajectory_vector n s delta a t (by omega)
    have h1 := actuation_trajectory_vector n s delta a (t + 1) (by omega)
    rw [Nat.add_assoc, Nat.add_assoc, h.1, h.2, h1.1, h1.2]

/-- Forward simulation with zero coefficients and zero actuation keeps the heading and the
speed: the closed form of the trajectory. -/
theorem simulate_constant_heading (cos sin atan : α → α) (hatan : atan 0 = 0)
    (init : State α) (delta a : Nat → α) (t : Nat)
    (hz : ∀ k, k < t → delta k = 0 ∧ a k = 0) :
    simulate cos sin atan [0, 0, 0, 0] init delta a t =
      ⟨init.x + init.v * cos init.psi * dt α * t,
       init.y + init.v * sin init.psi * dt α * t,
       init.psi, init.v,
       if t = 0 then init.cte
       else -(init.y + init.v * sin init.psi * dt α * (t - 1 : Nat)) +
         init.v * sin (if t - 1 = 0 then init.epsi else init.psi) * dt α,
       if t = 0 then init.epsi else init.psi⟩ := by
  induction t with
  | zero =>
    simp only [simulate, Nat.cast_zero, mul_zero, add_zero, if_true]
  | succ k ih =>
    have hk := hz k (Nat.lt_succ_self k)
    have hc : ∀ i, rd ([0, 0, 0, 0] : List α) i = 0 := by
      intro i
      unfold rd
      rcases i with _ | _ | _ | _ | _ | i <;> simp
    simp only [simulate, ih (fun j hj => hz j (by omega)), predict, f_path, psi_des, hk.1, hk.2,
      hc, hatan, Nat.add_one_sub_one, Nat.succ_ne_zero, if_false, Nat.cast_succ]
    ext
    · simp only []; ring
    · simp only []; ring
    · simp only []; ring
    · simp only []; ring
    · simp only []
      rcases k with _ | k
      · simp
      · simp
    · simp only [mul_zero, zero_mul, add_zero, hatan, sub_zero, zero_div]

end TrajectoryCost

section TrajectoryFeasible

variable {α : Type} [LinearOrderedField α]

/-- A forward simulation from the given state, written as a decision vector, meets the
constraint bounds that `Solve` builds for that state. -/
theorem simulated_trajectory_feasible (cos sin atan : α → α) (n : Nat)
    (state coeffs fg : List α) (delta a : Nat → α) (hn : 2 ≤ n)
    (hfg : fg.length = 1 + n_constraints n) :
    within_bounds (Solve_constraints_bounds n state).1 (Solve_constraints_bounds n state).2
      (constraint_values (FG_eval cos sin atan n coeffs fg
        (trajectory_vector n (simulate cos sin atan coeffs (state_of state) delta a)
          delta a))) := by
  refine feasible_of_pins_and_dynamics cos sin atan n state coeffs fg _ hn hfg ?_ ?_
  · rw [state_at_trajectory_vector n _ delta a 0 (by omega)]
    rfl
  · intro t ht
    rw [state_at_trajectory_vector n _ delta a (t + 1) (by omega),
      state_at_trajectory_vector n _ delta a t (by omega),
      (actuation_trajectory_vector n _ delta a t ht).1,
      (actuation_trajectory_vector n _ delta a t ht).2]
    rfl

/-- A trajectory written as a decision vector lies within the variable bounds of `Solve` when
its states lie within `±1.0e17`, its latency-locked actuations are the previous actuation and
its other actuations lie within the steering and acceleration limits. -/
theorem trajectory_within_vars_bounds (n lat : Nat) (delta_prev a_prev : α)
    (s : Nat → State α) (delta a : Nat → α) (hn : 2 ≤ n)
    (hs : ∀ t, t < n → (-1.0e17 ≤ (s t).x ∧ (s t).x ≤ 1.0e17) ∧
      (-1.0e17 ≤ (s t).y ∧ (s t).y ≤ 1.0e17) ∧ (-1.0e17 ≤ (s t).psi ∧ (s t).psi ≤ 1.0e17) ∧
      (-1.0e17 ≤ (s t).v ∧ (s t).v ≤ 1.0e17) ∧ (-1.0e17 ≤ (s t).cte ∧ (s t).cte ≤ 1.0e17) ∧
      (-1.0e17 ≤ (s t).epsi ∧ (s t).epsi ≤ 1.0e17))
    (hlock : ∀ t, t < n - 1 → t < lat → delta t = delta_prev ∧ a t = a_prev)
    (hfree : ∀ t, t < n - 1 → lat ≤ t → (-0.436332 ≤ delta t ∧ delta t ≤ 0.436332) ∧
      (-1 ≤ a t ∧ a t ≤ 1)) :
    within_bounds (Solve_vars_bounds n lat delta_prev a_prev).1
      (Solve_vars_bounds n lat delta_prev a_prev).2 (trajectory_vector n s delta a) := by
  have hx := x_start_ind_eq
  have hy := y_start_ind_eq n
  have hpsi := psi_start_ind_eq n
  have hv := v_start_ind_eq n
  have hcte := cte_start_ind_eq n
  have hepsi := epsi_start_ind_eq n
  have hd := delta_start_ind_eq n
  have ha := a_start_ind_eq n
  have hnv := n_vars_eq n
  have one : (1.0 : α) = 1 := by norm_num
  refine ⟨by rw [length_trajectory_vector, length_vars_lowerbound], fun i hi => ?_⟩
  rw [length_vars_lowerbound] at hi
  have key : ∀ (start t : Nat) (val : α), i = start + t →
      rd (trajectory_vector n s delta a) (start + t) = val → start + t < delta_start_ind n →
      -1.0e17 ≤ val ∧ val ≤ 1.0e17 →
      rd (Solve_vars_bounds n lat delta_prev a_prev).1 i ≤ rd (trajectory_vector n s delta a) i ∧
      rd (trajectory_vector n s delta a) i ≤ rd (Solve_vars_bounds n lat delta_prev a_prev).2 i := by
    intro start t val hi2 hval hlt hb
    have hbs := rd_bounds_state n lat delta_prev a_prev i hn (by omega)
    rw [hbs.1, hbs.2, hi2, hval]
    exact hb
  rcases Nat.lt_or_ge i n with a1 | a1
  · exact key x_start_ind i _ (by omega)
      (congrArg State.x (state_at_trajectory_vector n s delta a i (by omega))) (by omega)
      (hs i (by omega)).1
  rcases Nat.lt_or_ge i (2 * n) with a2 | a2
  · exact key (y_start_ind n) (i - n) _ (by omega)
      (congrArg State.y (state_at_trajectory_vector n s delta a (i - n) (by omega))) (by omega)
      (hs (i - n) (by omega)).2.1
  rcases Nat.lt_or_ge i (3 * n) with a3 | a3
  · exact key (psi_start_ind n) (i - 2 * n) _ (by omega)
      (congrArg State.psi (state_at_trajectory_vector n s delta a (i - 2 * n) (by omega)))
      (by omega) (hs (i - 2 * n) (by omega)).2.2.1
  rcases Nat.lt_or_ge i (4 * n) with a4 | a4
  · exact key (v_start_ind n) (i - 3 * n) _ (by omega)
      (congrArg State.v (state_at_trajectory_vector n s delta a (i - 3 * n) (by omega)))
      (by omega) (hs (i - 3 * n) (by omega)).2.2.2.1
  rcases Nat.lt_or_ge i (5 * n) with a5 | a5
  · exact key (cte_start_ind n) (i - 4 * n) _ (by omega)
      (congrArg State.cte (state_at_trajectory_vector n s delta a (i - 4 * n) (by omega)))
      (by omega) (hs (i - 4 * n) (by omega)).2.2.2.2.1
  rcases Nat.lt_or_ge i (6 * n) with a6 | a6
  · exact key (epsi_start_ind n) (i - 5 * n) _ (by omega)
      (congrArg State.epsi (state_at_trajectory_vector n s delta a (i - 5 * n) (by omega)))
      (by omega) (hs (i - 5 * n) (by omega)).2.2.2.2.2
  rcases Nat.lt_or_ge i (7 * n - 1) with a7 | a7
  · have hi2 : i = delta_start_ind n + (i - 6 * n) := by omega
    have hval := (actuation_trajectory_vector n s delta a (i - 6 * n) (by omega)).1
    rw [hi2, hval]
    rcases Nat.lt_or_ge (i - 6 * n) lat with hl | hl
    · have hb := rd_bounds_delta_locked n lat delta_prev a_prev (i - 6 * n) hn hl (by omega)
      rw [hb.1, hb.2, (hlock (i - 6 * n) (by omega) hl).1]
      exact ⟨le_refl _, le_refl _⟩
    · have hb := rd_bounds_delta_free n lat delta_prev a_prev (i - 6 * n) hn hl (by omega)
      rw [hb.1, hb.2]
      exact (hfree (i - 6 * n) (by omega) hl).1
  · have hi2 : i = a_start_ind n + (i - (7 * n - 1)) := by omega
    have hval := (actuation_trajectory_vector n s delta a (i - (7 * n - 1)) (by omega)).2
    rw [hi2, hval]
    rcases Nat.lt_or_ge (i - (7 * n - 1)) lat with hl | hl
    · have hb := rd_bounds_a_locked n lat delta_prev a_prev (i - (7 * n - 1)) hn hl (by omega)
      rw [hb.1, hb.2, (hlock (i - (7 * n - 1)) (by omega) hl).2]
      exact ⟨le_refl _, le_refl _⟩
    · have hb := rd_bounds_a_free n lat delta_prev a_prev (i - (7 * n - 1)) hn hl (by omega)
      rw [hb.1, hb.2, one]
      exact (hfree (i - (7 * n - 1)) (by omega) hl).2

end TrajectoryFeasible

section SteadyState

variable {α : Type} [LinearOrderedField α]

/-- The cost computed by `FG_eval` is non-negative. -/
theorem FG_eval_cost_nonneg (cos sin atan : α → α) (n : Nat) (coeffs fg vars : List α)
    (hn : 2 ≤ n) (hfg : fg.length = 1 + n_constraints n) :
    0 ≤ rd (FG_eval cos sin atan n coeffs fg vars) 0 := by
  rw [(FG_eval_spec cos sin atan n coeffs fg vars (by omega) hfg).2.1, zero_add]
  have s1 : 0 ≤ ∑ t ∈ Finset.range n, ((rd vars (cte_start_ind n + t) - ref_cte α) ^ 2 +
      ((rd vars (epsi_start_ind n + t) - ref_epsi α) ^ 2 +
        (rd vars (v_start_ind n + t) - ref_v α) ^ 2)) :=
    Finset.sum_nonneg (fun t _ => by positivity)
  have s2 : 0 ≤ ∑ t ∈ Finset.range (n - 1), (rd vars (delta_start_ind n + t) ^ 2 +
      rd vars (a_start_ind n + t) ^ 2) := Finset.sum_nonneg (fun t _ => by positivity)
  have s3 : 0 ≤ ∑ t ∈ Finset.range (n - 2),
      (700 * (rd vars (delta_start_ind n + t + 1) - rd vars (delta_start_ind n + t)) ^ 2 +
        (rd vars (a_start_ind n + t + 1) - rd vars (a_start_ind n + t)) ^ 2) :=
    Finset.sum_nonneg (fun t _ => by positivity)
  linarith

/-- The steady-state trajectory from a state on the straight reference line (`y = 0`,
`psi = 0`, `cte = 0`, `epsi = 0`) at the reference speed: the vehicle advances by
`75 * 0.05` in `x` per step and nothing else changes. -/
theorem simulate_on_reference_line (cos sin atan : α → α) (hsin : sin 0 = 0)
    (hcos : cos 0 = 1) (hatan : atan 0 = 0) (x0 : α) (t : Nat) :
    simulate cos sin atan [0, 0, 0, 0] (state_of [x0, 0, 0, 75, 0, 0]) (fun _ => 0)
      (fun _ => 0) t = ⟨x0 + 75 * 0.05 * t, 0, 0, 75, 0, 0⟩ := by
  rw [simulate_constant_heading cos sin atan hatan _ _ _ t (fun _ _ => ⟨rfl, rfl⟩)]
  have h : state_of [x0, 0, 0, 75, 0, 0] = ⟨x0, 0, 0, 75, 0, 0⟩ := by
    simp [state_of, rd]
  rw [h]
  simp only [hsin, hcos, dt, mul_zero, zero_mul, add_zero, neg_zero, ite_self, mul_one]

end SteadyState

/-! ## Trajectories that are steered once -/

section Steer

variable {α : Type} [Field α]

theorem simulate_add (cos sin atan : α → α) (coeffs : List α) (init : State α)
    (delta a : Nat → α) (m j : Nat) :
    simulate cos sin atan coeffs init delta a (m + j) =
      simulate cos sin atan coeffs (simulate cos sin atan coeffs init delta a m)
        (fun i => delta (m + i)) (fun i => a (m + i)) j := by
  induction j with
  | zero => rfl
  | succ j ih =>
    show predict cos sin atan coeffs (simulate cos sin atan coeffs init delta a (m + j))
      (delta (m + j)) (a (m + j)) = _
    rw [ih]
    rfl

/-- A trajectory that is steered once, at step `k`: up to step `k` it is the unsteered
trajectory from the initial state, and from step `k + 1` on it is the unsteered trajectory
from the state that the steering produces. -/
theorem simulate_steer_once (cos sin atan : α → α) (hatan : atan 0 = 0) (init : State α)
    (k : Nat) (d : α) :
    (∀ t, t ≤ k → simulate cos sin atan [0, 0, 0, 0] init (steer_once k d) (fun _ => 0) t =
      simulate cos sin atan [0, 0, 0, 0] init (fun _ => 0) (fun _ => 0) t) ∧
    (∀ j, simulate cos sin atan [0, 0, 0, 0] init (steer_once k d) (fun _ => 0) (k + 1 + j) =
      simulate cos sin atan [0, 0, 0, 0]
        (predict cos sin atan [0, 0, 0, 0]
          (simulate cos sin atan [0, 0, 0, 0] init (fun _ => 0) (fun _ => 0) k) d 0)
        (fun _ => 0) (fun _ => 0) j) := by
  have h1 : ∀ t, t ≤ k → simulate cos sin atan [0, 0, 0, 0] init (steer_once k d) (fun _ => 0) t =
      simulate cos sin atan [0, 0, 0, 0] init (fun _ => 0) (fun _ => 0) t := by
    intro t ht
    rw [simulate_constant_heading cos sin atan hatan init _ _ t (fun i hi => ⟨by
        simp only [steer_once]
        rw [if_neg (by omega)], rfl⟩),
      simulate_constant_heading cos sin atan hatan init _ _ t (fun _ _ => ⟨rfl, rfl⟩)]
  refine ⟨h1, fun j => ?_⟩
  rw [simulate_add]
  have h2 : simulate cos sin atan [0, 0, 0, 0] init (steer_once k d) (fun _ => 0) (k + 1) =
      predict cos sin atan [0, 0, 0, 0]
        (simulate cos sin atan [0, 0, 0, 0] init (fun _ => 0) (fun _ => 0) k) d 0 := by
    show predict cos sin atan [0, 0, 0, 0]
      (simulate cos sin atan [0, 0, 0, 0] init (steer_once k d) (fun _ => 0) k)
      (steer_once k d k) 0 = _
    rw [h1 k (le_refl k)]
    simp only [steer_once, if_true]
  rw [h2]
  rw [simulate_constant_heading cos sin atan hatan _ _ _ j (fun i _ => ⟨by
      simp only [steer_once]
      rw [if_neg (by omega)], rfl⟩),
    simulate_constant_heading cos sin atan hatan _ _ _ j (fun _ _ => ⟨rfl, rfl⟩)]

end Steer

/-! ## Two steered trajectories that beat the steady state -/

section Steered

theorem offset_steady (t : Nat) :
    simulate Real.cos Real.sin Real.arctan [0, 0, 0, 0] (state_of [0, 100, 0, 75, 0, 0])
      (fun _ => 0) (fun _ => 0) t =
      ⟨75 * 0.05 * t, 100, 0, 75, if t = 0 then 0 else -100, 0⟩ := by
  rw [simulate_constant_heading Real.cos Real.sin Real.arctan Real.arctan_zero _ _ _ t
    (fun _ _ => ⟨rfl, rfl⟩)]
  have h : state_of [(0 : ℝ), 100, 0, 75, 0, 0] = ⟨0, 100, 0, 75, 0, 0⟩ := by
    simp [state_of, rd]
  rw [h]
  simp only [Real.sin_zero, Real.cos_zero, dt, mul_zero, zero_mul, add_zero, zero_add, ite_self,
    mul_one]

theorem offset_steered_10 :
    simulate Real.cos Real.sin Real.arctan [0, 0, 0, 0] (state_of [0, 100, 0, 75, 0, 0])
      (steer_once 9 0.267) (fun _ => 0) 10 = ⟨37.5, 100, 0.375, 75, -100, 0.375⟩ := by
  rw [(simulate_steer_once Real.cos Real.sin Real.arctan Real.arctan_zero _ 9 0.267).2 0,
    offset_steady]
  simp [simulate, predict, f_path, psi_des, rd, dt, Lf]
  norm_num

theorem offset_steered_11 :
    simulate Real.cos Real.sin Real.arctan [0, 0, 0, 0] (state_of [0, 100, 0, 75, 0, 0])
      (steer_once 9 0.267) (fun _ => 0) 11 =
      ⟨37.5 + 3.75 * Real.cos 0.375, 100 + 3.75 * Real.sin 0.375, 0.375, 75,
        -100 + 3.75 * Real.sin 0.375, 0.375⟩ := by
  rw [(simulate_steer_once Real.cos Real.sin Real.arctan Real.arctan_zero _ 9 0.267).2 1,
    offset_steady]
  simp [simulate, predict, f_path, psi_des, rd, dt, Lf]
  norm_num
  exact ⟨by ring, by ring⟩

theorem offset_steered_early (t : Nat) (ht : t ≤ 9) :
    simulate Real.cos Real.sin Real.arctan [0, 0, 0, 0] (state_of [0, 100, 0, 75, 0, 0])
      (steer_once 9 0.267) (fun _ => 0) t =
      ⟨75 * 0.05 * t, 100, 0, 75, if t = 0 then 0 else -100, 0⟩ := by
  rw [(simulate_steer_once Real.cos Real.sin Real.arctan Real.arctan_zero _ 9 0.267).1 t ht,
    offset_steady]

theorem offset_steady_cost (fg : List ℝ) (hfg : fg.length = 1 + n_constraints N) :
    rd (FG_eval Real.cos Real.sin Real.arctan N [0, 0, 0, 0] fg
      (steady_state_vector Real.cos Real.sin Real.arctan N [0, 0, 0, 0]
        [0, 100, 0, 75, 0, 0])) 0 = 110000 := by
  unfold steady_state_vector
  rw [cost_trajectory_vector Real.cos Real.sin Real.arctan N _ fg _ _ _ (by decide) hfg]
  simp only [offset_steady, N]
  norm_num [Finset.sum_range_succ]

theorem offset_steered_cost (fg : List ℝ) (hfg : fg.length = 1 + n_constraints N) :
    rd (FG_eval Real.cos Real.sin Real.arctan N [0, 0, 0, 0] fg
      (trajectory_vector N
        (simulate Real.cos Real.sin Real.arctan [0, 0, 0, 0] (state_of [0, 100, 0, 75, 0, 0])
          (steer_once 9 0.267) (fun _ => 0))
        (steer_once 9 0.267) (fun _ => 0))) 0 =
      100000 + (-100 + 3.75 * Real.sin (3 / 8)) ^ 2 + 2 * (3 / 8) ^ 2 + 1401 * 0.267 ^ 2 := by
  rw [cost_trajectory_vector Real.cos Real.sin Real.arctan N _ fg _ _ _ (by decide) hfg]
  simp only [N, Nat.reduceSub, Finset.sum_range_succ, Finset.sum_range_zero]
  rw [offset_steered_11, offset_steered_10]
  simp only [offset_steered_early _ (by norm_num : (0:ℕ) ≤ 9),
    offset_steered_early _ (by norm_num : (1:ℕ) ≤ 9),
    offset_steered_early _ (by norm_num : (2:ℕ) ≤ 9),
    offset_steered_early _ (by norm_num : (3:ℕ) ≤ 9),
    offset_steered_early _ (by norm_num : (4:ℕ) ≤ 9),
    offset_steered_early _ (by norm_num : (5:ℕ) ≤ 9),
    offset_steered_early _ (by norm_num : (6:ℕ) ≤ 9),
    offset_steered_early _ (by norm_num : (7:ℕ) ≤ 9),
    offset_steered_early _ (by norm_num : (8:ℕ) ≤ 9),
    offset_steered_early _ (by norm_num : (9:ℕ) ≤ 9), steer_once]
  norm_num
  ring


theorem sin_three_eighths_bounds : (0.36 : ℝ) < Real.sin (3 / 8) ∧ Real.sin (3 / 8) ≤ 1 := by
  refine ⟨?_, Real.sin_le_one _⟩
  have h := Real.sin_gt_sub_cube (by norm_num : (0 : ℝ) < 3 / 8) (by norm_num)
  have e : (3 / 8 : ℝ) - (3 / 8) ^ 3 / 4 > 0.36 := by norm_num
  linarith

theorem offset_steered_within_vars_bounds :
    within_bounds (Solve_vars_bounds N latency_ind (0 : ℝ) 0).1
      (Solve_vars_bounds N latency_ind (0 : ℝ) 0).2
      (trajectory_vector N
        (simulate Real.cos Real.sin Real.arctan [0, 0, 0, 0] (state_of [0, 100, 0, 75, 0, 0])
          (steer_once 9 0.267) (fun _ => 0))
        (steer_once 9 0.267) (fun _ => 0)) := by
  have hs := sin_three_eighths_bounds
  have hc1 := Real.cos_le_one (3 / 8)
  have hc2 := Real.neg_one_le_cos (3 / 8)
  refine trajectory_within_vars_bounds N latency_ind 0 0 _ _ _ (by decide) ?_ ?_ ?_
  · intro t ht
    have ht2 : t ≤ 9 ∨ t = 10 ∨ t = 11 := by
      simp only [N] at ht
      omega
    rcases ht2 with h | h | h
    · rw [offset_steered_early t h]
      have h1 : (0 : ℝ) ≤ (t : ℝ) := Nat.cast_nonneg t
      have h2 : (t : ℝ) ≤ 9 := by exact_mod_cast h
      refine ⟨⟨by norm_num; linarith, by norm_num; linarith⟩, ⟨by norm_num, by norm_num⟩,
        ⟨by norm_num, by norm_num⟩, ⟨by norm_num, by norm_num⟩, ?_, ⟨by norm_num, by norm_num⟩⟩
      split_ifs <;> norm_num
    · rw [h, offset_steered_10]
      norm_num
    · rw [h, offset_steered_11]
      norm_num
      refine ⟨⟨by linarith, by linarith⟩, ⟨by linarith, by linarith⟩, by linarith, by linarith⟩
  · intro t _ ht
    simp only [latency_ind] at ht
    have h9 : t ≠ 9 := by omega
    simp [steer_once, h9]
  · intro t _ _
    simp only [steer_once]
    split_ifs <;> norm_num


theorem heading_steady (t : Nat) :
    simulate Real.cos Real.sin Real.arctan [0, 0, 0, 0] (state_of [0, 0, 0.375, 75, 0, 0])
      (fun _ => 0) (fun _ => 0) t =
      ⟨3.75 * Real.cos (3 / 8) * t, 3.75 * Real.sin (3 / 8) * t, 3 / 8, 75,
        if t = 0 then 0 else if t = 1 then 0
          else -(3.75 * Real.sin (3 / 8) * (t - 1 : Nat)) + 3.75 * Real.sin (3 / 8),
        if t = 0 then 0 else 3 / 8⟩ := by
  rw [simulate_constant_heading Real.cos Real.sin Real.arctan Real.arctan_zero _ _ _ t
    (fun _ _ => ⟨rfl, rfl⟩)]
  have h : state_of [(0 : ℝ), 0, 0.375, 75, 0, 0] = ⟨0, 0, 3 / 8, 75, 0, 0⟩ := by
    simp [state_of, rd]
    norm_num
  rw [h]
  simp only [dt, zero_add]
  ext
  · simp only []; ring
  · simp only []; ring
  · rfl
  · rfl
  · simp only []
    rcases t with _ | _ | t
    · simp
    · simp
    · simp
      ring
  · rfl

theorem heading_steered_early (t : Nat) (ht : t ≤ 2) :
    simulate Real.cos Real.sin Real.arctan [0, 0, 0, 0] (state_of [0, 0, 0.375, 75, 0, 0])
      (steer_once 2 (-0.267)) (fun _ => 0) t =
      ⟨3.75 * Real.cos (3 / 8) * t, 3.75 * Real.sin (3 / 8) * t, 3 / 8, 75,
        if t = 0 then 0 else if t = 1 then 0
          else -(3.75 * Real.sin (3 / 8) * (t - 1 : Nat)) + 3.75 * Real.sin (3 / 8),
        if t = 0 then 0 else 3 / 8⟩ := by
  rw [(simulate_steer_once Real.cos Real.sin Real.arctan Real.arctan_zero _ 2 (-0.267)).1 t ht,
    heading_steady]

theorem heading_steered_late (j : Nat) :
    simulate Real.cos Real.sin Real.arctan [0, 0, 0, 0] (state_of [0, 0, 0.375, 75, 0, 0])
      (steer_once 2 (-0.267)) (fun _ => 0) (2 + 1 + j) =
      ⟨11.25 * Real.cos (3 / 8) + 3.75 * j, 11.25 * Real.sin (3 / 8), 0, 75,
        if j = 0 then -(3.75 * Real.sin (3 / 8)) else -(11.25 * Real.sin (3 / 8)), 0⟩ := by
  rw [(simulate_steer_once Real.cos Real.sin Real.arctan Real.arctan_zero _ 2 (-0.267)).2 j,
    heading_steady]
  have hp : predict Real.cos Real.sin Real.arctan [0, 0, 0, 0]
      (⟨3.75 * Real.cos (3 / 8) * (2 : Nat), 3.75 * Real.sin (3 / 8) * (2 : Nat), 3 / 8, 75,
        if 2 = 0 then 0 else if 2 = 1 then 0
          else -(3.75 * Real.sin (3 / 8) * (2 - 1 : Nat)) + 3.75 * Real.sin (3 / 8),
        if 2 = 0 then 0 else 3 / 8⟩ : State ℝ) (-0.267) 0 =
      ⟨11.25 * Real.cos (3 / 8), 11.25 * Real.sin (3 / 8), 0, 75,
        -(3.75 * Real.sin (3 / 8)), 0⟩ := by
    simp [predict, f_path, psi_des, rd, dt, Lf]
    norm_num
    refine ⟨by ring, by ring, by ring⟩
  rw [hp, simulate_constant_heading Real.cos Real.sin Real.arctan Real.arctan_zero _ _ _ j
    (fun _ _ => ⟨rfl, rfl⟩)]
  simp only [Real.sin_zero, Real.cos_zero, dt, mul_zero, zero_mul, add_zero, ite_self, mul_one]
  ext
  · simp only []; ring
  · rfl
  · rfl
  · rfl
  · rfl
  · rfl


theorem heading_steady_cost (fg : List ℝ) (hfg : fg.length = 1 + n_constraints N) :
    rd (FG_eval Real.cos Real.sin Real.arctan N [0, 0, 0, 0] fg
      (steady_state_vector Real.cos Real.sin Real.arctan N [0, 0, 0, 0]
        [0, 0, 0.375, 75, 0, 0])) 0 =
      4007.8125 * Real.sin (3 / 8) ^ 2 + 11 * (3 / 8) ^ 2 := by
  unfold steady_state_vector
  rw [cost_trajectory_vector Real.cos Real.sin Real.arctan N _ fg _ _ _ (by decide) hfg]
  simp only [heading_steady, N]
  norm_num [Finset.sum_range_succ]
  ring

theorem heading_steered_cost (fg : List ℝ) (hfg : fg.length = 1 + n_constraints N) :
    rd (FG_eval Real.cos Real.sin Real.arctan N [0, 0, 0, 0] fg
      (trajectory_vector N
        (simulate Real.cos Real.sin Real.arctan [0, 0, 0, 0] (state_of [0, 0, 0.375, 75, 0, 0])
          (steer_once 2 (-0.267)) (fun _ => 0))
        (steer_once 2 (-0.267)) (fun _ => 0))) 0 =
      1026.5625 * Real.sin (3 / 8) ^ 2 + 2 * (3 / 8) ^ 2 + 1401 * 0.267 ^ 2 := by
  rw [cost_trajectory_vector Real.cos Real.sin Real.arctan N _ fg _ _ _ (by decide) hfg]
  simp only [N, Nat.reduceSub, Finset.sum_range_succ, Finset.sum_range_zero]
  rw [heading_steered_early 0 (by norm_num), heading_steered_early 1 (by norm_num),
    heading_steered_early 2 (by norm_num),
    (heading_steered_late 0 : simulate _ _ _ _ _ _ _ 3 = _),
    (heading_steered_late 1 : simulate _ _ _ _ _ _ _ 4 = _),
    (heading_steered_late 2 : simulate _ _ _ _ _ _ _ 5 = _),
    (heading_steered_late 3 : simulate _ _ _ _ _ _ _ 6 = _),
    (heading_steered_late 4 : simulate _ _ _ _ _ _ _ 7 = _),
    (heading_steered_late 5 : simulate _ _ _ _ _ _ _ 8 = _),
    (heading_steered_late 6 : simulate _ _ _ _ _ _ _ 9 = _),
    (heading_steered_late 7 : simulate _ _ _ _ _ _ _ 10 = _),
    (heading_steered_late 8 : simulate _ _ _ _ _ _ _ 11 = _)]
  simp only [steer_once]
  norm_num
  ring

theorem heading_steered_within_vars_bounds :
    within_bounds (Solve_vars_bounds N latency_ind (0 : ℝ) 0).1
      (Solve_vars_bounds N latency_ind (0 : ℝ) 0).2
      (trajectory_vector N
        (simulate Real.cos Real.sin Real.arctan [0, 0, 0, 0] (state_of [0, 0, 0.375, 75, 0, 0])
          (steer_once 2 (-0.267)) (fun _ => 0))
        (steer_once 2 (-0.267)) (fun _ => 0)) := by
  have hs1 := Real.sin_le_one (3 / 8)
  have hs2 := Real.neg_one_le_sin (3 / 8)
  have hc1 := Real.cos_le_one (3 / 8)
  have hc2 := Real.neg_one_le_cos (3 / 8)
  refine trajectory_within_vars_bounds N latency_ind 0 0 _ _ _ (by decide) ?_ ?_ ?_
  · intro t ht
    simp only [N] at ht
    rcases Nat.lt_or_ge t 3 with h | h
    · rw [heading_steered_early t (by omega)]
      interval_cases t
      · norm_num
      · norm_num
        refine ⟨⟨by linarith, by linarith⟩, by linarith, by linarith⟩
      · norm_num
        refine ⟨⟨by linarith, by linarith⟩, by linarith, by linarith⟩
    · obtain ⟨j, rfl⟩ : ∃ j, t = 2 + 1 + j := ⟨t - 3, by omega⟩
      rw [heading_steered_late j]
      have h1 : (0 : ℝ) ≤ (j : ℝ) := Nat.cast_nonneg j
      have h2 : (j : ℝ) ≤ 8 := by
        have : j ≤ 8 := by omega
        exact_mod_cast this
      refine ⟨⟨by norm_num; linarith, by norm_num; linarith⟩,
        ⟨by norm_num; linarith, by norm_num; linarith⟩,
        ⟨by norm_num, by norm_num⟩, ⟨by norm_num, by norm_num⟩, ?_, ⟨by norm_num, by norm_num⟩⟩
      split_ifs
      · exact ⟨by norm_num; linarith, by norm_num; linarith⟩
      · exact ⟨by norm_num; linarith, by norm_num; linarith⟩
  · intro t _ ht
    simp only [latency_ind] at ht
    have h9 : t ≠ 2 := by omega
    simp [steer_once, h9]
  · intro t _ _
    simp only [steer_once]
    split_ifs <;> norm_num

end Steered

/-! ## The claims C11 to C18 -/

/-- C11: for every solver result vector (of the length `n_vars` of the problem), the
`Solution` that `Solve` returns has `X`, `Y`, `Delta` and `A` sequences of length exactly
`n - 1`, and for every `t` in `0 .. n-2` the entries `X[t]`, `Y[t]`, `Delta[t]`, `A[t]` are the
entries of the solver's vector at `x_start + t`, `y_start + t`, `delta_start + t` and
`a_start + t`. -/
theorem Solve_extracts_solver_vector {α : Type} [Field α] (cos sin atan : α → α)
    (solve : ipopt_solver α) (n lat : Nat) (delta_prev a_prev : α) (state coeffs : List α)
    (hn : 2 ≤ n)
    (hx : (solve (Solve_vars n state) (Solve_vars_bounds n lat delta_prev a_prev).1
      (Solve_vars_bounds n lat delta_prev a_prev).2 (Solve_constraints_bounds n state).1
      (Solve_constraints_bounds n state).2 (FG_eval cos sin atan n coeffs)).x.length =
        n_vars n) :
    ((Solve cos sin atan solve n lat delta_prev a_prev state coeffs).X.length = n - 1 ∧
      (Solve cos sin atan solve n lat delta_prev a_prev state coeffs).Y.length = n - 1 ∧
      (Solve cos sin atan solve n lat delta_prev a_prev state coeffs).Delta.length = n - 1 ∧
      (Solve cos sin atan solve n lat delta_prev a_prev state coeffs).A.length = n - 1) ∧
    ∀ t, t < n - 1 →
      (Solve cos sin atan solve n lat delta_prev a_prev state coeffs).X[t]? =
        (solve (Solve_vars n state) (Solve_vars_bounds n lat delta_prev a_prev).1
          (Solve_vars_bounds n lat delta_prev a_prev).2 (Solve_constraints_bounds n state).1
          (Solve_constraints_bounds n state).2 (FG_eval cos sin atan n coeffs)).x[
            x_start_ind + t]? ∧
      (Solve cos sin atan solve n lat delta_prev a_prev state coeffs).Y[t]? =
        (solve (Solve_vars n state) (Solve_vars_bounds n lat delta_prev a_prev).1
          (Solve_vars_bounds n lat delta_prev a_prev).2 (Solve_constraints_bounds n state).1
          (Solve_constraints_bounds n state).2 (FG_eval cos sin atan n coeffs)).x[
            y_start_ind n + t]? ∧
      (Solve cos sin atan solve n lat delta_prev a_prev state coeffs).Delta[t]? =
        (solve (Solve_vars n state) (Solve_vars_bounds n lat delta_prev a_prev).1
          (Solve_vars_bounds n lat delta_prev a_prev).2 (Solve_constraints_bounds n state).1
          (Solve_constraints_bounds n state).2 (FG_eval cos sin atan n coeffs)).x[
            delta_start_ind n + t]? ∧
      (Solve cos sin atan solve n lat delta_prev a_prev state coeffs).A[t]? =
        (solve (Solve_vars n state) (Solve_vars_bounds n lat delta_prev a_prev).1
          (Solve_vars_bounds n lat delta_prev a_prev).2 (Solve_constraints_bounds n state).1
          (Solve_constraints_bounds n state).2 (FG_eval cos sin atan n coeffs)).x[
            a_start_ind n + t]? := by
  have hx0 := x_start_ind_eq
  have hy := y_start_ind_eq n
  have hd := delta_start_ind_eq n
  have ha := a_start_ind_eq n
  have hnv := n_vars_eq n
  rw [Solve_eq, Solve_extract_eq]
  refine ⟨by simp only [List.length_map, List.length_range, and_self], fun t ht => ?_⟩
  simp only [List.getElem?_map, List.getElem?_range ht, Option.map_some']
  rw [rd_eq_getElem? _ _ (by omega), rd_eq_getElem? _ _ (by omega),
    rd_eq_getElem? _ _ (by omega), rd_eq_getElem? _ _ (by omega)]
  exact ⟨rfl, rfl, rfl, rfl⟩

/-- C11, at the program's `N = 12` over the reals, with a solver that returns the vector
whose entry `delta_start_ind + 3` is `7` and whose other entries are `0`: the returned `X` has
11 entries and `Delta[3]` is `7`. -/
theorem Solve_extracts_solver_vector_witness :
    2 ≤ N ∧ ((Dvector (n_vars N) : List ℝ).set (delta_start_ind N + 3) 7).length = n_vars N ∧
    (Solve Real.cos Real.sin Real.arctan
      (fun _ _ _ _ _ _ =>
        ⟨status_type.success, (Dvector (n_vars N)).set (delta_start_ind N + 3) 7, 0⟩)
      N latency_ind 0 0 [0, 0, 0, 0, 0, 0] [0, 0, 0, 0]).X.length = 11 ∧
    (Solve Real.cos Real.sin Real.arctan
      (fun _ _ _ _ _ _ =>
        ⟨status_type.success, (Dvector (n_vars N)).set (delta_start_ind N + 3) 7, 0⟩)
      N latency_ind 0 0 [0, 0, 0, 0, 0, 0] [0, 0, 0, 0]).Delta[3]? = some 7 :=
  have hlen : ((Dvector (n_vars N) : List ℝ).set (delta_start_ind N + 3) 7).length = n_vars N :=
    (List.length_set _ _ _).trans (length_Dvector _)
  ⟨by decide, hlen,
    (Solve_extracts_solver_vector Real.cos Real.sin Real.arctan
      (fun _ _ _ _ _ _ =>
        ⟨status_type.success, (Dvector (n_vars N)).set (delta_start_ind N + 3) 7, 0⟩)
      N latency_ind 0 0 [0, 0, 0, 0, 0, 0] [0, 0, 0, 0] (by decide) hlen).1.1,
    ((Solve_extracts_solver_vector Real.cos Real.sin Real.arctan
      (fun _ _ _ _ _ _ =>
        ⟨status_type.success, (Dvector (n_vars N)).set (delta_start_ind N + 3) 7, 0⟩)
      N latency_ind 0 0 [0, 0, 0, 0, 0, 0] [0, 0, 0, 0] (by decide) hlen).2 3
        (by decide)).2.2.1.trans
      ((rd_eq_getElem? _ _ (by rw [hlen]; decide)).trans
        (congrArg some (rd_set_eq _ _ _ (by rw [length_Dvector]; decide))))⟩

/-- C12 fails as stated, at the program's `N = 12`, `latency_ind = 2` over the reals, with
`coeffs = [0,0,0,0]` and initial states that have `cte = 0`, `epsi = 0`, `v = 75`:
(a) with the previous actuation `(0.1, 0)` and the state `(0, 0, 0, 75, 0, 0)` the steady-state
vector is outside the variable bounds (the latency lock demands `delta_0 = 0.1`);
(b) with the state `(1.0e17, 0, 0, 75, 0, 0)` it is outside the variable bounds (`x_1` exceeds
`1.0e17`);
(c) with the state `(0, 100, 0, 75, 0, 0)` a vector within all bounds has a lower cost (the
trajectory that steers by `0.267` at step 9);
(d) with the state `(0, 0, 0.375, 75, 0, 0)` a vector within all bounds has a lower cost (the
trajectory that steers by `-0.267` at step 2). -/
theorem steady_state_not_always_optimal :
    ¬ within_bounds (Solve_vars_bounds N latency_ind (0.1 : ℝ) 0).1
      (Solve_vars_bounds N latency_ind (0.1 : ℝ) 0).2
      (steady_state_vector Real.cos Real.sin Real.arctan N [0, 0, 0, 0] [0, 0, 0, 75, 0, 0]) ∧
    ¬ within_bounds (Solve_vars_bounds N latency_ind (0 : ℝ) 0).1
      (Solve_vars_bounds N latency_ind (0 : ℝ) 0).2
      (steady_state_vector Real.cos Real.sin Real.arctan N [0, 0, 0, 0]
        [1.0e17, 0, 0, 75, 0, 0]) ∧
    (∃ w : List ℝ,
      within_bounds (Solve_vars_bounds N latency_ind (0 : ℝ) 0).1
        (Solve_vars_bounds N latency_ind (0 : ℝ) 0).2 w ∧
      within_bounds (Solve_constraints_bounds N [(0 : ℝ), 100, 0, 75, 0, 0]).1
        (Solve_constraints_bounds N [(0 : ℝ), 100, 0, 75, 0, 0]).2
        (constraint_values (FG_eval Real.cos Real.sin Real.arctan N [0, 0, 0, 0]
          (Dvector (1 + n_constraints N)) w)) ∧
      rd (FG_eval Real.cos Real.sin Real.arctan N [0, 0, 0, 0] (Dvector (1 + n_constraints N))
        w) 0 <
      rd (FG_eval Real.cos Real.sin Real.arctan N [0, 0, 0, 0] (Dvector (1 + n_constraints N))
        (steady_state_vector Real.cos Real.sin Real.arctan N [0, 0, 0, 0]
          [0, 100, 0, 75, 0, 0])) 0) ∧
    (∃ w : List ℝ,
      within_bounds (Solve_vars_bounds N latency_ind (0 : ℝ) 0).1
        (Solve_vars_bounds N latency_ind (0 : ℝ) 0).2 w ∧
      within_bounds (Solve_constraints_bounds N [(0 : ℝ), 0, 0.375, 75, 0, 0]).1
        (Solve_constraints_bounds N [(0 : ℝ), 0, 0.375, 75, 0, 0]).2
        (constraint_values (FG_eval Real.cos Real.sin Real.arctan N [0, 0, 0, 0]
          (Dvector (1 + n_constraints N)) w)) ∧
      rd (FG_eval Real.cos Real.sin Real.arctan N [0, 0, 0, 0] (Dvector (1 + n_constraints N))
        w) 0 <
      rd (FG_eval Real.cos Real.sin Real.arctan N [0, 0, 0, 0] (Dvector (1 + n_constraints N))
        (steady_state_vector Real.cos Real.sin Real.arctan N [0, 0, 0, 0]
          [0, 0, 0.375, 75, 0, 0])) 0) := by
  have hs := sin_three_eighths_bounds
  have hlen : (Dvector (1 + n_constraints N) : List ℝ).length = 1 + n_constraints N :=
    length_Dvector _
  refine ⟨fun h => ?_, fun h => ?_, ?_, ?_⟩
  · have h1 := (h.2 (delta_start_ind N + 0) (by rw [length_vars_lowerbound]; decide)).1
    rw [(rd_bounds_delta_locked N latency_ind (0.1 : ℝ) 0 0 (by decide) (by decide)
      (by decide)).1] at h1
    unfold steady_state_vector at h1
    rw [(actuation_trajectory_vector N _ _ _ 0 (by decide)).1] at h1
    norm_num at h1
  · have h1 := (h.2 (x_start_ind + 1) (by rw [length_vars_lowerbound]; decide)).2
    rw [(rd_bounds_state N latency_ind (0 : ℝ) 0 (x_start_ind + 1) (by decide)
      (by decide)).2] at h1
    unfold steady_state_vector at h1
    have h2 := congrArg State.x (state_at_trajectory_vector N
      (simulate Real.cos Real.sin Real.arctan [0, 0, 0, 0]
        (state_of [1.0e17, 0, 0, 75, 0, 0]) (fun _ => 0) (fun _ => 0))
      (fun _ => (0 : ℝ)) (fun _ => 0) 1 (by decide))
    simp only [state_at] at h2
    rw [h2, simulate_on_reference_line Real.cos Real.sin Real.arctan Real.sin_zero
      Real.cos_zero Real.arctan_zero] at h1
    norm_num at h1
  · refine ⟨_, offset_steered_within_vars_bounds,
      simulated_trajectory_feasible Real.cos Real.sin Real.arctan N _ _ _ _ _ (by decide) hlen,
      ?_⟩
    rw [offset_steered_cost _ hlen, offset_steady_cost _ hlen]
    have e : (-100 + 3.75 * Real.sin (3 / 8)) ^ 2 =
        10000 - 750 * Real.sin (3 / 8) + 14.0625 * Real.sin (3 / 8) ^ 2 := by ring
    have h2 : Real.sin (3 / 8) ^ 2 ≤ 1 := by nlinarith [hs.1, hs.2]
    rw [e]
    norm_num
    linarith [hs.1, hs.2]
  · refine ⟨_, heading_steered_within_vars_bounds,
      simulated_trajectory_feasible Real.cos Real.sin Real.arctan N _ _ _ _ _ (by decide) hlen,
      ?_⟩
    rw [heading_steered_cost _ hlen, heading_steady_cost _ hlen]
    have h2 : (0.36 : ℝ) ^ 2 < Real.sin (3 / 8) ^ 2 := by nlinarith [hs.1, hs.2]
    norm_num at h2 ⊢
    linarith

/-- C12, amended: for every state and coefficient vector the steady-state decision vector
(`delta_t = 0`, `a_t = 0`, states propagated from the given state by the dynamics) satisfies the
constraint bounds that `Solve` builds.  For `coeffs = [0,0,0,0]` and an initial state on the
reference line (`y = 0`, `psi = 0`, `cte = 0`, `epsi = 0`) with `v = 75` and
`-1.0e17 ≤ x`, `x + 75*0.05*(n-1) ≤ 1.0e17`, and for a previous actuation `(0, 0)` (or no
latency), it also satisfies the variable bounds, its cost is `0`, and no vector satisfying the
bounds has a lower cost. -/
theorem steady_state_is_optimal {α : Type} [LinearOrderedField α] (cos sin atan : α → α)
    (n lat : Nat) (delta_prev a_prev x0 : α) (state coeffs fg : List α) (hn : 2 ≤ n)
    (hfg : fg.length = 1 + n_constraints n) (hsin : sin 0 = 0) (hcos : cos 0 = 1)
    (hatan : atan 0 = 0) (hlock : lat = 0 ∨ (delta_prev = 0 ∧ a_prev = 0))
    (hx0 : -1.0e17 ≤ x0) (hx1 : x0 + 75 * 0.05 * ((n : α) - 1) ≤ 1.0e17) :
    within_bounds (Solve_constraints_bounds n state).1 (Solve_constraints_bounds n state).2
      (constraint_values (FG_eval cos sin atan n coeffs fg
        (steady_state_vector cos sin atan n coeffs state))) ∧
    within_bounds (Solve_vars_bounds n lat delta_prev a_prev).1
      (Solve_vars_bounds n lat delta_prev a_prev).2
      (steady_state_vector cos sin atan n [0, 0, 0, 0] [x0, 0, 0, 75, 0, 0]) ∧
    rd (FG_eval cos sin atan n [0, 0, 0, 0] fg
      (steady_state_vector cos sin atan n [0, 0, 0, 0] [x0, 0, 0, 75, 0, 0])) 0 = 0 ∧
    ∀ w, within_bounds (Solve_vars_bounds n lat delta_prev a_prev).1
        (Solve_vars_bounds n lat delta_prev a_prev).2 w →
      within_bounds (Solve_constraints_bounds n [x0, 0, 0, 75, 0, 0]).1
        (Solve_constraints_bounds n [x0, 0, 0, 75, 0, 0]).2
        (constraint_values (FG_eval cos sin atan n [0, 0, 0, 0] fg w)) →
      rd (FG_eval cos sin atan n [0, 0, 0, 0] fg
        (steady_state_vector cos sin atan n [0, 0, 0, 0] [x0, 0, 0, 75, 0, 0])) 0 ≤
        rd (FG_eval cos sin atan n [0, 0, 0, 0] fg w) 0 := by
  have hcost : rd (FG_eval cos sin atan n [0, 0, 0, 0] fg
      (steady_state_vector cos sin atan n [0, 0, 0, 0] [x0, 0, 0, 75, 0, 0])) 0 = 0 := by
    unfold steady_state_vector
    rw [cost_trajectory_vector cos sin atan n _ fg _ _ _ hn hfg]
    simp only [simulate_on_reference_line cos sin atan hsin hcos hatan]
    norm_num
  refine ⟨?_, ?_, hcost, fun w _ _ => ?_⟩
  · exact simulated_trajectory_feasible cos sin atan n state coeffs fg _ _ hn hfg
  · unfold steady_state_vector
    refine trajectory_within_vars_bounds n lat delta_prev a_prev _ _ _ hn ?_ ?_ ?_
    · intro t ht
      rw [simulate_on_reference_line cos sin atan hsin hcos hatan]
      have h1 : (0 : α) ≤ 75 * 0.05 * (t : α) := by positivity
      have h2 : (t : α) ≤ (n : α) - 1 := by
        have : t + 1 ≤ n := ht
        have h3 : ((t + 1 : Nat) : α) ≤ (n : α) := Nat.cast_le.mpr this
        push_cast at h3
        linarith
      have h4 : (75 : α) * 0.05 * (t : α) ≤ 75 * 0.05 * ((n : α) - 1) :=
        mul_le_mul_of_nonneg_left h2 (by norm_num)
      refine ⟨⟨by linarith, by linarith⟩, ⟨by norm_num, by norm_num⟩, ⟨by norm_num, by norm_num⟩,
        ⟨by norm_num, by norm_num⟩, ⟨by norm_num, by norm_num⟩, ⟨by norm_num, by norm_num⟩⟩
    · intro t _ htl
      rcases hlock with h | h
      · omega
      · exact ⟨h.1.symm, h.2.symm⟩
    · intro t _ _
      exact ⟨⟨by norm_num, by norm_num⟩, ⟨by norm_num, by norm_num⟩⟩
  · rw [hcost]
    exact FG_eval_cost_nonneg cos sin atan n _ fg w hn hfg

/-- C12 amended, at the program's `N = 12`, `latency_ind = 2` over the reals, from the state
`(0, 0, 0, 75, 0, 0)` with the previous actuation `(0, 0)`: the steady-state vector lies within
the variable bounds and its cost is `0`. -/
theorem steady_state_is_optimal_witness :
    2 ≤ N ∧ (Dvector (1 + n_constraints N) : List ℝ).length = 1 + n_constraints N ∧
    Real.sin 0 = 0 ∧ Real.cos 0 = 1 ∧ Real.arctan 0 = 0 ∧
    (latency_ind = 0 ∨ ((0 : ℝ) = 0 ∧ (0 : ℝ) = 0)) ∧ (-1.0e17 : ℝ) ≤ 0 ∧
    (0 : ℝ) + 75 * 0.05 * ((N : ℝ) - 1) ≤ 1.0e17 ∧
    within_bounds (Solve_vars_bounds N latency_ind (0 : ℝ) 0).1
      (Solve_vars_bounds N latency_ind (0 : ℝ) 0).2
      (steady_state_vector Real.cos Real.sin Real.arctan N [0, 0, 0, 0] [0, 0, 0, 75, 0, 0]) ∧
    rd (FG_eval Real.cos Real.sin Real.arctan N [0, 0, 0, 0] (Dvector (1 + n_constraints N))
      (steady_state_vector Real.cos Real.sin Real.arctan N [0, 0, 0, 0] [0, 0, 0, 75, 0, 0]))
      0 = 0 :=
  have hx1 : (0 : ℝ) + 75 * 0.05 * ((N : ℝ) - 1) ≤ 1.0e17 := by
    simp only [N]
    norm_num
  ⟨by decide, length_Dvector _, Real.sin_zero, Real.cos_zero, Real.arctan_zero,
    Or.inr ⟨rfl, rfl⟩, by norm_num, hx1,
    (steady_state_is_optimal Real.cos Real.sin Real.arctan N latency_ind 0 0 0
      [0, 0, 0, 75, 0, 0] [0, 0, 0, 0] (Dvector (1 + n_constraints N)) (by decide)
      (length_Dvector _) Real.sin_zero Real.cos_zero Real.arctan_zero (Or.inr ⟨rfl, rfl⟩)
      (by norm_num) hx1).2.1,
    (steady_state_is_optimal Real.cos Real.sin Real.arctan N latency_ind 0 0 0
      [0, 0, 0, 75, 0, 0] [0, 0, 0, 0] (Dvector (1 + n_constraints N)) (by decide)
      (length_Dvector _) Real.sin_zero Real.cos_zero Real.arctan_zero (Or.inr ⟨rfl, rfl⟩)
      (by norm_num) hx1).2.2.1⟩

/-- C13 fails as stated: with `N = 12` and the invalid latency of `11 ≥ N - 1` steps `Solve`
rejects nothing: what it returns still depends on what the solver returns.  A solver that
returns the zero vector and a solver that returns a vector with first entry `1` yield different
`Solution`s (`X[0]` is `0`, respectively `1`). -/
theorem invalid_latency_is_not_rejected :
    N - 1 ≤ 11 ∧
    (Solve Real.cos Real.sin Real.arctan
      (fun _ _ _ _ _ _ => ⟨status_type.success, Dvector (n_vars N), 0⟩)
      N 11 0 0 [0, 0, 0, 0, 0, 0] [0, 0, 0, 0]).X[0]? = some 0 ∧
    (Solve Real.cos Real.sin Real.arctan
      (fun _ _ _ _ _ _ => ⟨status_type.success, (Dvector (n_vars N)).set 0 1, 0⟩)
      N 11 0 0 [0, 0, 0, 0, 0, 0] [0, 0, 0, 0]).X[0]? = some 1 ∧
    Solve Real.cos Real.sin Real.arctan
      (fun _ _ _ _ _ _ => ⟨status_type.success, Dvector (n_vars N), 0⟩)
      N 11 0 0 [0, 0, 0, 0, 0, 0] [0, 0, 0, 0] ≠
    Solve Real.cos Real.sin Real.arctan
      (fun _ _ _ _ _ _ => ⟨status_type.success, (Dvector (n_vars N)).set 0 1, 0⟩)
      N 11 0 0 [0, 0, 0, 0, 0, 0] [0, 0, 0, 0] := by
  have h0 : (Solve Real.cos Real.sin Real.arctan
      (fun _ _ _ _ _ _ => ⟨status_type.success, Dvector (n_vars N), 0⟩)
      N 11 0 0 [0, 0, 0, 0, 0, 0] [0, 0, 0, 0]).X[0]? = some 0 := by
    rw [Solve_eq, Solve_extract_eq]
    simp only [List.getElem?_map, List.getElem?_range (by decide : 0 < N - 1), Option.map_some',
      rd_Dvector]
  have h1 : (Solve Real.cos Real.sin Real.arctan
      (fun _ _ _ _ _ _ => ⟨status_type.success, (Dvector (n_vars N)).set 0 1, 0⟩)
      N 11 0 0 [0, 0, 0, 0, 0, 0] [0, 0, 0, 0]).X[0]? = some 1 := by
    rw [Solve_eq, Solve_extract_eq]
    simp only [List.getElem?_map, List.getElem?_range (by decide : 0 < N - 1), Option.map_some']
    exact congrArg some (rd_set_eq _ _ _ (by rw [length_Dvector]; decide))
  refine ⟨by decide, h0, h1, fun h => ?_⟩
  rw [h, h1] at h0
  norm_num at h0

/-- C13, amended: `Solve` validates nothing and has no error result.  For every `n ≥ 2`, every
latency `lat ≤ n - 1` (the invalid `lat = n - 1` included) and every coefficient vector with at
least 4 entries (a malformed one with more than 4 included), `Solve` builds the initial guess,
the variable bounds and the constraint bounds, calls the solver on them and returns the
`Solution` extracted from the solver's result; for `lat = n - 1` the problem it hands to the
solver has every actuator variable locked to the previous actuation. -/
theorem Solve_builds_and_solves_without_validation {α : Type} [Field α]
    (cos sin atan : α → α) (solve : ipopt_solver α) (n lat : Nat) (delta_prev a_prev : α)
    (state coeffs : List α) (hn : 2 ≤ n) (_hlat : lat ≤ n - 1) (_hc : 4 ≤ coeffs.length) :
    Solve cos sin atan solve n lat delta_prev a_prev state coeffs =
      Solve_extract n (solve (Solve_vars n state)
        (Solve_vars_bounds n lat delta_prev a_prev).1
        (Solve_vars_bounds n lat delta_prev a_prev).2
        (Solve_constraints_bounds n state).1 (Solve_constraints_bounds n state).2
        (FG_eval cos sin atan n coeffs)) ∧
    (lat = n - 1 → ∀ t, t < n - 1 →
      rd (Solve_vars_bounds n lat delta_prev a_prev).1 (delta_start_ind n + t) = delta_prev ∧
      rd (Solve_vars_bounds n lat delta_prev a_prev).2 (delta_start_ind n + t) = delta_prev ∧
      rd (Solve_vars_bounds n lat delta_prev a_prev).1 (a_start_ind n + t) = a_prev ∧
      rd (Solve_vars_bounds n lat delta_prev a_prev).2 (a_start_ind n + t) = a_prev) := by
  refine ⟨Solve_eq cos sin atan solve n lat delta_prev a_prev state coeffs, fun hl t ht => ?_⟩
  have hd := rd_bounds_delta_locked n lat delta_prev a_prev t hn (by omega) ht
  have ha := rd_bounds_a_locked n lat delta_prev a_prev t hn (by omega) ht
  exact ⟨hd.1, hd.2, ha.1, ha.2⟩

/-- C13 amended, at `N = 12` over the reals with the invalid latency of `11 = N - 1` steps and
a solver that returns the zero vector: `Solve` returns the eleven zeros of that vector as
`X`. -/
theorem Solve_builds_and_solves_without_validation_witness :
    2 ≤ N ∧ 11 ≤ N - 1 ∧ 4 ≤ ([0, 0, 0, 0] : List ℝ).length ∧
    (Solve Real.cos Real.sin Real.arctan
      (fun _ _ _ _ _ _ => ⟨status_type.success, Dvector (n_vars N), 0⟩)
      N 11 0 0 [0, 0, 0, 0, 0, 0] [0, 0, 0, 0]).X = List.replicate 11 0 :=
  ⟨by decide, by decide, by decide,
    (congrArg Solution.X (Solve_builds_and_solves_without_validation Real.cos Real.sin
      Real.arctan (fun _ _ _ _ _ _ => ⟨status_type.success, Dvector (n_vars N), 0⟩)
      N 11 0 0 [0, 0, 0, 0, 0, 0] [0, 0, 0, 0] (by decide) (by decide) (by decide)).1).trans (by
        rw [Solve_extract_eq]
        simp only [rd_Dvector]
        rfl)⟩

/-- C14 fails as stated: with the minimal horizon `N = 2` and the program's `latency_ind = 2`
the latency lock of `a` (lines 198-201) executes `vars_lowerbound[14] = a_prev` (and
`vars_upperbound[14] = a_prev`) while the vectors have `n_vars = 14` entries (indices
`0 .. 13`): an index written while the bounds are built is out of range. -/
theorem minimal_horizon_lock_writes_out_of_range :
    n_vars 2 = 14 ∧
    (Solve_vars_bounds_traced 2 latency_ind (0 : ℝ) 0).val =
      Solve_vars_bounds 2 latency_ind (0 : ℝ) 0 ∧
    (⟨Vec.vars_lowerbound, true, 14, 14⟩ : Access) ∈
      (Solve_vars_bounds_traced 2 latency_ind (0 : ℝ) 0).log ∧
    (⟨Vec.vars_upperbound, true, 14, 14⟩ : Access) ∈
      (Solve_vars_bounds_traced 2 latency_ind (0 : ℝ) 0).log ∧
    (∀ b : List ℝ × List ℝ,
      14 ∈ writes_of Vec.vars_lowerbound (lock_a_traced 2 latency_ind (0 : ℝ) b).log) ∧
    ¬ in_range (Solve_vars_bounds_traced 2 latency_ind (0 : ℝ) 0).log := by
  have h1 : (⟨Vec.vars_lowerbound, true, 14, 14⟩ : Access) ∈
      (Solve_vars_bounds_traced 2 latency_ind (0 : ℝ) 0).log := by decide
  refine ⟨by decide, val_Solve_vars_bounds_traced _ _ _ _, h1, by decide, fun b => ?_,
    fun h => absurd (h _ h1) (by decide)⟩
  rw [writes_of_lock_a_traced]
  decide

/-- C14, amended: for the minimal horizon `N = 2` and a latency of at most `N - 1 = 1` steps
the problem that `Solve` builds is well-posed.  `Solve` hands to the solver an initial point
and variable bounds of 14 entries and constraint bounds of 12 entries, and `FG_eval` returns 12
constraint values; exactly one variable is a `delta` (index 12) and one an `a` (index 13), each
either free (`latency_ind = 0`) or locked to the previous actuation (`latency_ind = 1`); in the
run of `FG_eval` with its accesses recorded (which computes what `FG_eval` computes) every one
of the 12 constraint rows `fg[1 .. 12]` is assigned, and the result does not depend on the `fg`
handed in; the cost has no smoothness term; and every access executed while the variable bounds
and the constraint bounds are built and while cost and constraints are evaluated is inside its
vector (for `fg` of 13 and `vars` of 14 entries, a state of at least 6 entries and at least 4
coefficients). -/
theorem minimal_horizon_well_posed {α : Type} [Field α] (cos sin atan : α → α)
    (solve : ipopt_solver α) (delta_prev a_prev : α) (state coeffs fg vars : List α) (lat : Nat)
    (hlat : lat ≤ 1) (hfg : fg.length = 1 + n_constraints 2) (hvars : vars.length = n_vars 2)
    (hcoeffs : 4 ≤ coeffs.length) (hstate : 6 ≤ state.length) :
    (n_constraints 2 = 12 ∧ n_vars 2 = 14) ∧
    Solve cos sin atan solve 2 lat delta_prev a_prev state coeffs =
      Solve_extract 2 (solve (Solve_vars 2 state)
        (Solve_vars_bounds 2 lat delta_prev a_prev).1
        (Solve_vars_bounds 2 lat delta_prev a_prev).2
        (Solve_constraints_bounds 2 state).1 (Solve_constraints_bounds 2 state).2
        (FG_eval cos sin atan 2 coeffs)) ∧
    ((Solve_vars 2 state).length = 14 ∧
      (Solve_vars_bounds 2 lat delta_prev a_prev).1.length = 14 ∧
      (Solve_vars_bounds 2 lat delta_prev a_prev).2.length = 14 ∧
      (Solve_constraints_bounds 2 state).1.length = 12 ∧
      (Solve_constraints_bounds 2 state).2.length = 12 ∧
      (constraint_values (FG_eval cos sin atan 2 coeffs fg vars)).length = 12) ∧
    blocks 2 = [(0, 2), (2, 2), (4, 2), (6, 2), (8, 2), (10, 2), (12, 1), (13, 1)] ∧
    (lat = 0 →
      rd (Solve_vars_bounds 2 lat delta_prev a_prev).1 12 = -0.436332 ∧
      rd (Solve_vars_bounds 2 lat delta_prev a_prev).2 12 = 0.436332 ∧
      rd (Solve_vars_bounds 2 lat delta_prev a_prev).1 13 = -1.0 ∧
      rd (Solve_vars_bounds 2 lat delta_prev a_prev).2 13 = 1.0) ∧
    (lat = 1 →
      rd (Solve_vars_bounds 2 lat delta_prev a_prev).1 12 = delta_prev ∧
      rd (Solve_vars_bounds 2 lat delta_prev a_prev).2 12 = delta_prev ∧
      rd (Solve_vars_bounds 2 lat delta_prev a_prev).1 13 = a_prev ∧
      rd (Solve_vars_bounds 2 lat delta_prev a_prev).2 13 = a_prev) ∧
    (FG_eval_traced cos sin atan 2 coeffs fg vars).val = FG_eval cos sin atan 2 coeffs fg vars ∧
    (∀ r, r < 12 → 1 + r ∈ writes_of Vec.fg (FG_eval_traced cos sin atan 2 coeffs fg vars).log) ∧
    (∀ fg2 : List α, fg2.length = fg.length →
      FG_eval cos sin atan 2 coeffs fg vars = FG_eval cos sin atan 2 coeffs fg2 vars) ∧
    rd (FG_eval cos sin atan 2 coeffs fg vars) 0 =
      ((rd vars (cte_start_ind 2 + 0) - 0) ^ 2 + (rd vars (epsi_start_ind 2 + 0) - 0) ^ 2 +
        (rd vars (v_start_ind 2 + 0) - 75) ^ 2) +
      ((rd vars (cte_start_ind 2 + 1) - 0) ^ 2 + (rd vars (epsi_start_ind 2 + 1) - 0) ^ 2 +
        (rd vars (v_start_ind 2 + 1) - 75) ^ 2) +
      (rd vars (delta_start_ind 2 + 0) ^ 2 + rd vars (a_start_ind 2 + 0) ^ 2) ∧
    (Solve_vars_bounds_traced 2 lat delta_prev a_prev).val =
      Solve_vars_bounds 2 lat delta_prev a_prev ∧
    (Solve_constraints_bounds_traced 2 state).val = Solve_constraints_bounds 2 state ∧
    in_range (Solve_vars_bounds_traced 2 lat delta_prev a_prev).log ∧
    in_range (Solve_constraints_bounds_traced 2 state).log ∧
    in_range (FG_eval_traced cos sin atan 2 coeffs fg vars).log := by
  have hd : delta_start_ind 2 = 12 := rfl
  have ha : a_start_ind 2 = 13 := rfl
  have hnv : n_vars 2 = 14 := rfl
  have hnc : n_constraints 2 = 12 := rfl
  obtain ⟨hl, hcost, -, -⟩ := FG_eval_spec cos sin atan 2 coeffs fg vars (by decide) hfg
  refine ⟨⟨hnc, hnv⟩, Solve_eq cos sin atan solve 2 lat delta_prev a_prev state coeffs,
    ⟨?_, ?_, ?_, ?_, ?_, ?_⟩, by decide, ?_, ?_,
    val_FG_eval_traced cos sin atan 2 coeffs fg vars, ?_, ?_, ?_,
    val_Solve_vars_bounds_traced 2 lat delta_prev a_prev,
    val_Solve_constraints_bounds_traced 2 state, ?_,
    in_range_Solve_constraints_bounds_traced 2 state (by decide) hstate,
    in_range_FG_eval_traced cos sin atan 2 coeffs fg vars (by decide) hfg hvars hcoeffs⟩
  · exact length_Solve_vars 2 state
  · exact length_vars_lowerbound 2 lat delta_prev a_prev
  · exact length_vars_upperbound 2 lat delta_prev a_prev
  · exact length_constraints_lowerbound 2 state
  · rw [constraints_upperbound_eq]
    exact length_constraints_lowerbound 2 state
  · unfold constraint_values
    rw [List.length_tail, hl, hfg]
    rfl
  · intro h0
    have h1 := rd_bounds_delta_free 2 lat delta_prev a_prev 0 (by decide) (by omega) (by decide)
    have h2 := rd_bounds_a_free 2 lat delta_prev a_prev 0 (by decide) (by omega) (by decide)
    exact ⟨h1.1, h1.2, h2.1, h2.2⟩
  · intro h0
    have h1 := rd_bounds_delta_locked 2 lat delta_prev a_prev 0 (by decide) (by omega)
      (by decide)
    have h2 := rd_bounds_a_locked 2 lat delta_prev a_prev 0 (by decide) (by omega) (by decide)
    exact ⟨h1.1, h1.2, h2.1, h2.2⟩
  · intro r hr
    have h := count_writes_of_FG_eval_traced cos sin atan 2 coeffs fg vars (by decide) (1 + r)
      (by omega) (by omega)
    exact List.count_pos_iff.mp (by omega)
  · intro fg2 hfg2
    exact FG_eval_independent_of_fg cos sin atan 2 coeffs fg fg2 vars (by decide) hfg
      (by rw [hfg2, hfg])
  · rw [hcost]
    simp only [Finset.sum_range_succ, Finset.sum_range_zero, Nat.sub_self, Nat.add_one_sub_one,
      Nat.reduceSub, ref_cte, ref_epsi, ref_v, zero_add, add_zero, add_assoc]
  · intro a h
    obtain ⟨_, _, h3, h4⟩ := forall_log_Solve_vars_bounds_traced 2 lat delta_prev a_prev a h
    rw [mem_Solve_vars_bounds_writes] at h4
    omega

/-- C14 amended, over the reals with `latency_ind = 1` and zero vectors: the cost is
`2 * 75^2 = 11250`, and every access made while the variable bounds are built is inside its
vector. -/
theorem minimal_horizon_well_posed_witness :
    (1 : Nat) ≤ 1 ∧ (Dvector (1 + n_constraints 2) : List ℝ).length = 1 + n_constraints 2 ∧
    (Dvector (n_vars 2) : List ℝ).length = n_vars 2 ∧ 4 ≤ ([0, 0, 0, 0] : List ℝ).length ∧
    6 ≤ ([0, 0, 0, 75, 0, 0] : List ℝ).length ∧
    rd (FG_eval Real.cos Real.sin Real.arctan 2 [0, 0, 0, 0] (Dvector (1 + n_constraints 2))
      (Dvector (n_vars 2))) 0 = 11250 ∧
    in_range (Solve_vars_bounds_traced 2 1 (0 : ℝ) 0).log :=
  ⟨le_refl 1, length_Dvector _, length_Dvector _, by decide, by decide,
    (minimal_horizon_well_posed Real.cos Real.sin Real.arctan
      (fun xi _ _ _ _ _ => ⟨status_type.success, xi, 0⟩) 0 0 [0, 0, 0, 75, 0, 0] [0, 0, 0, 0]
      (Dvector (1 + n_constraints 2)) (Dvector (n_vars 2)) 1 (le_refl 1)
      (length_Dvector _) (length_Dvector _) (by decide)
      (by decide)).2.2.2.2.2.2.2.2.2.1.trans (by
        simp only [rd_Dvector]
        norm_num),
    (minimal_horizon_well_posed Real.cos Real.sin Real.arctan
      (fun xi _ _ _ _ _ => ⟨status_type.success, xi, 0⟩) 0 0 [0, 0, 0, 75, 0, 0] [0, 0, 0, 0]
      (Dvector (1 + n_constraints 2)) (Dvector (n_vars 2)) 1 (le_refl 1)
      (length_Dvector _) (length_Dvector _) (by decide)
      (by decide)).2.2.2.2.2.2.2.2.2.2.2.2.1⟩

/-- C15: for every state, the initial guess that `Solve` passes to the solver has length
`6n + 2(n - 1)`, holds the given state's `x, y, psi, v, cte, epsi` at the six timestep-0
positions (the starts of the six state blocks) and is `0` at every other position, in
particular at every `delta` and `a` position. -/
theorem initial_guess_is_state_then_zeros {α : Type} [Field α] (cos sin atan : α → α)
    (n lat : Nat) (delta_prev a_prev : α) (state coeffs : List α) (hn : 2 ≤ n) :
    (∀ solve : ipopt_solver α,
      Solve cos sin atan solve n lat delta_prev a_prev state coeffs =
        Solve_extract n (solve (Solve_vars n state)
          (Solve_vars_bounds n lat delta_prev a_prev).1
          (Solve_vars_bounds n lat delta_prev a_prev).2
          (Solve_constraints_bounds n state).1 (Solve_constraints_bounds n state).2
          (FG_eval cos sin atan n coeffs))) ∧
    (Solve_vars n state).length = 6 * n + 2 * (n - 1) ∧
    (rd (Solve_vars n state) x_start_ind = rd state 0 ∧
      rd (Solve_vars n state) (y_start_ind n) = rd state 1 ∧
      rd (Solve_vars n state) (psi_start_ind n) = rd state 2 ∧
      rd (Solve_vars n state) (v_start_ind n) = rd state 3 ∧
      rd (Solve_vars n state) (cte_start_ind n) = rd state 4 ∧
      rd (Solve_vars n state) (epsi_start_ind n) = rd state 5) ∧
    (∀ i, i < 6 * n + 2 * (n - 1) → i ≠ x_start_ind → i ≠ y_start_ind n →
      i ≠ psi_start_ind n → i ≠ v_start_ind n → i ≠ cte_start_ind n → i ≠ epsi_start_ind n →
      rd (Solve_vars n state) i = 0) ∧
    (∀ t, t < n - 1 → rd (Solve_vars n state) (delta_start_ind n + t) = 0 ∧
      rd (Solve_vars n state) (a_start_ind n + t) = 0) := by
  have hx := x_start_ind_eq
  have hy := y_start_ind_eq n
  have hpsi := psi_start_ind_eq n
  have hv := v_start_ind_eq n
  have hcte := cte_start_ind_eq n
  have hepsi := epsi_start_ind_eq n
  have hd := delta_start_ind_eq n
  have ha := a_start_ind_eq n
  have hr := rd_Solve_vars n state (by omega : 1 ≤ n)
  refine ⟨fun solve => Solve_eq cos sin atan solve n lat delta_prev a_prev state coeffs,
    by rw [length_Solve_vars, n_vars_eq], ⟨?_, ?_, ?_, ?_, ?_, ?_⟩, ?_, ?_⟩
  · rw [hr]
    simp (disch := omega) only [if_neg, if_pos, if_true]
  · rw [hr]
    simp (disch := omega) only [if_neg, if_pos, if_true]
  · rw [hr]
    simp (disch := omega) only [if_neg, if_pos, if_true]
  · rw [hr]
    simp (disch := omega) only [if_neg, if_pos, if_true]
  · rw [hr]
    simp (disch := omega) only [if_neg, if_pos, if_true]
  · rw [hr]
    simp (disch := omega) only [if_neg, if_pos, if_true]
  · intro i _ h1 h2 h3 h4 h5 h6
    rw [hr, if_neg h6, if_neg h5, if_neg h4, if_neg h3, if_neg h2, if_neg h1]
  · intro t ht
    rw [hr, hr]
    simp (disch := omega) only [if_neg, and_self]

/-- C15, at the program's `N = 12` over the reals with the state `(1, 2, 3, 4, 5, 6)`: the
initial guess has 94 entries, its entry `v_start_ind = 36` is `4` and its first `delta` entry
is `0`. -/
theorem initial_guess_is_state_then_zeros_witness :
    2 ≤ N ∧ (Solve_vars N [(1 : ℝ), 2, 3, 4, 5, 6]).length = 6 * N + 2 * (N - 1) ∧
    rd (Solve_vars N [(1 : ℝ), 2, 3, 4, 5, 6]) (v_start_ind N) = 4 ∧
    rd (Solve_vars N [(1 : ℝ), 2, 3, 4, 5, 6]) (delta_start_ind N + 0) = 0 :=
  ⟨by decide,
    (initial_guess_is_state_then_zeros Real.cos Real.sin Real.arctan N latency_ind 0 0
      [1, 2, 3, 4, 5, 6] [0, 0, 0, 0] (by decide)).2.1,
    (initial_guess_is_state_then_zeros Real.cos Real.sin Real.arctan N latency_ind 0 0
      [1, 2, 3, 4, 5, 6] [0, 0, 0, 0] (by decide)).2.2.1.2.2.2.1.trans (by simp [rd]),
    ((initial_guess_is_state_then_zeros Real.cos Real.sin Real.arctan N latency_ind 0 0
      [1, 2, 3, 4, 5, 6] [0, 0, 0, 0] (by decide)).2.2.2.2 0 (by decide)).1⟩

/-- C16: for every `n ≥ 2` the index bookkeeping of `FG_eval` is exact.  The map sending
(state field `k` in `0..5`, row `j` in `0..n-1`) to the `fg` index `1 + k*n + j` is a bijection
onto `1..6n`.  In the run of `FG_eval` with its accesses recorded (which computes the vector
that `FG_eval` computes) every index `1 + k*n + j` of `fg` is assigned exactly once; the
timestep-0 assignments hit the rows with `j = 0` and pass `i` of the residual loop hits the rows
with `j = i + 1`; every assignment to `fg` is at index `0` or at one of these rows, and the
constraint part never assigns index `0`, which is left to the cost; no entry of the result
depends on the `fg` handed in (none is left unassigned); every index of `vars` that is read is
smaller than `6n + 2(n - 1)`, and the result depends on `vars` only through the entries read. -/
theorem FG_eval_index_bookkeeping {α : Type} [Field α] (cos sin atan : α → α) (n : Nat)
    (coeffs fg vars : List α) (hn : 2 ≤ n) (hfg : fg.length = 1 + n_constraints n) :
    (∀ k j, k < 6 → j < n → 1 ≤ 1 + k * n + j ∧ 1 + k * n + j ≤ 6 * n) ∧
    (∀ k j k2 j2, k < 6 → j < n → k2 < 6 → j2 < n → 1 + k * n + j = 1 + k2 * n + j2 →
      k = k2 ∧ j = j2) ∧
    (∀ i, 1 ≤ i → i ≤ 6 * n → ∃ k j, k < 6 ∧ j < n ∧ i = 1 + k * n + j) ∧
    (FG_eval_traced cos sin atan n coeffs fg vars).val = FG_eval cos sin atan n coeffs fg vars ∧
    (∀ k j, k < 6 → j < n →
      (writes_of Vec.fg (FG_eval_traced cos sin atan n coeffs fg vars).log).count
        (1 + k * n + j) = 1) ∧
    (∀ i ∈ writes_of Vec.fg (FG_eval_traced cos sin atan n coeffs fg vars).log,
      i = 0 ∨ ∃ k j, k < 6 ∧ j < n ∧ i = 1 + k * n + j) ∧
    (∀ fg1, writes_of Vec.fg (initial_constraints_traced n vars fg1).log =
      (List.range 6).map (fun k => 1 + k * n + 0)) ∧
    (∀ i fg1, writes_of Vec.fg (model_step_traced cos sin atan n coeffs vars i fg1).log =
      (List.range 6).map (fun k => 1 + k * n + (i + 1))) ∧
    (∀ fg1 fg2, 0 ∉ writes_of Vec.fg (initial_constraints_traced n vars fg1).log ++
      writes_of Vec.fg (model_constraints_traced cos sin atan n coeffs vars fg2).log) ∧
    (∀ fg2 : List α, fg2.length = fg.length →
      FG_eval cos sin atan n coeffs fg vars = FG_eval cos sin atan n coeffs fg2 vars) ∧
    (∀ i ∈ reads_of Vec.vars (FG_eval_traced cos sin atan n coeffs fg vars).log,
      i < 6 * n + 2 * (n - 1)) ∧
    (∀ vars2 : List α,
      (∀ i ∈ reads_of Vec.vars (FG_eval_traced cos sin atan n coeffs fg vars).log,
        rd vars i = rd vars2 i) →
      FG_eval cos sin atan n coeffs fg vars = FG_eval cos sin atan n coeffs fg vars2) := by
  have hx := x_start_ind_eq
  have hy := y_start_ind_eq n
  have hpsi := psi_start_ind_eq n
  have hv := v_start_ind_eq n
  have hcte := cte_start_ind_eq n
  have hepsi := epsi_start_ind_eq n
  have h6 : List.range 6 = [0, 1, 2, 3, 4, 5] := rfl
  have hbound : ∀ k j, k < 6 → j < n → 1 ≤ 1 + k * n + j ∧ 1 + k * n + j ≤ 6 * n := by
    intro k j hk hj
    interval_cases k <;> omega
  have hsurj : ∀ i, 1 ≤ i → i ≤ 6 * n → ∃ k j, k < 6 ∧ j < n ∧ i = 1 + k * n + j := by
    intro i h1 h2
    rcases Nat.lt_or_ge i (1 + n) with a1 | a1
    · exact ⟨0, i - 1, by omega, by omega, by omega⟩
    rcases Nat.lt_or_ge i (1 + 2 * n) with a2 | a2
    · exact ⟨1, i - 1 - n, by omega, by omega, by omega⟩
    rcases Nat.lt_or_ge i (1 + 3 * n) with a3 | a3
    · exact ⟨2, i - 1 - 2 * n, by omega, by omega, by omega⟩
    rcases Nat.lt_or_ge i (1 + 4 * n) with a4 | a4
    · exact ⟨3, i - 1 - 3 * n, by omega, by omega, by omega⟩
    rcases Nat.lt_or_ge i (1 + 5 * n) with a5 | a5
    · exact ⟨4, i - 1 - 4 * n, by omega, by omega, by omega⟩
    · exact ⟨5, i - 1 - 5 * n, by omega, by omega, by omega⟩
  refine ⟨hbound, ?_, hsurj, val_FG_eval_traced cos sin atan n coeffs fg vars, ?_, ?_, ?_, ?_,
    ?_, ?_, ?_, ?_⟩
  · intro k j k2 j2 hk hj hk2 hj2 h
    interval_cases k <;> interval_cases k2 <;> omega
  · intro k j hk hj
    exact count_writes_of_FG_eval_traced cos sin atan n coeffs fg vars hn _ (hbound k j hk hj).1
      (hbound k j hk hj).2
  · intro i hi
    rw [writes_of_FG_eval_traced] at hi
    simp only [FG_eval_fg_accesses, List.mem_cons, List.mem_append, List.mem_flatMap,
      List.mem_singleton, List.not_mem_nil, or_false, mem_FG_eval_constraint_writes n hn] at hi
    rcases hi with h | ((⟨_, _, h⟩ | ⟨_, _, h⟩) | ⟨_, _, h⟩) | h
    · exact Or.inl h
    · exact Or.inl (by omega)
    · exact Or.inl (by omega)
    · exact Or.inl (by omega)
    · exact Or.inr (hsurj i h.1 h.2)
  · intro fg1
    rw [writes_of_initial_constraints_traced]
    simp only [h6, List.map_cons, List.map_nil, List.cons.injEq, and_true]
    omega
  · intro i fg1
    show [2 + x_start_ind + i, 2 + y_start_ind n + i, 2 + psi_start_ind n + i,
      2 + v_start_ind n + i, 2 + cte_start_ind n + i, 2 + epsi_start_ind n + i] = _
    simp only [h6, List.map_cons, List.map_nil, List.cons.injEq, and_true]
    omega
  · intro fg1 fg2
    rw [writes_of_constraints_traced, mem_FG_eval_constraint_writes n hn]
    omega
  · intro fg2 hfg2
    exact FG_eval_independent_of_fg cos sin atan n coeffs fg fg2 vars (by omega) hfg
      (by rw [hfg2, hfg])
  · intro i hi
    rw [reads_of_FG_eval_traced] at hi
    have := FG_eval_vars_reads_lt n hn i hi
    rw [n_vars_eq] at this
    exact this
  · intro vars2 h
    rw [reads_of_FG_eval_traced] at h
    exact FG_eval_depends_on_reads cos sin atan n coeffs fg vars vars2 h

/-- C16, at the program's `N = 12` over the reals, with zero vectors: the recorded run
assigns `fg` index 72 (field 5, row 11) exactly once, and every index of `vars` that is read is
below `6 * 12 + 2 * 11 = 94`. -/
theorem FG_eval_index_bookkeeping_witness :
    2 ≤ N ∧ (Dvector (1 + n_constraints N) : List ℝ).length = 1 + n_constraints N ∧
    (writes_of Vec.fg (FG_eval_traced Real.cos Real.sin Real.arctan N [0, 0, 0, 0]
      (Dvector (1 + n_constraints N)) (Dvector (n_vars N))).log).count 72 = 1 ∧
    (∀ i ∈ reads_of Vec.vars (FG_eval_traced Real.cos Real.sin Real.arctan N [0, 0, 0, 0]
      (Dvector (1 + n_constraints N)) (Dvector (n_vars N))).log, i < 94) :=
  ⟨by decide, length_Dvector _,
    (FG_eval_index_bookkeeping Real.cos Real.sin Real.arctan N [0, 0, 0, 0]
      (Dvector (1 + n_constraints N)) (Dvector (n_vars N)) (by decide)
      (length_Dvector _)).2.2.2.2.1 5 11 (by decide) (by decide),
    (FG_eval_index_bookkeeping Real.cos Real.sin Real.arctan N [0, 0, 0, 0]
      (Dvector (1 + n_constraints N)) (Dvector (n_vars N)) (by decide)
      (length_Dvector _)).2.2.2.2.2.2.2.2.2.2.1⟩

/-- C17: for every `n ≥ 2`, in the bound assignment of `Solve` with its accesses recorded
(which computes the bound vectors of `Solve_vars_bounds`): when `latency_ind ≤ n - 1`, every
access is an assignment below `n_vars = 6n + 2(n - 1)` and inside its vector, every index below
`n_vars` is assigned in `vars_lowerbound` and in `vars_upperbound`, the two vectors have
`n_vars` entries with `lower ≤ upper` at every index, and the latency lock of `delta` assigns
only below the `a` block; when `latency_ind > n - 1`, the latency lock of `a` assigns at an index
`≥ n_vars`, outside the vectors. -/
theorem bound_assignment_index_safety {α : Type} [LinearOrderedField α] (n lat : Nat)
    (delta_prev a_prev : α) (hn : 2 ≤ n) :
    n_vars n = 6 * n + 2 * (n - 1) ∧
    (Solve_vars_bounds_traced n lat delta_prev a_prev).val =
      Solve_vars_bounds n lat delta_prev a_prev ∧
    (lat ≤ n - 1 →
      (∀ a ∈ (Solve_vars_bounds_traced n lat delta_prev a_prev).log,
        a.write = true ∧ a.index < n_vars n) ∧
      in_range (Solve_vars_bounds_traced n lat delta_prev a_prev).log ∧
      (∀ i, i < n_vars n →
        i ∈ writes_of Vec.vars_lowerbound
          (Solve_vars_bounds_traced n lat delta_prev a_prev).log ∧
        i ∈ writes_of Vec.vars_upperbound
          (Solve_vars_bounds_traced n lat delta_prev a_prev).log) ∧
      ((Solve_vars_bounds n lat delta_prev a_prev).1.length = n_vars n ∧
        (Solve_vars_bounds n lat delta_prev a_prev).2.length = n_vars n ∧
        ∀ i, i < n_vars n → rd (Solve_vars_bounds n lat delta_prev a_prev).1 i ≤
          rd (Solve_vars_bounds n lat delta_prev a_prev).2 i) ∧
      (∀ b, ∀ a ∈ (lock_delta_traced n lat delta_prev b).log,
        a.index < a_start_ind n ∧ ¬ in_block (a_start_ind n, n - 1) a.index)) ∧
    (n - 1 < lat →
      (∀ b, ∃ i ∈ writes_of Vec.vars_lowerbound (lock_a_traced n lat a_prev b).log,
        n_vars n ≤ i) ∧
      (∃ a ∈ (Solve_vars_bounds_traced n lat delta_prev a_prev).log,
        a.write = true ∧ a.size = n_vars n ∧ n_vars n ≤ a.index) ∧
      ¬ in_range (Solve_vars_bounds_traced n lat delta_prev a_prev).log) := by
  have hd := delta_start_ind_eq n
  have ha := a_start_ind_eq n
  have hnv := n_vars_eq n
  have hall := forall_log_Solve_vars_bounds_traced n lat delta_prev a_prev
  refine ⟨hnv, val_Solve_vars_bounds_traced n lat delta_prev a_prev, fun hlat =>
    ⟨?_, ?_, ?_, ⟨length_vars_lowerbound _ _ _ _, length_vars_upperbound _ _ _ _,
      fun i _ => vars_lowerbound_le_upperbound _ _ _ _ i⟩, ?_⟩,
    fun hlat => ⟨?_,
      exists_out_of_range_Solve_vars_bounds_traced n lat delta_prev a_prev hn hlat, ?_⟩⟩
  · intro a h
    obtain ⟨_, h2, _, h4⟩ := hall a h
    rw [mem_Solve_vars_bounds_writes] at h4
    exact ⟨h2, by omega⟩
  · intro a h
    obtain ⟨_, _, h3, h4⟩ := hall a h
    rw [mem_Solve_vars_bounds_writes] at h4
    omega
  · intro i hi
    rw [writes_of_lower_Solve_vars_bounds_traced, writes_of_upper_Solve_vars_bounds_traced,
      mem_Solve_vars_bounds_writes]
    exact ⟨by omega, by omega⟩
  · intro b a h
    have := forall_log_lock_delta_traced n lat delta_prev b a h
    simp only [in_block]
    omega
  · intro b
    refine ⟨a_start_ind n + (n - 1), ?_, by omega⟩
    rw [writes_of_lock_a_traced, mem_loop_indices]
    omega
  · intro hr
    obtain ⟨a, h1, _, h3, h4⟩ :=
      exists_out_of_range_Solve_vars_bounds_traced n lat delta_prev a_prev hn hlat
    have := hr a h1
    omega

/-- C17, at the program's `N = 12`, `latency_ind = 2` over the reals: the recorded bound
assignment stays inside the vectors, index 93 is assigned in `vars_lowerbound`, and
`n_vars = 94`. -/
theorem bound_assignment_index_safety_witness :
    2 ≤ N ∧ latency_ind ≤ N - 1 ∧ n_vars N = 94 ∧
    in_range (Solve_vars_bounds_traced N latency_ind (0 : ℝ) 0).log ∧
    93 ∈ writes_of Vec.vars_lowerbound (Solve_vars_bounds_traced N latency_ind (0 : ℝ) 0).log :=
  ⟨by decide, by decide,
    (bound_assignment_index_safety N latency_ind (0 : ℝ) 0 (by decide)).1,
    ((bound_assignment_index_safety N latency_ind (0 : ℝ) 0 (by decide)).2.2.1
      (by decide)).2.1,
    (((bound_assignment_index_safety N latency_ind (0 : ℝ) 0 (by decide)).2.2.1
      (by decide)).2.2.1 93 (by decide)).1⟩

/-- C18: for every decision vector the cost `fg[0]` computed by `FG_eval` is non-negative,
and it is `0` if and only if `cte_t = 0`, `epsi_t = 0` and `v_t = 75` for every `t` in
`0 .. n-1` and `delta_t = 0` and `a_t = 0` for every `t` in `0 .. n-2`. -/
theorem cost_nonneg_and_zero_iff {α : Type} [LinearOrderedField α] (cos sin atan : α → α)
    (n : Nat) (coeffs fg vars : List α) (hn : 2 ≤ n) (hfg : fg.length = 1 + n_constraints n) :
    0 ≤ rd (FG_eval cos sin atan n coeffs fg vars) 0 ∧
    (rd (FG_eval cos sin atan n coeffs fg vars) 0 = 0 ↔
      (∀ t, t < n → rd vars (cte_start_ind n + t) = 0 ∧ rd vars (epsi_start_ind n + t) = 0 ∧
        rd vars (v_start_ind n + t) = 75) ∧
      (∀ t, t < n - 1 → rd vars (delta_start_ind n + t) = 0 ∧
        rd vars (a_start_ind n + t) = 0)) := by
  rw [(FG_eval_spec cos sin atan n coeffs fg vars (by omega) hfg).2.1, zero_add]
  simp only [ref_cte, ref_epsi, ref_v, sub_zero]
  have h1 : ∀ t ∈ Finset.range n, 0 ≤ rd vars (cte_start_ind n + t) ^ 2 +
      (rd vars (epsi_start_ind n + t) ^ 2 + (rd vars (v_start_ind n + t) - 75) ^ 2) :=
    fun t _ => by positivity
  have h2 : ∀ t ∈ Finset.range (n - 1), 0 ≤ rd vars (delta_start_ind n + t) ^ 2 +
      rd vars (a_start_ind n + t) ^ 2 := fun t _ => by positivity
  have h3 : ∀ t ∈ Finset.range (n - 2), 0 ≤
      700 * (rd vars (delta_start_ind n + t + 1) - rd vars (delta_start_ind n + t)) ^ 2 +
        (rd vars (a_start_ind n + t + 1) - rd vars (a_start_ind n + t)) ^ 2 :=
    fun t _ => by positivity
  have s1 := Finset.sum_nonneg h1
  have s2 := Finset.sum_nonneg h2
  have s3 := Finset.sum_nonneg h3
  refine ⟨by linarith, ⟨fun h => ?_, fun h => ?_⟩⟩
  · have z1 := (Finset.sum_eq_zero_iff_of_nonneg h1).mp (by linarith)
    have z2 := (Finset.sum_eq_zero_iff_of_nonneg h2).mp (by linarith)
    constructor
    · intro t ht
      have e := z1 t (Finset.mem_range.mpr ht)
      have a1 := sq_nonneg (rd vars (cte_start_ind n + t))
      have a2 := sq_nonneg (rd vars (epsi_start_ind n + t))
      have a3 := sq_nonneg (rd vars (v_start_ind n + t) - 75)
      refine ⟨pow_eq_zero_iff (two_ne_zero) |>.mp (by linarith),
        pow_eq_zero_iff (two_ne_zero) |>.mp (by linarith), ?_⟩
      have := pow_eq_zero_iff (two_ne_zero) |>.mp
        (by linarith : (rd vars (v_start_ind n + t) - 75) ^ 2 = 0)
      linarith
    · intro t ht
      have e := z2 t (Finset.mem_range.mpr ht)
      have a1 := sq_nonneg (rd vars (delta_start_ind n + t))
      have a2 := sq_nonneg (rd vars (a_start_ind n + t))
      exact ⟨pow_eq_zero_iff (two_ne_zero) |>.mp (by linarith),
        pow_eq_zero_iff (two_ne_zero) |>.mp (by linarith)⟩
  · obtain ⟨hs, ha⟩ := h
    have z1 : ∑ t ∈ Finset.range n, (rd vars (cte_start_ind n + t) ^ 2 +
        (rd vars (epsi_start_ind n + t) ^ 2 + (rd vars (v_start_ind n + t) - 75) ^ 2)) = 0 :=
      Finset.sum_eq_zero (fun t ht => by
        obtain ⟨e1, e2, e3⟩ := hs t (Finset.mem_range.mp ht)
        rw [e1, e2, e3]
        norm_num)
    have z2 : ∑ t ∈ Finset.range (n - 1), (rd vars (delta_start_ind n + t) ^ 2 +
        rd vars (a_start_ind n + t) ^ 2) = 0 :=
      Finset.sum_eq_zero (fun t ht => by
        obtain ⟨e1, e2⟩ := ha t (Finset.mem_range.mp ht)
        rw [e1, e2]
        norm_num)
    have z3 : ∑ t ∈ Finset.range (n - 2),
        (700 * (rd vars (delta_start_ind n + t + 1) - rd vars (delta_start_ind n + t)) ^ 2 +
          (rd vars (a_start_ind n + t + 1) - rd vars (a_start_ind n + t)) ^ 2) = 0 :=
      Finset.sum_eq_zero (fun t ht => by
        have ht2 := Finset.mem_range.mp ht
        obtain ⟨e1, e2⟩ := ha t (by omega)
        obtain ⟨e3, e4⟩ := ha (t + 1) (by omega)
        rw [Nat.add_assoc, Nat.add_assoc, e1, e2, e3, e4]
        norm_num)
    rw [z1, z2, z3]
    norm_num

/-- C18, at the program's `N = 12` over the reals: the zero vector has a non-negative cost
(it is `67500`, since its speeds are `0` rather than `75`). -/
theorem cost_nonneg_and_zero_iff_witness :
    2 ≤ N ∧ (Dvector (1 + n_constraints N) : List ℝ).length = 1 + n_constraints N ∧
    0 ≤ rd (FG_eval Real.cos Real.sin Real.arctan N [0, 0, 0, 0] (Dvector (1 + n_constraints N))
      (Dvector (n_vars N))) 0 :=
  ⟨by decide, length_Dvector _,
    (cost_nonneg_and_zero_iff Real.cos Real.sin Real.arctan N [0, 0, 0, 0]
      (Dvector (1 + n_constraints N)) (Dvector (n_vars N)) (by decide) (length_Dvector _)).1⟩

end MPC
